import Mathlib

/-! # bee: deep-equality assertions

A shallow embedding of the assertion engine of `assert.go` (with the
configuration of `bee.go`, `config.go`, `option.go`, `color.go`).

* A `reflect.Value` is a `Value`: a Go type together with the data of its kind.
* A Go `string` is a `String` whose characters stand for the bytes of the Go
  string, so `len(s)` is `s.length` and `s[:n]` is `s.take n`.
* The test collaborator `testing.TB` is a trace: every call of `b.error`
  is a `Failure`, every call of `tb.Errorf` / `tb.Logf` is an `Event`.
* The parts of the libraries `fmt`, `strconv` and `lipgloss` that are not
  modelled are taken as parameters (`Env`).
-/

namespace bee

/-! ## Go types (`reflect.Type`, `reflect.Kind`) -/

/-- The kinds of `reflect.Kind` (`RawPointer` is `reflect.UnsafePointer`). -/
inductive Kind where
  | invalid | bool
  | int | int8 | int16 | int32 | int64
  | uint | uint8 | uint16 | uint32 | uint64 | uintptr
  | float32 | float64 | complex64 | complex128
  | array | chan | func | interface | map | pointer | slice | string | struct
  | rawPointer
  deriving DecidableEq, Repr

mutual
/-- Go types up to type identity. `basic k` is the predeclared type of a basic
kind, `named n u` a defined type with qualified name `n` and underlying type
`u`; `func` and `iface` carry the text of their signature / method set. -/
inductive GoType where
  | basic (k : Kind)
  | named (name : String) (underlying : GoType)
  | array (len : Nat) (elem : GoType)
  | slice (elem : GoType)
  | map (key : GoType) (elem : GoType)
  | pointer (elem : GoType)
  | chan (elem : GoType)
  | func (signature : String)
  | iface (methods : String)
  | struct (fields : Fields)
  deriving DecidableEq
/-- The declared fields of a struct type, in declaration order. -/
inductive Fields where
  | nil
  | cons (name : String) (typ : GoType) (rest : Fields)
  deriving DecidableEq
end

/-- Name of a predeclared basic type, as `reflect.Type.String` prints it. -/
def Kind.name : Kind → String
  | .invalid => "invalid"
  | .bool => "bool"
  | .int => "int"
  | .int8 => "int8"
  | .int16 => "int16"
  | .int32 => "int32"
  | .int64 => "int64"
  | .uint => "uint"
  | .uint8 => "uint8"
  | .uint16 => "uint16"
  | .uint32 => "uint32"
  | .uint64 => "uint64"
  | .uintptr => "uintptr"
  | .float32 => "float32"
  | .float64 => "float64"
  | .complex64 => "complex64"
  | .complex128 => "complex128"
  | .array => "array"
  | .chan => "chan"
  | .func => "func"
  | .interface => "interface"
  | .map => "map"
  | .pointer => "ptr"
  | .slice => "slice"
  | .string => "string"
  | .struct => "struct"
  | .rawPointer => "unsafe.Pointer"

/-- The kind of a type: `reflect.Type.Kind`. -/
def GoType.kind : GoType → Kind
  | .basic k => k
  | .named _ u => u.kind
  | .array _ _ => .array
  | .slice _ => .slice
  | .map _ _ => .map
  | .pointer _ => .pointer
  | .chan _ => .chan
  | .func _ => .func
  | .iface _ => .interface
  | .struct _ => .struct

/-- Number of declared fields. -/
def Fields.length : Fields → Nat
  | .nil => 0
  | .cons _ _ rest => rest.length + 1

/-- Name of the `i`-th declared field (the empty text when out of range). -/
def Fields.nameAt : Fields → Nat → String
  | .nil, _ => ""
  | .cons n _ _, 0 => n
  | .cons _ _ rest, i + 1 => rest.nameAt i

/-- Type of the `i`-th declared field. -/
def Fields.typeAt : Fields → Nat → GoType
  | .nil, _ => .basic .invalid
  | .cons _ t _, 0 => t
  | .cons _ _ rest, i + 1 => rest.typeAt i

/-- The fields of a struct type, through defined types. -/
def GoType.fields : GoType → Fields
  | .named _ u => u.fields
  | .struct fs => fs
  | _ => .nil

/-- Element type of an array, slice, map, pointer or channel type:
`reflect.Type.Elem`. -/
def GoType.elem : GoType → GoType
  | .named _ u => u.elem
  | .array _ e => e
  | .slice e => e
  | .map _ e => e
  | .pointer e => e
  | .chan e => e
  | _ => .basic .invalid

/-- Key type of a map type: `reflect.Type.Key`. -/
def GoType.key : GoType → GoType
  | .named _ u => u.key
  | .map k _ => k
  | _ => .basic .invalid

/-- Length of an array type: `reflect.Type.Len`. -/
def GoType.arrayLen : GoType → Nat
  | .named _ u => u.arrayLen
  | .array n _ => n
  | _ => 0

/-- `reflect.Type.NumField`. -/
def GoType.NumField (t : GoType) : Nat := t.fields.length

/-- `reflect.Type.Field(i).Name`. -/
def GoType.FieldName (t : GoType) (i : Nat) : String := t.fields.nameAt i

mutual
/-- The text of a type: `reflect.Type.String`, what `%v` prints for a type. -/
def GoType.typeString : GoType → String
  | .basic k => k.name
  | .named n _ => n
  | .array n e => "[" ++ toString n ++ "]" ++ e.typeString
  | .slice e => "[]" ++ e.typeString
  | .map k e => "map[" ++ k.typeString ++ "]" ++ e.typeString
  | .pointer e => "*" ++ e.typeString
  | .chan e => "chan " ++ e.typeString
  | .func s => s
  | .iface m => if m = "" then "interface \x7b\x7d" else "interface \x7b " ++ m ++ " \x7d"
  | .struct fs => if fs.length = 0 then "struct \x7b\x7d" else "struct \x7b " ++ fs.declString ++ " \x7d"
/-- The field declarations of a struct type, separated by `; `. -/
def Fields.declString : Fields → String
  | .nil => ""
  | .cons n t .nil => n ++ " " ++ t.typeString
  | .cons n t rest => n ++ " " ++ t.typeString ++ "; " ++ rest.declString
end

/-! ## Floating point (`float64`)

A `float64` is NaN, an infinity, or a finite dyadic number
`(-1)^neg * m * 2^e` (for a value of the machine, `m < 2^53` and
`-1074 ≤ e ≤ 971`). Only what the program uses is modelled: subtraction with
rounding to nearest (ties to even), absolute value, `>` and `==` for
`equals`; multiplication and truncation for the conversion of a colour. -/

/-- A `float64`. -/
inductive Float64 where
  | nan
  | inf (neg : Bool)
  | fin (neg : Bool) (m : Nat) (e : Int)
  deriving DecidableEq, Repr

/-- The integer `(-1)^neg * m * 2^(e - E)`, for `E ≤ e`. -/
def Float64.scaled (neg : Bool) (m : Nat) (e E : Int) : Int :=
  (if neg then -1 else 1) * ((m : Int) * 2 ^ (e - E).toNat)

/-- Number of binary digits of `n`, by halving at most `fuel` times. -/
def bitLengthAux : Nat → Nat → Nat
  | 0, _ => 0
  | fuel + 1, n => if n = 0 then 0 else bitLengthAux fuel (n / 2) + 1

/-- Number of binary digits of `n`. -/
def bitLength (n : Nat) : Nat := bitLengthAux n n

/-- Rounding of `(-1)^neg * M * 2^E` to 53 bits, to nearest, ties to even,
overflowing to an infinity. -/
def Float64.round (neg : Bool) (M : Nat) (E : Int) : Float64 :=
  if M < 2 ^ 53 then .fin neg M E
  else
    let k := bitLength M - 53
    let q := M / 2 ^ k
    let r := M % 2 ^ k
    let half := 2 ^ (k - 1)
    let q1 := if half < r ∨ (r = half ∧ q % 2 = 1) then q + 1 else q
    let q2 := if q1 = 2 ^ 53 then 2 ^ 52 else q1
    let E2 := if q1 = 2 ^ 53 then E + k + 1 else E + k
    if 971 < E2 then .inf neg else .fin neg q2 E2

/-- The difference `a - b` of IEEE 754. -/
def Float64.sub : Float64 → Float64 → Float64
  | .nan, _ => .nan
  | _, .nan => .nan
  | .inf n1, .inf n2 => if n1 = n2 then .nan else .inf n1
  | .inf n1, .fin _ _ _ => .inf n1
  | .fin _ _ _, .inf n2 => .inf (!n2)
  | .fin n1 m1 e1, .fin n2 m2 e2 =>
    let E := min e1 e2
    let d := Float64.scaled n1 m1 e1 E - Float64.scaled n2 m2 e2 E
    if d = 0 then .fin (n1 && !n2) 0 E else Float64.round (decide (d < 0)) d.natAbs E

/-- The product `a * b` of IEEE 754, for a product that is zero or not below
`2^-1022` in absolute value (no number below that is rounded here). -/
def Float64.mul : Float64 → Float64 → Float64
  | .nan, _ => .nan
  | _, .nan => .nan
  | .inf n1, .inf n2 => .inf (n1 != n2)
  | .inf n1, .fin n2 m _ => if m = 0 then .nan else .inf (n1 != n2)
  | .fin n1 m _, .inf n2 => if m = 0 then .nan else .inf (n1 != n2)
  | .fin n1 m1 e1, .fin n2 m2 e2 => Float64.round (n1 != n2) (m1 * m2) (e1 + e2)

/-- The conversion `uint8(x)` of a float that is not below 0 and below 256:
the integer part. -/
def Float64.truncate : Float64 → Nat
  | .fin false m e => if 0 ≤ e then m * 2 ^ e.toNat else m / 2 ^ (-e).toNat
  | _ => 0

/-- The absolute value `math.Abs`. -/
def Float64.abs : Float64 → Float64
  | .nan => .nan
  | .inf _ => .inf false
  | .fin _ m e => .fin false m e

/-- The comparison `a > b` of IEEE 754: false when either side is NaN. -/
def Float64.gt : Float64 → Float64 → Bool
  | .nan, _ => false
  | _, .nan => false
  | .inf n1, .inf n2 => !n1 && n2
  | .inf n1, .fin _ _ _ => !n1
  | .fin _ _ _, .inf n2 => n2
  | .fin n1 m1 e1, .fin n2 m2 e2 =>
    decide (Float64.scaled n2 m2 e2 (min e1 e2) < Float64.scaled n1 m1 e1 (min e1 e2))

/-- The comparison `a <= b` of IEEE 754: false when either side is NaN. -/
def Float64.le : Float64 → Float64 → Bool
  | .nan, _ => false
  | _, .nan => false
  | .inf n1, .inf n2 => n1 || !n2
  | .inf n1, .fin _ _ _ => n1
  | .fin _ _ _, .inf n2 => !n2
  | .fin n1 m1 e1, .fin n2 m2 e2 =>
    decide (Float64.scaled n1 m1 e1 (min e1 e2) ≤ Float64.scaled n2 m2 e2 (min e1 e2))

/-- The comparison `a == b` of IEEE 754: NaN differs from everything, the two
zeros are equal. -/
def Float64.eq : Float64 → Float64 → Bool
  | .nan, _ => false
  | _, .nan => false
  | .inf n1, .inf n2 => n1 == n2
  | .inf _, .fin _ _ _ => false
  | .fin _ _ _, .inf _ => false
  | .fin n1 m1 e1, .fin n2 m2 e2 =>
    decide (Float64.scaled n1 m1 e1 (min e1 e2) = Float64.scaled n2 m2 e2 (min e1 e2))

/-- Whether the value is NaN. -/
def Float64.isNaN : Float64 → Bool
  | .nan => true
  | _ => false

/-- The constant `1e-9` of `equals`, as the `float64` nearest to it:
`0x1.12e0be826d695p-30`. -/
def epsilon : Float64 := .fin false 0x112e0be826d695 (-82)

/-! ## Values (`reflect.Value`) -/

/-- A `reflect.Value`: the zero Value (`invalid`), or a value of a Go type
`t` with the data of its kind. Integers are held as `int64` / `uint64`
values, floats as `float64`; a slice or map knows whether it is nil; a map
lists its entries in the order `MapKeys` returns them; a pointer, channel,
function or raw pointer has an address (0 for nil) and a pointer its
pointee; a value of interface type holds its dynamic value (`invalid` for a
nil interface). -/
inductive Value where
  | invalid
  | bool (t : GoType) (b : Bool)
  | int (t : GoType) (i : Int)
  | uint (t : GoType) (n : Nat)
  | uintptr (t : GoType) (n : Nat)
  | float (t : GoType) (x : Float64)
  | complex (t : GoType) (re : Float64) (im : Float64)
  | string (t : GoType) (s : String)
  | iface (t : GoType) (elem : Value)
  | array (t : GoType) (elems : List Value)
  | slice (t : GoType) (isNil : Bool) (elems : List Value)
  | map (t : GoType) (isNil : Bool) (entries : List (Value × Value))
  | struct (t : GoType) (fields : List Value)
  | chan (t : GoType) (addr : Nat)
  | func (t : GoType) (addr : Nat)
  | ptr (t : GoType) (addr : Nat) (elem : Value)
  | rawPointer (t : GoType) (addr : Nat)

instance : Inhabited Value := ⟨.invalid⟩

/-- `reflect.Value.IsValid`. -/
def Value.IsValid : Value → Bool
  | .invalid => false
  | _ => true

/-- `reflect.Value.Type` (of a valid value). -/
def Value.goType : Value → GoType
  | .invalid => .basic .invalid
  | .bool t _ => t
  | .int t _ => t
  | .uint t _ => t
  | .uintptr t _ => t
  | .float t _ => t
  | .complex t _ _ => t
  | .string t _ => t
  | .iface t _ => t
  | .array t _ => t
  | .slice t _ _ => t
  | .map t _ _ => t
  | .struct t _ => t
  | .chan t _ => t
  | .func t _ => t
  | .ptr t _ _ => t
  | .rawPointer t _ => t

/-- `reflect.Value.Kind`. -/
def Value.goKind (v : Value) : Kind := v.goType.kind

/-- `reflect.Value.Bool`. -/
def Value.asBool : Value → Bool
  | .bool _ b => b
  | _ => false

/-- `reflect.Value.Int`: the value as an `int64`. -/
def Value.asInt : Value → Int
  | .int _ i => i
  | _ => 0

/-- `reflect.Value.Uint`: the value as a `uint64`. -/
def Value.asUint : Value → Nat
  | .uint _ n => n
  | .uintptr _ n => n
  | _ => 0

/-- `reflect.Value.Float`: the value as a `float64`. -/
def Value.asFloat : Value → Float64
  | .float _ x => x
  | _ => .fin false 0 0

/-- `reflect.Value.Complex`: real and imaginary part of the `complex128`. -/
def Value.asComplex : Value → Float64 × Float64
  | .complex _ re im => (re, im)
  | _ => (.fin false 0 0, .fin false 0 0)

/-- `reflect.Value.String` (of a value of kind String). -/
def Value.asString : Value → String
  | .string _ s => s
  | _ => ""

/-- `reflect.Value.Len`. -/
def Value.Len : Value → Nat
  | .array _ xs => xs.length
  | .slice _ _ xs => xs.length
  | .map _ _ es => es.length
  | .string _ s => s.length
  | _ => 0

/-- `reflect.Value.Index(i)`, for `i < Len`. -/
def Value.Index : Value → Nat → Value
  | .array _ xs, i => xs.getD i .invalid
  | .slice _ _ xs, i => xs.getD i .invalid
  | _, _ => .invalid

/-- `reflect.Value.Field(i)`, for `i < NumField`. -/
def Value.Field : Value → Nat → Value
  | .struct _ fs, i => fs.getD i .invalid
  | _, _ => .invalid

/-- `reflect.Value.Elem`. -/
def Value.Elem : Value → Value
  | .iface _ e => e
  | .ptr _ _ e => e
  | _ => .invalid

/-- `reflect.Value.IsNil`, for the kinds that have a nil. -/
def Value.IsNil : Value → Bool
  | .iface _ e => !e.IsValid
  | .slice _ n _ => n
  | .map _ n _ => n
  | .chan _ a => a == 0
  | .func _ a => a == 0
  | .ptr _ a _ => a == 0
  | .rawPointer _ a => a == 0
  | _ => false

mutual
/-- The comparison `a == b` of Go on two values of one comparable type, as
the map implementation uses it on keys: numbers by value (IEEE 754 on
floats), pointers and channels by address, interfaces by dynamic type and
dynamic value, arrays and structs component by component. -/
def Value.goEq (a b : Value) : Bool :=
  match a with
  | .invalid => !b.IsValid
  | .bool _ x => match b with
    | .bool _ y => x == y
    | _ => false
  | .int _ x => match b with
    | .int _ y => x == y
    | _ => false
  | .uint _ x => match b with
    | .uint _ y => x == y
    | _ => false
  | .uintptr _ x => match b with
    | .uintptr _ y => x == y
    | _ => false
  | .float _ x => match b with
    | .float _ y => x.eq y
    | _ => false
  | .complex _ re im => match b with
    | .complex _ re2 im2 => re.eq re2 && im.eq im2
    | _ => false
  | .string _ x => match b with
    | .string _ y => x == y
    | _ => false
  | .iface _ e => match b with
    | .iface _ e2 =>
      if !e.IsValid || !e2.IsValid then e.IsValid == e2.IsValid
      else decide (e.goType = e2.goType) && Value.goEq e e2
    | _ => false
  | .array _ xs => match b with
    | .array _ ys => Value.goEqList xs ys
    | _ => false
  | .struct _ xs => match b with
    | .struct _ ys => Value.goEqList xs ys
    | _ => false
  | .chan _ x => match b with
    | .chan _ y => x == y
    | _ => false
  | .ptr _ x _ => match b with
    | .ptr _ y _ => x == y
    | _ => false
  | .rawPointer _ x => match b with
    | .rawPointer _ y => x == y
    | _ => false
  | .slice _ _ _ => false
  | .map _ _ _ => false
  | .func _ _ => false
termination_by structural a
/-- Componentwise `==` on the elements of two arrays / fields of two structs. -/
def Value.goEqList (xs ys : List Value) : Bool :=
  match xs with
  | [] => ys.isEmpty
  | x :: xs1 => match ys with
    | [] => false
    | y :: ys1 => Value.goEq x y && Value.goEqList xs1 ys1
termination_by structural xs
end

/-- Lookup of key `k` in the entries of a map; the zero Value when absent. -/
def lookupKey (k : Value) : List (Value × Value) → Value
  | [] => .invalid
  | (k1, v1) :: rest => if Value.goEq k1 k then v1 else lookupKey k rest

/-- `reflect.Value.MapIndex(k)`: the value under key `k`, the zero Value when
the map has no such key. -/
def Value.MapIndex : Value → Value → Value
  | .map _ _ es, k => lookupKey k es
  | _, _ => .invalid

/-! ## Formatting (`fmt`) -/

/-- The parts of the libraries that are parameters of the model:
`formatFloat bits x` is `strconv.FormatFloat` of `x` in format `g` with the
shortest digits for a float of `bits` bits, `mapOrder keys` the order in which `fmt` prints the
entries of a map with these keys (positions in `keys`, sorted by key). -/
structure Env where
  formatFloat : Nat → Float64 → String
  mapOrder : List Value → List Nat

/-- The two verbs used by `assert.go`: `%v` and `%s`. -/
inductive Verb where
  | v
  | s
  deriving DecidableEq, Repr

/-- `fmtBool` under `%v`. -/
def fmtBool (b : Bool) : String := if b then "true" else "false"

/-- `fmt0x64` on an address: `0x` and lower-case hexadecimal digits. -/
def fmtHex (n : Nat) : String := "0x" ++ String.mk (Nat.toDigits 16 n)

/-- `fmtPointer` under `%v`. -/
def fmtPointer (addr : Nat) : String := if addr = 0 then "<nil>" else fmtHex addr

/-- `fmtFloat` under `%v` for a value of a float type `t`. -/
def fmtFloat (env : Env) (bits : Nat) (x : Float64) : String := env.formatFloat bits x

/-- `fmtFloat` with the plus flag: the sign is always printed. -/
def fmtFloatPlus (env : Env) (bits : Nat) (x : Float64) : String :=
  let s := env.formatFloat bits x
  if s.startsWith "-" || s.startsWith "+" then s else "+" ++ s

/-- `fmtComplex` under `%v`. -/
def fmtComplex (env : Env) (bits : Nat) (re im : Float64) : String :=
  "(" ++ fmtFloat env bits re ++ fmtFloatPlus env bits im ++ "i)"

/-- Size in bits of the floats of a float or complex type. -/
def floatBits (t : GoType) : Nat :=
  match t.kind with
  | .float32 => 32
  | .complex64 => 32
  | _ => 64

/-- `badVerb` for verb `%s` on a valid value of type `t` whose `%v` text is
`shown`. -/
def badVerb (t : GoType) (shown : String) : String :=
  "%!s(" ++ t.typeString ++ "=" ++ shown ++ ")"

/-- Whether a pointee is printed behind `&` at depth 0. -/
def isComposite (k : Kind) : Bool :=
  k == .array || k == .slice || k == .struct || k == .map

/-- The texts at the positions `order`, in that order. -/
def reorder (order : List Nat) (texts : List String) : List String :=
  order.map (fun i => texts.getD i "")

mutual
/-- `printValue` of `fmt` for the verbs `%v` and `%s` without flags, on values
whose types have no formatting methods (`Format`, `Error`, `String`). -/
def printValue (env : Env) (verb : Verb) (v : Value) (depth : Nat) : String :=
  match v with
  | .invalid =>
    if depth = 0 then "<invalid reflect.Value>"
    else match verb with
      | .v => "<nil>"
      | .s => "%!s(<nil>)"
  | .bool t b => match verb with
    | .v => fmtBool b
    | .s => badVerb t (fmtBool b)
  | .int t i => match verb with
    | .v => toString i
    | .s => badVerb t (toString i)
  | .uint t n => match verb with
    | .v => toString n
    | .s => badVerb t (toString n)
  | .uintptr t n => match verb with
    | .v => toString n
    | .s => badVerb t (toString n)
  | .float t x => match verb with
    | .v => fmtFloat env (floatBits t) x
    | .s => badVerb t (fmtFloat env (floatBits t) x)
  | .complex t re im => match verb with
    | .v => fmtComplex env (floatBits t) re im
    | .s => badVerb t (fmtComplex env (floatBits t) re im)
  | .string _ s => s
  | .map _ _ es =>
    "map[" ++ " ".intercalate (reorder (env.mapOrder (es.map Prod.fst))
      (printEntries env verb es (depth + 1))) ++ "]"
  | .struct _ fs => "\x7b" ++ " ".intercalate (printList env verb fs (depth + 1)) ++ "\x7d"
  | .iface _ e => if !e.IsValid then "<nil>" else printValue env verb e (depth + 1)
  | .array t xs =>
    if verb = .s ∧ t.elem.kind = .uint8 then String.mk (xs.map (fun x => Char.ofNat x.asUint))
    else "[" ++ " ".intercalate (printList env verb xs (depth + 1)) ++ "]"
  | .slice t _ xs =>
    if verb = .s ∧ t.elem.kind = .uint8 then String.mk (xs.map (fun x => Char.ofNat x.asUint))
    else "[" ++ " ".intercalate (printList env verb xs (depth + 1)) ++ "]"
  | .ptr t addr e =>
    if depth = 0 ∧ addr ≠ 0 ∧ isComposite e.goKind = true then
      "&" ++ printValue env verb e (depth + 1)
    else match verb with
      | .v => fmtPointer addr
      | .s =>
        badVerb t (if addr ≠ 0 ∧ isComposite e.goKind = true then "&" ++ printValue env .v e 1
          else fmtPointer addr)
  | .chan t addr => match verb with
    | .v => fmtPointer addr
    | .s => badVerb t (fmtPointer addr)
  | .func t addr => match verb with
    | .v => fmtPointer addr
    | .s => badVerb t (fmtPointer addr)
  | .rawPointer t addr => match verb with
    | .v => fmtPointer addr
    | .s => badVerb t (fmtPointer addr)
termination_by structural v
/-- The texts of the elements of an array or slice, or of the fields of a
struct. -/
def printList (env : Env) (verb : Verb) (xs : List Value) (depth : Nat) : List String :=
  match xs with
  | [] => []
  | x :: rest => printValue env verb x depth :: printList env verb rest depth
termination_by structural xs
/-- The texts `key:value` of the entries of a map, in the order of the entries. -/
def printEntries (env : Env) (verb : Verb) (es : List (Value × Value)) (depth : Nat) :
    List String :=
  match es with
  | [] => []
  | (k, x) :: rest =>
    (printValue env verb k depth ++ ":" ++ printValue env verb x depth) ::
      printEntries env verb rest depth
termination_by structural es
end

/-- What `b.error` is given as `actual` or `expected`: a `reflect.Value`, a
`reflect.Type`, a primitive read from a Value, a length, or (from `Nil` and
`NotNil`) an interface value, `invalid` standing for `nil`. -/
inductive Leaf where
  | value (v : Value)
  | type (t : GoType)
  | bool (b : Bool)
  | int64 (i : Int)
  | uint64 (n : Nat)
  | float64 (x : Float64)
  | complex128 (re : Float64) (im : Float64)
  | string (s : String)
  | int (n : Int)
  | any (v : Value)

/-- The text of a leaf: `fmt.Sprintf("%v", leaf)`. -/
def Sprint (env : Env) : Leaf → String
  | .value v => printValue env .v v 0
  | .type t => t.typeString
  | .bool b => fmtBool b
  | .int64 i => toString i
  | .uint64 n => toString n
  | .float64 x => fmtFloat env 64 x
  | .complex128 re im => fmtComplex env 64 re im
  | .string s => s
  | .int n => toString n
  | .any v => if v.IsValid then printValue env .v v 0 else "<nil>"

/-! ## The engine (`assert.go`) -/

/-- One call `b.error(actual, expected, what, relation)`. -/
structure Failure where
  actual : Leaf
  expected : Leaf
  what : String
  relation : String

/-- The call `b.errorEquals(actual, expected, what)`. -/
def Bee.errorEquals (actual expected : Leaf) (what : String) : Failure :=
  ⟨actual, expected, what, "=="⟩

/-- The call `b.errorNotEquals(actual, expected, what)`. -/
def Bee.errorNotEquals (actual expected : Leaf) (what : String) : Failure :=
  ⟨actual, expected, what, "!="⟩

mutual
/-- The method `equals` of `assert.go`: the calls of `b.errorNotEquals` it
makes, in order. The accesses `expected.Index(i)`, `expected.Field(i)` are
in range because the types, and for sequences the lengths, are equal. For a
key `k` of `actual.MapKeys()`, `actual.MapIndex(k)` is the value stored under
`k`, except that a key that differs from itself (a NaN) is not found, so
that `actual.MapIndex(k)` is then the zero Value. -/
def Bee.equals (env : Env) (actual expected : Value) (what : String) : List Failure :=
  if !actual.IsValid || !expected.IsValid then
    if actual.IsValid != expected.IsValid then
      [Bee.errorNotEquals (.value actual) (.value expected) what]
    else []
  else if actual.goType ≠ expected.goType then
    [Bee.errorNotEquals (.type actual.goType) (.type expected.goType) what]
  else
    match actual with
    | .invalid => []
    | .bool _ x =>
      if x ≠ expected.asBool then [Bee.errorNotEquals (.bool x) (.bool expected.asBool) what]
      else []
    | .int _ x =>
      if x ≠ expected.asInt then [Bee.errorNotEquals (.int64 x) (.int64 expected.asInt) what]
      else []
    | .uint _ x =>
      if x ≠ expected.asUint then [Bee.errorNotEquals (.uint64 x) (.uint64 expected.asUint) what]
      else []
    | .float _ x =>
      if (x.sub expected.asFloat).abs.gt epsilon then
        [Bee.errorNotEquals (.float64 x) (.float64 expected.asFloat) what]
      else []
    | .complex _ re im =>
      if !(re.eq expected.asComplex.1 && im.eq expected.asComplex.2) then
        [Bee.errorNotEquals (.complex128 re im)
          (.complex128 expected.asComplex.1 expected.asComplex.2) what]
      else []
    | .string _ x =>
      if x ≠ expected.asString then
        [Bee.errorNotEquals (.string x) (.string expected.asString) what]
      else []
    | .iface _ e => Bee.equals env e expected.Elem what
    | .array _ xs =>
      if xs.length ≠ expected.Len then
        [Bee.errorNotEquals (.int xs.length) (.int expected.Len) ("len(" ++ what ++ ")")]
      else Bee.equalsIndex env xs expected 0 what
    | .slice _ _ xs =>
      if xs.length ≠ expected.Len then
        [Bee.errorNotEquals (.int xs.length) (.int expected.Len) ("len(" ++ what ++ ")")]
      else Bee.equalsIndex env xs expected 0 what
    | .map _ _ es =>
      if es.length ≠ expected.Len then
        [Bee.errorNotEquals (.int es.length) (.int expected.Len) ("len(" ++ what ++ ")")]
      else Bee.equalsKeys env es expected what
    | .struct t fs => Bee.equalsFields env fs expected t 0 what
    | .chan _ _ => []
    | .func _ _ => []
    | .ptr _ _ _ => []
    | .rawPointer _ _ => []
    | .uintptr _ _ => []
termination_by structural actual
/-- The loop of `equals` over the indices `i, i+1, ...` of a sequence, `xs`
being the elements of `actual` from index `i` on. -/
def Bee.equalsIndex (env : Env) (xs : List Value) (expected : Value) (i : Nat) (what : String) :
    List Failure :=
  match xs with
  | [] => []
  | x :: rest =>
    Bee.equals env x (expected.Index i) (what ++ "[" ++ toString i ++ "]") ++
      Bee.equalsIndex env rest expected (i + 1) what
termination_by structural xs
/-- The loop of `equals` over the keys of `actual.MapKeys()`, `es` being the
entries of `actual` not yet visited. -/
def Bee.equalsKeys (env : Env) (es : List (Value × Value)) (expected : Value) (what : String) :
    List Failure :=
  match es with
  | [] => []
  | (k, x) :: rest =>
    (if Value.goEq k k then
      Bee.equals env x (expected.MapIndex k) (what ++ "[" ++ printValue env .s k 0 ++ "]")
    else if (expected.MapIndex k).IsValid then
      [Bee.errorNotEquals (.value .invalid) (.value (expected.MapIndex k))
        (what ++ "[" ++ printValue env .s k 0 ++ "]")]
    else []) ++ Bee.equalsKeys env rest expected what
termination_by structural es
/-- The loop of `equals` over the fields `i, i+1, ...` of a struct of type
`t`, `fs` being the fields of `actual` from field `i` on. -/
def Bee.equalsFields (env : Env) (fs : List Value) (expected : Value) (t : GoType) (i : Nat)
    (what : String) : List Failure :=
  match fs with
  | [] => []
  | x :: rest =>
    Bee.equals env x (expected.Field i) (what ++ "." ++ t.FieldName i) ++
      Bee.equalsFields env rest expected t (i + 1) what
termination_by structural fs
end

/-- The method `Equal` of `assert.go`, on the two values
`reflect.ValueOf(actual)` and `reflect.ValueOf(expected)`: the calls of
`b.errorNotEquals` it makes. -/
def Bee.Equal (env : Env) (actual expected : Value) : List Failure :=
  Bee.equals env actual expected ""

/-! ## Styles and configuration (`config.go`, `option.go`, `color.go`, `bee.go`) -/

/-- The properties of a `lipgloss.Style` that the options set: a foreground
colour (`none` when unset or `lipgloss.NoColor`), and sizes, which lipgloss
keeps at zero or above. -/
structure Style where
  foreground : Option String
  maxWidth : Nat
  width : Nat
  paddingLeft : Nat
  paddingRight : Nat
  deriving DecidableEq, Repr

/-- The zero `lipgloss.Style`. -/
def Style.zero : Style := ⟨none, 0, 0, 0, 0⟩

/-- The struct `config`. -/
structure config where
  whatTextStyle : Style
  expectedTextStyle : Style
  actualTextStyle : Style
  expectedColumnStyle : Style
  actualColumnStyle : Style
  deriving DecidableEq, Repr

/-- The type `option`. -/
abbrev option := config → config

/-- Two lower-case hexadecimal digits of a `uint8`: `%02x`. -/
def hex2 (n : Nat) : String :=
  String.mk [Nat.digitChar (n % 256 / 16), Nat.digitChar (n % 16)]

/-- The function `rgb` of `color.go`. -/
def rgb (r g b : Nat) : String := "#" ++ hex2 r ++ hex2 g ++ hex2 b

/-- The option `ColumnWidth`. -/
def ColumnWidth (w : Int) : option := fun cfg =>
  { cfg with
    expectedTextStyle := { cfg.expectedTextStyle with maxWidth := w.toNat }
    actualTextStyle := { cfg.actualTextStyle with maxWidth := w.toNat }
    expectedColumnStyle := { cfg.expectedColumnStyle with width := w.toNat, paddingLeft := 1 }
    actualColumnStyle := { cfg.actualColumnStyle with width := w.toNat, paddingRight := 1 } }

/-- The option `NoColor`. -/
def NoColor : option := fun cfg =>
  { whatTextStyle := { cfg.whatTextStyle with foreground := none }
    expectedTextStyle := { cfg.expectedTextStyle with foreground := none }
    actualTextStyle := { cfg.actualTextStyle with foreground := none }
    expectedColumnStyle := { cfg.expectedColumnStyle with foreground := none }
    actualColumnStyle := { cfg.actualColumnStyle with foreground := none } }

/-- The option `WhatColor`. -/
def WhatColor (r g b : Nat) : option := fun cfg =>
  { cfg with whatTextStyle := { cfg.whatTextStyle with foreground := some (rgb r g b) } }

/-- The option `ExpectedColor`. -/
def ExpectedColor (r g b : Nat) : option := fun cfg =>
  { cfg with
    expectedTextStyle := { cfg.expectedTextStyle with foreground := some (rgb r g b) }
    expectedColumnStyle := { cfg.expectedColumnStyle with foreground := some (rgb r g b) } }

/-- The option `ActualColor`. -/
def ActualColor (r g b : Nat) : option := fun cfg =>
  { cfg with
    actualTextStyle := { cfg.actualTextStyle with foreground := some (rgb r g b) }
    actualColumnStyle := { cfg.actualColumnStyle with foreground := some (rgb r g b) } }

/-- The variable `defaultOpts` of `config.go`. -/
def defaultOpts : List option :=
  [ColumnWidth 60, WhatColor 2 118 250, ExpectedColor 18 181 32, ActualColor 250 40 25]

/-- The function `newConfig`. -/
def newConfig : config :=
  defaultOpts.foldl (fun cfg opt => opt cfg) ⟨Style.zero, Style.zero, Style.zero, Style.zero, Style.zero⟩

/-- The struct `Bee`; its collaborator `tb` is the trace of events. -/
structure Bee where
  cfg : config

/-- The function `New`, given the value of the flag `nocolor`. -/
def New (noColor : Bool) (opts : List option) : Bee :=
  ⟨(if noColor then opts ++ [NoColor] else opts).foldl (fun cfg opt => opt cfg) newConfig⟩

/-! ## The reporter (`assert.go`) -/

/-- The parts of `lipgloss` that are parameters of the model: `render` is
`Style.Render` outside the case modelled by `Style.Render` below,
`joinHorizontal` is `lipgloss.JoinHorizontal(lipgloss.Top, left, right)`. -/
structure Lipgloss where
  render : Style → String → String
  joinHorizontal : String → String → String

/-- Value of a hexadecimal digit. -/
def hexVal (c : Char) : Nat :=
  if c.isDigit then c.toNat - 48
  else if 97 ≤ c.toNat ∧ c.toNat ≤ 102 then c.toNat - 87
  else if 65 ≤ c.toNat ∧ c.toNat ≤ 70 then c.toNat - 55
  else 0

/-- The constant `1.0 / 255.0` of the colour library, as the `float64` nearest
to it: `0x1.0101010101010p-8`. -/
def colorFactor : Float64 := .fin false 0x10101010101010 (-60)

/-- A colour component on its way to the terminal: the library reads it from
the text of the colour as `float64(n) * (1.0 / 255.0)`, and the sequence is
written with `uint8(x * 255)`. -/
def colorComponent (n : Nat) : Nat :=
  (((Float64.fin false n 0).mul colorFactor).mul (.fin false 255 0)).truncate

/-- The true-colour foreground sequence of a colour `#rrggbb`:
`38;2;r;g;b`, each component converted as above. -/
def colorSeq (c : String) : String :=
  match c.data with
  | [_, r1, r0, g1, g0, b1, b0] =>
    "38;2;" ++ toString (colorComponent (hexVal r1 * 16 + hexVal r0)) ++ ";" ++
      toString (colorComponent (hexVal g1 * 16 + hexVal g0)) ++ ";" ++
      toString (colorComponent (hexVal b1 * 16 + hexVal b0))
  | _ => ""

/-- Whether a text is one line without tabs or carriage returns. -/
def isInline (str : String) : Bool :=
  str.data.all (fun c => c.toNat != 10 && c.toNat != 9 && c.toNat != 13)

/-- The method `Render` of `lipgloss.Style` under the true-colour profile.
Modelled for a style without width and padding on a one-line text that
fits the maximal width: the text, between the colour sequence and the reset
sequence when the style has a foreground colour. Every other case is left to
the parameter. -/
def Style.Render (lg : Lipgloss) (s : Style) (str : String) : String :=
  if s.width = 0 ∧ s.paddingLeft = 0 ∧ s.paddingRight = 0 ∧
      (s.maxWidth = 0 ∨ str.length ≤ s.maxWidth) ∧ isInline str = true then
    match s.foreground with
    | none => str
    | some c => "\x1b[" ++ colorSeq c ++ "m" ++ str ++ "\x1b[0m"
  else lg.render s str

/-- A call of the collaborator: `tb.Errorf` or `tb.Logf`, with the formatted
message. -/
inductive Event where
  | errorf (msg : String)
  | logf (msg : String)
  deriving DecidableEq, Repr

/-- The function `wrap`: `none` when the slice `s[:w-3]` is out of range. -/
def wrap (s : String) (w : Int) : Option String :=
  let s1 := String.mk (s.data.filter (fun c => c.toNat != 10))
  if w < (s1.length : Int) then
    if w - 3 < 0 then none else some (s1.take (w - 3).toNat ++ "...")
  else some s1

/-- The method `error`: the calls of `tb.Errorf` and `tb.Logf` it makes,
`none` when `wrap` fails. -/
def Bee.error (b : Bee) (env : Env) (lg : Lipgloss) (f : Failure) : Option (List Event) :=
  let sActual := Sprint env f.actual
  let sExpected := Sprint env f.expected
  match wrap sActual b.cfg.actualTextStyle.maxWidth with
  | none => none
  | some wActual =>
    match wrap sExpected b.cfg.expectedTextStyle.maxWidth with
    | none => none
    | some wExpected =>
      let msg := b.cfg.actualTextStyle.Render lg wActual ++ " " ++ f.relation ++ " " ++
        b.cfg.expectedTextStyle.Render lg wExpected ++
        (if f.what ≠ "" then " (" ++ b.cfg.whatTextStyle.Render lg f.what ++ ")" else "")
      some (Event.errorf msg ::
        (if b.cfg.expectedColumnStyle.width + b.cfg.actualColumnStyle.width <
            sActual.length + sExpected.length then
          [Event.logf ("\n" ++ lg.joinHorizontal (b.cfg.actualColumnStyle.Render lg sActual)
            (b.cfg.expectedColumnStyle.Render lg sExpected))]
        else []))

/-- The calls of the collaborator made for a sequence of calls of `b.error`,
`none` when one of them fails. -/
def Bee.report (b : Bee) (env : Env) (lg : Lipgloss) : List Failure → Option (List Event)
  | [] => some []
  | f :: rest =>
    match b.error env lg f with
    | none => none
    | some es =>
      match Bee.report b env lg rest with
      | none => none
      | some es1 => some (es ++ es1)

/-- The function `isNil`, on `reflect.ValueOf(value)`. -/
def isNil (value : Value) : Bool :=
  if !value.IsValid then true
  else match value.goKind with
    | .chan => value.IsNil
    | .func => value.IsNil
    | .interface => value.IsNil
    | .slice => value.IsNil
    | .map => value.IsNil
    | .pointer => value.IsNil
    | .rawPointer => value.IsNil
    | _ => false

/-- The method `Nil`: the calls of `b.error` it makes. -/
def Bee.Nil (actual : Value) : List Failure :=
  if !isNil actual then [Bee.errorNotEquals (.any actual) (.any .invalid) ""] else []

/-- The method `NotNil`: the calls of `b.error` it makes. -/
def Bee.NotNil (actual : Value) : List Failure :=
  if isNil actual then [Bee.errorEquals (.any actual) (.any .invalid) ""] else []

/-- The method `True`. -/
def Bee.True (env : Env) (actual : Bool) : List Failure :=
  Bee.Equal env (.bool (.basic .bool) actual) (.bool (.basic .bool) true)

/-- The method `False`. -/
def Bee.False (env : Env) (actual : Bool) : List Failure :=
  Bee.Equal env (.bool (.basic .bool) actual) (.bool (.basic .bool) false)

/-! ## Well-formed values

What the Go type system and the runtime guarantee of every value that
`reflect.ValueOf` can return, and the classes of values the statements
speak about. -/

/-- Whether `i` is a value of the signed integer kind `k` (`int` has 64
bits). -/
def intFits (k : Kind) (i : Int) : Bool :=
  match k with
  | .int8 => decide (-2 ^ 7 ≤ i ∧ i < 2 ^ 7)
  | .int16 => decide (-2 ^ 15 ≤ i ∧ i < 2 ^ 15)
  | .int32 => decide (-2 ^ 31 ≤ i ∧ i < 2 ^ 31)
  | .int64 => decide (-2 ^ 63 ≤ i ∧ i < 2 ^ 63)
  | .int => decide (-2 ^ 63 ≤ i ∧ i < 2 ^ 63)
  | _ => false

/-- Whether `n` is a value of the unsigned integer kind `k` other than
`uintptr` (`uint` has 64 bits). -/
def uintFits (k : Kind) (n : Nat) : Bool :=
  match k with
  | .uint8 => decide (n < 2 ^ 8)
  | .uint16 => decide (n < 2 ^ 16)
  | .uint32 => decide (n < 2 ^ 32)
  | .uint64 => decide (n < 2 ^ 64)
  | .uint => decide (n < 2 ^ 64)
  | _ => false

/-- Whether a float is a value of the machine: NaN, an infinity, or
`m * 2^e` with `m < 2^53` and `-1074 ≤ e ≤ 971`. -/
def Float64.representable : Float64 → Bool
  | .fin _ m e => decide (m < 2 ^ 53 ∧ -1074 ≤ e ∧ e ≤ 971)
  | _ => true

/-- Whether the keys of a map are pairwise different under `==`. -/
def distinctKeys : List Value → Bool
  | [] => true
  | k :: ks => ks.all (fun k2 => !Value.goEq k k2) && distinctKeys ks

mutual
/-- Whether a value can be a map key: it holds no slice, map or function
(through interfaces, arrays and structs). -/
def Value.hashable (v : Value) : Bool :=
  match v with
  | .invalid => false
  | .bool _ _ => true
  | .int _ _ => true
  | .uint _ _ => true
  | .uintptr _ _ => true
  | .float _ _ => true
  | .complex _ _ _ => true
  | .string _ _ => true
  | .iface _ e => !e.IsValid || Value.hashable e
  | .array _ xs => Value.hashableList xs
  | .slice _ _ _ => false
  | .map _ _ _ => false
  | .struct _ xs => Value.hashableList xs
  | .chan _ _ => true
  | .func _ _ => false
  | .ptr _ _ _ => true
  | .rawPointer _ _ => true
termination_by structural v
/-- Whether every value of a list can be (part of) a map key. -/
def Value.hashableList (xs : List Value) : Bool :=
  match xs with
  | [] => true
  | x :: rest => Value.hashable x && Value.hashableList rest
termination_by structural xs
end

mutual
/-- Whether a value is a well-formed value of its type `t`: the data has the
kind of `t`, numbers are in range, the elements of a sequence have the
element type, an array has the length of its type, a nil slice or map is
empty, the keys of a map have the key type, can be keys and are pairwise
different, a struct has the fields its type declares, an interface holds
nothing or a value that is not itself an interface, a nil pointer has no
pointee and any other pointer a pointee of the element type. -/
def Value.wellTyped (v : Value) : Bool :=
  match v with
  | .invalid => false
  | .bool t _ => t.kind == .bool
  | .int t i => intFits t.kind i
  | .uint t n => uintFits t.kind n
  | .uintptr t n => t.kind == .uintptr && decide (n < 2 ^ 64)
  | .float t x => (t.kind == .float32 || t.kind == .float64) && x.representable
  | .complex t re im =>
    (t.kind == .complex64 || t.kind == .complex128) && re.representable && im.representable
  | .string t _ => t.kind == .string
  | .iface t e =>
    t.kind == .interface && (!e.IsValid || (e.goKind != .interface && Value.wellTyped e))
  | .array t xs =>
    t.kind == .array && xs.length == t.arrayLen && Value.wellTypedList t.elem xs
  | .slice t n xs => t.kind == .slice && (!n || xs.isEmpty) && Value.wellTypedList t.elem xs
  | .map t n es =>
    t.kind == .map && (!n || es.isEmpty) && Value.wellTypedEntries t.key t.elem es &&
      distinctKeys (es.map Prod.fst)
  | .struct t xs => t.kind == .struct && Value.wellTypedFields t.fields xs
  | .chan t _ => t.kind == .chan
  | .func t _ => t.kind == .func
  | .ptr t a e =>
    t.kind == .pointer &&
      (if a = 0 then !e.IsValid else decide (e.goType = t.elem) && Value.wellTyped e)
  | .rawPointer t _ => t.kind == .rawPointer
termination_by structural v
/-- Whether every value of a list is a well-formed value of type `t`. -/
def Value.wellTypedList (t : GoType) (xs : List Value) : Bool :=
  match xs with
  | [] => true
  | x :: rest => decide (x.goType = t) && Value.wellTyped x && Value.wellTypedList t rest
termination_by structural xs
/-- Whether every entry of a map has a well-formed key of type `kt` that can
be a key, and a well-formed value of type `vt`. -/
def Value.wellTypedEntries (kt vt : GoType) (es : List (Value × Value)) : Bool :=
  match es with
  | [] => true
  | (k, x) :: rest =>
    decide (k.goType = kt) && Value.wellTyped k && Value.hashable k &&
      decide (x.goType = vt) && Value.wellTyped x && Value.wellTypedEntries kt vt rest
termination_by structural es
/-- Whether the values of a list are well-formed values of the declared
fields, one for one. -/
def Value.wellTypedFields (fs : Fields) (xs : List Value) : Bool :=
  match xs with
  | [] => fs.length == 0
  | x :: rest =>
    match fs with
    | .nil => false
    | .cons _ ft frest =>
      decide (x.goType = ft) && Value.wellTyped x && Value.wellTypedFields frest rest
termination_by structural xs
end

mutual
/-- Whether a value is built only from booleans, signed and unsigned
integers of 8 to 64 bits, texts, sequences, mappings and records. -/
def Value.plain (v : Value) : Bool :=
  match v with
  | .bool _ _ => true
  | .int _ _ => true
  | .uint _ _ => true
  | .string _ _ => true
  | .array _ xs => Value.plainList xs
  | .slice _ _ xs => Value.plainList xs
  | .map _ _ es => Value.plainEntries es
  | .struct _ xs => Value.plainList xs
  | _ => false
termination_by structural v
/-- Whether every value of a list is plain. -/
def Value.plainList (xs : List Value) : Bool :=
  match xs with
  | [] => true
  | x :: rest => Value.plain x && Value.plainList rest
termination_by structural xs
/-- Whether every key and every value of the entries is plain. -/
def Value.plainEntries (es : List (Value × Value)) : Bool :=
  match es with
  | [] => true
  | (k, x) :: rest => Value.plain k && Value.plain x && Value.plainEntries rest
termination_by structural es
end

mutual
/-- Structural equality in the words of the specification: the same type
and equal primitives, equal lengths with pairwise equal elements, equal key
sets with equal values under every key, equal values in every field. -/
def Value.structEq (a b : Value) : Bool :=
  decide (a.goType = b.goType) &&
  match a with
  | .bool _ x => match b with
    | .bool _ y => x == y
    | _ => false
  | .int _ x => match b with
    | .int _ y => x == y
    | _ => false
  | .uint _ x => match b with
    | .uint _ y => x == y
    | _ => false
  | .string _ x => match b with
    | .string _ y => x == y
    | _ => false
  | .array _ xs => match b with
    | .array _ ys => Value.structEqList xs ys
    | _ => false
  | .slice _ _ xs => match b with
    | .slice _ _ ys => Value.structEqList xs ys
    | _ => false
  | .struct _ xs => match b with
    | .struct _ ys => Value.structEqList xs ys
    | _ => false
  | .map _ _ es => match b with
    | .map _ _ fs =>
      Value.structEqEntries es fs &&
        fs.all (fun f => es.any (fun e => Value.goEq e.1 f.1))
    | _ => false
  | _ => false
termination_by structural a
/-- Equal lengths with pairwise equal elements. -/
def Value.structEqList (xs ys : List Value) : Bool :=
  match xs with
  | [] => ys.isEmpty
  | x :: xs1 => match ys with
    | [] => false
    | y :: ys1 => Value.structEq x y && Value.structEqList xs1 ys1
termination_by structural xs
/-- Every key of `es` is a key of `fs`, with an equal value under it. -/
def Value.structEqEntries (es fs : List (Value × Value)) : Bool :=
  match es with
  | [] => true
  | (k, x) :: rest =>
    fs.any (fun f => Value.goEq f.1 k) && Value.structEq x (lookupKey k fs) &&
      Value.structEqEntries rest fs
termination_by structural es
end

/-! ## Classes of values used in the statements -/

/-- The kind without its size: the class of kinds that `equals` treats
alike. -/
def Kind.shape : Kind → Kind
  | .int8 => .int
  | .int16 => .int
  | .int32 => .int
  | .int64 => .int
  | .uint8 => .uint
  | .uint16 => .uint
  | .uint32 => .uint
  | .uint64 => .uint
  | .float32 => .float64
  | .complex64 => .complex128
  | k => k

/-- The class of kinds of the data of a value. -/
def Value.shape : Value → Kind
  | .invalid => .invalid
  | .bool _ _ => .bool
  | .int _ _ => .int
  | .uint _ _ => .uint
  | .uintptr _ _ => .uintptr
  | .float _ _ => .float64
  | .complex _ _ _ => .complex128
  | .string _ _ => .string
  | .iface _ _ => .interface
  | .array _ _ => .array
  | .slice _ _ _ => .slice
  | .map _ _ _ => .map
  | .struct _ _ => .struct
  | .chan _ _ => .chan
  | .func _ _ => .func
  | .ptr _ _ _ => .pointer
  | .rawPointer _ _ => .rawPointer

mutual
/-- The value without its types, on the kinds that plain keys are made of. -/
def Value.erase (v : Value) : Value :=
  match v with
  | .bool _ x => .bool (.basic .invalid) x
  | .int _ x => .int (.basic .invalid) x
  | .uint _ x => .uint (.basic .invalid) x
  | .string _ x => .string (.basic .invalid) x
  | .array _ xs => .array (.basic .invalid) (Value.eraseList xs)
  | .struct _ xs => .struct (.basic .invalid) (Value.eraseList xs)
  | .invalid => .invalid
  | .uintptr t n => .uintptr t n
  | .float t x => .float t x
  | .complex t re im => .complex t re im
  | .iface t e => .iface t e
  | .slice t n xs => .slice t n xs
  | .map t n es => .map t n es
  | .chan t a => .chan t a
  | .func t a => .func t a
  | .ptr t a e => .ptr t a e
  | .rawPointer t a => .rawPointer t a
termination_by structural v
/-- The values of a list without their types. -/
def Value.eraseList (xs : List Value) : List Value :=
  match xs with
  | [] => []
  | x :: rest => Value.erase x :: Value.eraseList rest
termination_by structural xs
end

/-- Whether a value is a primitive: a boolean, a signed or unsigned integer,
a float, a complex number or a text. -/
def Value.isPrimitive : Value → Bool
  | .bool _ _ => true
  | .int _ _ => true
  | .uint _ _ => true
  | .uintptr _ _ => true
  | .float _ _ => true
  | .complex _ _ _ => true
  | .string _ _ => true
  | _ => false

/-- Whether a value is a primitive of a kind that `equals` compares: every
primitive but a `uintptr`. -/
def Value.isCompared : Value → Bool
  | .uintptr _ _ => false
  | v => v.isPrimitive

/-- Whether a value is a complex number with a NaN part. -/
def Value.hasNaNPart : Value → Bool
  | .complex _ re im => re.isNaN || im.isNaN
  | _ => false

/-- Whether two primitives are told apart by the comparison of their kind in
`equals`: different booleans, integers or texts, floats whose `float64`
difference exceeds `1e-9` in absolute value, complex numbers whose real or
imaginary parts are not `==`. -/
def Value.differs : Value → Value → Bool
  | .bool _ x, .bool _ y => x != y
  | .int _ x, .int _ y => x != y
  | .uint _ x, .uint _ y => x != y
  | .float _ x, .float _ y => (x.sub y).abs.gt epsilon
  | .complex _ re im, .complex _ re2 im2 => !(re.eq re2 && im.eq im2)
  | .string _ x, .string _ y => x != y
  | _, _ => false

/-- The leaf that `equals` reports for a primitive: the value itself, an
integer as `int64` / `uint64`, a float as `float64`, a complex number as
`complex128`. -/
def Value.leaf : Value → Leaf
  | .bool _ x => .bool x
  | .int _ x => .int64 x
  | .uint _ x => .uint64 x
  | .float _ x => .float64 x
  | .complex _ re im => .complex128 re im
  | .string _ x => .string x
  | v => .value v

/-- An environment for the examples: every float prints as `?`, the entries
of a map print in the order of the entries. -/
def sampleEnv : Env := ⟨fun _ _ => "?", fun ks => List.range ks.length⟩

/-- A `lipgloss` for the examples: a text outside the modelled case renders
unchanged, columns are joined side by side. -/
def sampleLipgloss : Lipgloss := ⟨fun _ str => str, fun l r => l ++ r⟩

/-- The type `int`. -/
def tInt : GoType := .basic .int

/-- The type `string`. -/
def tString : GoType := .basic .string

/-- The type `testStruct` of `assert_test.go`. -/
def tTestStruct : GoType :=
  .named "bee_test.testStruct" (.struct (.cons "a" tInt (.cons "b" (.slice tInt)
    (.cons "c" (.map tString tInt) (.cons "p" (.pointer (.slice tString)) .nil)))))

/-- The value `testStruct` with `a = 0`, the nil slice `b`, the nil map `c` and
`p` pointing (at address `addr`) to a slice with the one text `s`. -/
def testStructP (addr : Nat) (s : String) : Value :=
  .struct tTestStruct [.int tInt 0, .slice (.slice tInt) true [], .map (.map tString tInt) true [],
    .ptr (.pointer (.slice tString)) addr (.slice (.slice tString) false [.string tString s])]

/-- Whether a value can be `reflect.ValueOf(x)` for an interface value `x`: the
zero Value (for `nil`), or a well-formed value whose kind is not Interface. -/
def Value.isValueOf (v : Value) : Bool :=
  !v.IsValid || (v.wellTyped && v.shape != .interface)

/-- The fields of a `testStruct` of `assert_test.go` with the given `a`, the
slice `b` with the given elements, the nil map `c` and the nil pointer `p`. -/
def testFields (a : Int) (b : List Int) : List Value :=
  [.int tInt a, .slice (.slice tInt) false (b.map (Value.int tInt)),
    .map (.map tString tInt) true [], .ptr (.pointer (.slice tString)) 0 .invalid]

/-- The rational number `(-1)^neg * m * 2^e` that a finite float stands for. -/
def Float64.toRat (neg : Bool) (m : Nat) (e : Int) : ℚ :=
  (if neg then -1 else 1) * (m : ℚ) * (2 : ℚ) ^ e

/-- What `==` sees of a key: the value of a number (the two zeros are one
number), the address of a pointer or channel, the dynamic type and value
held by an interface, the components of an array or struct. -/
inductive Key where
  | absent
  | nilInterface
  | bool (b : Bool)
  | int (i : Int)
  | uint (n : Nat)
  | uintptr (n : Nat)
  | nan
  | inf (neg : Bool)
  | num (q : ℚ)
  | complex (re : Key) (im : Key)
  | string (s : String)
  | chan (addr : Nat)
  | ptr (addr : Nat)
  | rawPointer (addr : Nat)
  | dyn (t : GoType) (k : Key)
  | array (ks : List Key)
  | struct (ks : List Key)
  | other

/-- What `==` sees of a float. -/
def Float64.key : Float64 → Key
  | .nan => .nan
  | .inf n => .inf n
  | .fin n m e => .num (Float64.toRat n m e)

mutual
/-- What `==` sees of a value that can be a map key. -/
def Value.keyOf (v : Value) : Key :=
  match v with
  | .invalid => .absent
  | .bool _ x => .bool x
  | .int _ x => .int x
  | .uint _ x => .uint x
  | .uintptr _ x => .uintptr x
  | .float _ x => x.key
  | .complex _ re im => .complex re.key im.key
  | .string _ x => .string x
  | .iface _ e => if e.IsValid then .dyn e.goType (Value.keyOf e) else .nilInterface
  | .array _ xs => .array (Value.keyOfList xs)
  | .struct _ xs => .struct (Value.keyOfList xs)
  | .chan _ a => .chan a
  | .ptr _ a _ => .ptr a
  | .rawPointer _ a => .rawPointer a
  | .slice _ _ _ => .other
  | .map _ _ _ => .other
  | .func _ _ => .other
termination_by structural v
/-- What `==` sees of the components of an array or struct. -/
def Value.keyOfList (xs : List Value) : List Key :=
  match xs with
  | [] => []
  | x :: rest => Value.keyOf x :: Value.keyOfList rest
termination_by structural xs
end

mutual
/-- Whether every key of every mapping in a value, as far as `equals` goes (not
behind pointers), is `==` to itself: no NaN is a key or a part of a key. -/
def Value.keysSelfEq (v : Value) : Bool :=
  match v with
  | .iface _ e => Value.keysSelfEq e
  | .array _ xs => Value.keysSelfEqList xs
  | .slice _ _ xs => Value.keysSelfEqList xs
  | .struct _ xs => Value.keysSelfEqList xs
  | .map _ _ es => Value.keysSelfEqEntries es
  | _ => true
termination_by structural v
/-- Whether every value of a list has only keys `==` to themselves. -/
def Value.keysSelfEqList (xs : List Value) : Bool :=
  match xs with
  | [] => true
  | x :: rest => Value.keysSelfEq x && Value.keysSelfEqList rest
termination_by structural xs
/-- Whether every key of the entries is `==` to itself, and so is every key
inside their values. -/
def Value.keysSelfEqEntries (es : List (Value × Value)) : Bool :=
  match es with
  | [] => true
  | (k, x) :: rest =>
    Value.goEq k k && Value.keysSelfEq x && Value.keysSelfEqEntries rest
termination_by structural es
end

/-! ## The traversal with the run-time checks of `reflect` -/

/-- A run-time error of the traversal: a method of `reflect.Value` called on the
zero Value or on a value of a kind it does not accept, an index or a field
number out of range, a key that is not of the key type of the map, the slice
bound below zero of `wrap`, or a call nested deeper than the depth allowed. -/
inductive Fault where
  | zeroValue
  | wrongKind
  | outOfRange
  | wrongKeyType
  | sliceBounds
  | tooDeep
  deriving DecidableEq, Repr

/-- `reflect.Value.Type`, which panics on the zero Value. -/
def Value.checkedType (v : Value) : Except Fault GoType :=
  if v.IsValid then .ok v.goType else .error .zeroValue

/-- `reflect.Value.Bool`, which panics unless the kind is Bool. -/
def Value.checkedBool (v : Value) : Except Fault Bool :=
  if v.goKind = .bool then .ok v.asBool else .error .wrongKind

/-- `reflect.Value.Int`, which panics unless the kind is a signed integer
kind. -/
def Value.checkedInt (v : Value) : Except Fault Int :=
  if v.goKind = .int ∨ v.goKind = .int8 ∨ v.goKind = .int16 ∨ v.goKind = .int32 ∨
      v.goKind = .int64 then .ok v.asInt
  else .error .wrongKind

/-- `reflect.Value.Uint`, which panics unless the kind is an unsigned integer
kind, `uintptr` among them. -/
def Value.checkedUint (v : Value) : Except Fault Nat :=
  if v.goKind = .uint ∨ v.goKind = .uint8 ∨ v.goKind = .uint16 ∨ v.goKind = .uint32 ∨
      v.goKind = .uint64 ∨ v.goKind = .uintptr then .ok v.asUint
  else .error .wrongKind

/-- `reflect.Value.Float`, which panics unless the kind is a float kind. -/
def Value.checkedFloat (v : Value) : Except Fault Float64 :=
  if v.goKind = .float32 ∨ v.goKind = .float64 then .ok v.asFloat else .error .wrongKind

/-- `reflect.Value.Complex`, which panics unless the kind is a complex kind. -/
def Value.checkedComplex (v : Value) : Except Fault (Float64 × Float64) :=
  if v.goKind = .complex64 ∨ v.goKind = .complex128 then .ok v.asComplex
  else .error .wrongKind

/-- `reflect.Value.Len`, which panics unless the kind is Array, Chan, Map,
Slice or String. -/
def Value.checkedLen (v : Value) : Except Fault Nat :=
  if v.goKind = .array ∨ v.goKind = .chan ∨ v.goKind = .map ∨ v.goKind = .slice ∨
      v.goKind = .string then .ok v.Len
  else .error .wrongKind

/-- `reflect.Value.Index(i)` on an array or slice, which panics when `i` is out
of range (the bytes of a string are not modelled). -/
def Value.checkedIndex (v : Value) (i : Nat) : Except Fault Value :=
  if v.goKind = .array ∨ v.goKind = .slice then
    if i < v.Len then .ok (v.Index i) else .error .outOfRange
  else .error .wrongKind

/-- `reflect.Value.NumField`, which panics unless the kind is Struct. -/
def Value.checkedNumField (v : Value) : Except Fault Nat :=
  if v.goKind = .struct then .ok v.goType.NumField else .error .wrongKind

/-- `reflect.Value.Field(i)`, which panics unless the kind is Struct and `i` is
the number of a field. -/
def Value.checkedField (v : Value) (i : Nat) : Except Fault Value :=
  if v.goKind = .struct then
    if i < v.goType.NumField then .ok (v.Field i) else .error .outOfRange
  else .error .wrongKind

/-- `reflect.Type.Field(i).Name`, which panics unless the kind is Struct and
`i` is the number of a field. -/
def GoType.checkedFieldName (t : GoType) (i : Nat) : Except Fault String :=
  if t.kind = .struct then
    if i < t.NumField then .ok (t.FieldName i) else .error .outOfRange
  else .error .wrongKind

/-- The keys of a map, in the order of its entries. -/
def Value.MapKeys : Value → List Value
  | .map _ _ es => es.map Prod.fst
  | _ => []

/-- `reflect.Value.MapKeys`, which panics unless the kind is Map. -/
def Value.checkedMapKeys (v : Value) : Except Fault (List Value) :=
  if v.goKind = .map then .ok v.MapKeys else .error .wrongKind

/-- `reflect.Value.MapIndex(k)`, which panics unless the kind is Map and `k` is
a value of the key type. -/
def Value.checkedMapIndex (v : Value) (k : Value) : Except Fault Value :=
  if v.goKind = .map then
    if k.IsValid = true ∧ k.goType = v.goType.key then .ok (v.MapIndex k)
    else .error .wrongKeyType
  else .error .wrongKind

/-- `reflect.Value.Elem`, which panics unless the kind is Interface or
Pointer. -/
def Value.checkedElem (v : Value) : Except Fault Value :=
  if v.goKind = .interface ∨ v.goKind = .pointer then .ok v.Elem else .error .wrongKind

/-- The method `errorNotEquals` as `equals` runs it: `b.error`, with the calls
of `tb.Errorf` and `tb.Logf` it makes, or the run-time error of `wrap`. -/
def Bee.errorChecked (b : Bee) (env : Env) (lg : Lipgloss) (f : Failure) :
    Except Fault (List Event) :=
  match b.error env lg f with
  | none => .error .sliceBounds
  | some evs => .ok evs

/-- A loop: the body is run on the elements of a list in order; the calls of
all runs, or the first run-time error. -/
def collect {α β : Type} (body : α → Except Fault (List β)) :
    List α → Except Fault (List β)
  | [] => .ok []
  | x :: rest =>
    match body x with
    | .error e => .error e
    | .ok r =>
      match collect body rest with
      | .error e => .error e
      | .ok rs => .ok (r ++ rs)

/-- The method `equals` of `assert.go` statement by statement, every method of
`reflect` with its run-time check, and with a bound on the depth of the
recursion: `depth` is the number of calls that may be nested, the first one
included. Every call of `b.errorNotEquals` runs `b.error`. The result is the
calls of `tb.Errorf` and `tb.Logf` made, or the first run-time error. -/
def Bee.equalsChecked (b : Bee) (env : Env) (lg : Lipgloss) :
    Nat → Value → Value → String → Except Fault (List Event)
  | 0, _, _, _ => .error .tooDeep
  | depth + 1, actual, expected, what =>
    if !actual.IsValid || !expected.IsValid then
      if actual.IsValid != expected.IsValid then
        b.errorChecked env lg (Bee.errorNotEquals (.value actual) (.value expected) what)
      else .ok []
    else
      match actual.checkedType, expected.checkedType with
      | .error e, _ => .error e
      | _, .error e => .error e
      | .ok ta, .ok te =>
        if ta ≠ te then
          b.errorChecked env lg (Bee.errorNotEquals (.type ta) (.type te) what)
        else
          match actual.goKind with
          | .bool =>
            match actual.checkedBool, expected.checkedBool with
            | .error e, _ => .error e
            | _, .error e => .error e
            | .ok x, .ok y =>
              if x ≠ y then
                b.errorChecked env lg (Bee.errorNotEquals (.bool x) (.bool y) what)
              else .ok []
          | .int | .int8 | .int16 | .int32 | .int64 =>
            match actual.checkedInt, expected.checkedInt with
            | .error e, _ => .error e
            | _, .error e => .error e
            | .ok x, .ok y =>
              if x ≠ y then
                b.errorChecked env lg (Bee.errorNotEquals (.int64 x) (.int64 y) what)
              else .ok []
          | .uint | .uint8 | .uint16 | .uint32 | .uint64 =>
            match actual.checkedUint, expected.checkedUint with
            | .error e, _ => .error e
            | _, .error e => .error e
            | .ok x, .ok y =>
              if x ≠ y then
                b.errorChecked env lg (Bee.errorNotEquals (.uint64 x) (.uint64 y) what)
              else .ok []
          | .float32 | .float64 =>
            match actual.checkedFloat, expected.checkedFloat with
            | .error e, _ => .error e
            | _, .error e => .error e
            | .ok x, .ok y =>
              if (x.sub y).abs.gt epsilon then
                b.errorChecked env lg (Bee.errorNotEquals (.float64 x) (.float64 y) what)
              else .ok []
          | .complex64 | .complex128 =>
            match actual.checkedComplex, expected.checkedComplex with
            | .error e, _ => .error e
            | _, .error e => .error e
            | .ok x, .ok y =>
              if !(x.1.eq y.1 && x.2.eq y.2) then
                b.errorChecked env lg
                  (Bee.errorNotEquals (.complex128 x.1 x.2) (.complex128 y.1 y.2) what)
              else .ok []
          | .string =>
            if actual.asString ≠ expected.asString then
              b.errorChecked env lg
                (Bee.errorNotEquals (.string actual.asString) (.string expected.asString) what)
            else .ok []
          | .interface =>
            match actual.checkedElem, expected.checkedElem with
            | .error e, _ => .error e
            | _, .error e => .error e
            | .ok x, .ok y => Bee.equalsChecked b env lg depth x y what
          | .array | .slice =>
            match actual.checkedLen, expected.checkedLen with
            | .error e, _ => .error e
            | _, .error e => .error e
            | .ok n, .ok m =>
              if n ≠ m then
                b.errorChecked env lg
                  (Bee.errorNotEquals (.int n) (.int m) ("len(" ++ what ++ ")"))
              else
                collect (fun i =>
                  match actual.checkedIndex i, expected.checkedIndex i with
                  | .error e, _ => .error e
                  | _, .error e => .error e
                  | .ok x, .ok y =>
                    Bee.equalsChecked b env lg depth x y (what ++ "[" ++ toString i ++ "]"))
                  (List.range n)
          | .map =>
            match actual.checkedLen, expected.checkedLen with
            | .error e, _ => .error e
            | _, .error e => .error e
            | .ok n, .ok m =>
              if n ≠ m then
                b.errorChecked env lg
                  (Bee.errorNotEquals (.int n) (.int m) ("len(" ++ what ++ ")"))
              else
                match actual.checkedMapKeys with
                | .error e => .error e
                | .ok keys =>
                  collect (fun k =>
                    match actual.checkedMapIndex k, expected.checkedMapIndex k with
                    | .error e, _ => .error e
                    | _, .error e => .error e
                    | .ok x, .ok y =>
                      Bee.equalsChecked b env lg depth x y
                        (what ++ "[" ++ printValue env .s k 0 ++ "]"))
                    keys
          | .struct =>
            match actual.checkedNumField with
            | .error e => .error e
            | .ok n =>
              collect (fun i =>
                match actual.checkedField i, expected.checkedField i,
                  ta.checkedFieldName i with
                | .error e, _, _ => .error e
                | _, .error e, _ => .error e
                | _, _, .error e => .error e
                | .ok x, .ok y, .ok name =>
                  Bee.equalsChecked b env lg depth x y (what ++ "." ++ name))
                (List.range n)
          | _ => .ok []

mutual
/-- The nesting depth of a value as far as `equals` goes: 0 for a value it does
not enter (a primitive, a pointer, a channel, a function, the zero Value),
one more than the dynamic value for an interface, one more than the deepest
element, field or mapping value for a sequence, record or mapping. -/
def Value.depth (v : Value) : Nat :=
  match v with
  | .iface _ e => Value.depth e + 1
  | .array _ xs => Value.depthList xs + 1
  | .slice _ _ xs => Value.depthList xs + 1
  | .struct _ xs => Value.depthList xs + 1
  | .map _ _ es => Value.depthEntries es + 1
  | _ => 0
termination_by structural v
/-- The depth of the deepest value of a list. -/
def Value.depthList (xs : List Value) : Nat :=
  match xs with
  | [] => 0
  | x :: rest => max (Value.depth x) (Value.depthList rest)
termination_by structural xs
/-- The depth of the deepest value of the entries of a mapping. -/
def Value.depthEntries (es : List (Value × Value)) : Nat :=
  match es with
  | [] => 0
  | (_, x) :: rest => max (Value.depth x) (Value.depthEntries rest)
termination_by structural es
end

mutual
/-- Whether a type is built from predeclared types only, with no defined type
and no interface type in it. Such a type has no method, nor has the type of a
part of its values: `fmt` finds no `Format`, `Error` or `String` to call on a
value of it, and prints the value itself. -/
def GoType.methodFree : GoType → Bool
  | .basic _ => true
  | .named _ _ => false
  | .array _ e => e.methodFree
  | .slice e => e.methodFree
  | .map k e => k.methodFree && e.methodFree
  | .pointer e => e.methodFree
  | .chan e => e.methodFree
  | .func _ => true
  | .iface _ => false
  | .struct fs => fs.methodFree
/-- Whether the types of all fields are built from predeclared types only. -/
def Fields.methodFree : Fields → Bool
  | .nil => true
  | .cons _ t rest => t.methodFree && rest.methodFree
end

/-! ## Theorems -/

theorem plain_valid (a : Value) (h : a.plain = true) : a.IsValid = true := by
  cases a <;> simp_all [Value.plain, Value.IsValid]

theorem wellTyped_valid (a : Value) (h : a.wellTyped = true) : a.IsValid = true := by
  cases a <;> simp_all [Value.wellTyped, Value.IsValid]

theorem wellTypedList_mem (t : GoType) (xs : List Value) (h : Value.wellTypedList t xs = true) :
    ∀ x ∈ xs, x.goType = t ∧ x.wellTyped = true := by
  induction xs with
  | nil => simp
  | cons x rest ih =>
    simp only [Value.wellTypedList, Bool.and_eq_true, decide_eq_true_eq] at h
    intro y hy
    rcases List.mem_cons.1 hy with rfl | hy
    · exact ⟨h.1.1, h.1.2⟩
    · exact ih h.2 y hy

theorem wellTypedFields_mem (fs : Fields) (xs : List Value)
    (h : Value.wellTypedFields fs xs = true) : ∀ x ∈ xs, x.wellTyped = true := by
  induction xs generalizing fs with
  | nil => simp
  | cons x rest ih =>
    cases fs with
    | nil => simp [Value.wellTypedFields] at h
    | cons n ft frest =>
      simp only [Value.wellTypedFields, Bool.and_eq_true, decide_eq_true_eq] at h
      intro y hy
      rcases List.mem_cons.1 hy with rfl | hy
      · exact h.1.2
      · exact ih frest h.2 y hy

theorem wellTypedFields_length (fs : Fields) (xs : List Value)
    (h : Value.wellTypedFields fs xs = true) : xs.length = fs.length := by
  induction xs generalizing fs with
  | nil =>
    simp only [Value.wellTypedFields, beq_iff_eq] at h
    simp [h]
  | cons x rest ih =>
    cases fs with
    | nil => simp [Value.wellTypedFields] at h
    | cons n ft frest =>
      simp only [Value.wellTypedFields, Bool.and_eq_true, decide_eq_true_eq] at h
      simp [Fields.length, ih frest h.2]

theorem wellTypedEntries_mem (kt vt : GoType) (es : List (Value × Value))
    (h : Value.wellTypedEntries kt vt es = true) :
    ∀ e ∈ es, e.1.wellTyped = true ∧ e.1.hashable = true ∧ e.2.wellTyped = true := by
  induction es with
  | nil => simp
  | cons e rest ih =>
    obtain ⟨k, x⟩ := e
    simp only [Value.wellTypedEntries, Bool.and_eq_true, decide_eq_true_eq] at h
    intro y hy
    rcases List.mem_cons.1 hy with rfl | hy
    · exact ⟨h.1.1.1.1.2, h.1.1.1.2, h.1.2⟩
    · exact ih h.2 y hy

theorem plainList_mem (xs : List Value) (h : Value.plainList xs = true) :
    ∀ x ∈ xs, x.plain = true := by
  induction xs with
  | nil => simp
  | cons x rest ih =>
    simp only [Value.plainList, Bool.and_eq_true] at h
    intro y hy
    rcases List.mem_cons.1 hy with rfl | hy
    · exact h.1
    · exact ih h.2 y hy

theorem plainEntries_mem (es : List (Value × Value)) (h : Value.plainEntries es = true) :
    ∀ e ∈ es, e.1.plain = true ∧ e.2.plain = true := by
  induction es with
  | nil => simp
  | cons e rest ih =>
    obtain ⟨k, x⟩ := e
    simp only [Value.plainEntries, Bool.and_eq_true] at h
    intro y hy
    rcases List.mem_cons.1 hy with rfl | hy
    · exact ⟨h.1.1, h.1.2⟩
    · exact ih h.2 y hy

theorem lookupKey_cases (k : Value) (fs : List (Value × Value)) :
    (lookupKey k fs = .invalid ∧ fs.any (fun f => Value.goEq f.1 k) = false) ∨
      (∃ f ∈ fs, Value.goEq f.1 k = true ∧ lookupKey k fs = f.2) := by
  induction fs with
  | nil => left; simp [lookupKey]
  | cons f rest ih =>
    obtain ⟨k1, v1⟩ := f
    by_cases h : Value.goEq k1 k = true
    · right
      exact ⟨(k1, v1), by simp, h, by simp [lookupKey, h]⟩
    · rcases ih with ⟨h1, h2⟩ | ⟨f, hf, h1, h2⟩
      · left
        simp [lookupKey, h, h1, h2]
      · right
        exact ⟨f, by simp [hf], h1, by simp [lookupKey, h, h2]⟩


mutual
theorem goEq_iff_erase (a b : Value) (pa : a.plain = true) (ha : a.hashable = true)
    (pb : b.plain = true) (hb : b.hashable = true) :
    Value.goEq a b = true ↔ a.erase = b.erase := by
  cases a with
  | bool t x =>
    cases b <;> simp_all [Value.goEq, Value.erase, Value.plain, Value.hashable]
  | int t x =>
    cases b <;> simp_all [Value.goEq, Value.erase, Value.plain, Value.hashable]
  | uint t x =>
    cases b <;> simp_all [Value.goEq, Value.erase, Value.plain, Value.hashable]
  | string t x =>
    cases b <;> simp_all [Value.goEq, Value.erase, Value.plain, Value.hashable]
  | array t xs =>
    cases b with
    | array t2 ys =>
      have := goEqList_iff_erase xs ys (by simpa [Value.plain] using pa)
        (by simpa [Value.hashable] using ha) (by simpa [Value.plain] using pb)
        (by simpa [Value.hashable] using hb)
      simp [Value.goEq, Value.erase, this]
    | _ => simp_all [Value.goEq, Value.erase, Value.plain, Value.hashable]
  | struct t xs =>
    cases b with
    | struct t2 ys =>
      have := goEqList_iff_erase xs ys (by simpa [Value.plain] using pa)
        (by simpa [Value.hashable] using ha) (by simpa [Value.plain] using pb)
        (by simpa [Value.hashable] using hb)
      simp [Value.goEq, Value.erase, this]
    | _ => simp_all [Value.goEq, Value.erase, Value.plain, Value.hashable]
  | _ => simp_all [Value.plain, Value.hashable]
termination_by sizeOf a
theorem goEqList_iff_erase (xs ys : List Value) (pa : Value.plainList xs = true)
    (ha : Value.hashableList xs = true) (pb : Value.plainList ys = true)
    (hb : Value.hashableList ys = true) :
    Value.goEqList xs ys = true ↔ Value.eraseList xs = Value.eraseList ys := by
  cases xs with
  | nil => cases ys <;> simp [Value.goEqList, Value.eraseList]
  | cons x xs1 =>
    cases ys with
    | nil => simp [Value.goEqList, Value.eraseList]
    | cons y ys1 =>
      simp only [Value.plainList, Value.hashableList, Bool.and_eq_true] at pa ha pb hb
      have h1 := goEq_iff_erase x y pa.1 ha.1 pb.1 hb.1
      have h2 := goEqList_iff_erase xs1 ys1 pa.2 ha.2 pb.2 hb.2
      simp [Value.goEqList, Value.eraseList, h1, h2]
termination_by sizeOf xs
end


theorem structEq_invalid (x : Value) : x.structEq .invalid = false := by
  cases x <;> simp [Value.structEq]

theorem goEq_self (a : Value) (pa : a.plain = true) (ha : a.hashable = true) :
    Value.goEq a a = true :=
  (goEq_iff_erase a a pa ha pa ha).2 rfl

theorem equals_of_type_ne (env : Env) (a b : Value) (what : String)
    (ha : a.IsValid = true) (hb : b.IsValid = true) (h : a.goType ≠ b.goType) :
    Bee.equals env a b what =
      [Bee.errorNotEquals (.type a.goType) (.type b.goType) what] := by
  rw [Bee.equals.eq_def]
  simp [ha, hb, h]

theorem distinctKeys_nodup (ks : List Value)
    (hk : ∀ k ∈ ks, k.plain = true ∧ k.hashable = true) (hd : distinctKeys ks = true) :
    (ks.map Value.erase).Nodup := by
  induction ks with
  | nil => simp
  | cons k rest ih =>
    simp only [distinctKeys, Bool.and_eq_true, List.all_eq_true, Bool.not_eq_true'] at hd
    rw [List.map_cons, List.nodup_cons]
    refine ⟨?_, ih (fun k hk1 => hk k (by simp [hk1])) hd.2⟩
    intro hmem
    obtain ⟨k2, hk2, he⟩ := List.mem_map.1 hmem
    have h1 := hd.1 k2 hk2
    have h2 := (goEq_iff_erase k k2 (hk k (by simp)).1 (hk k (by simp)).2
      (hk k2 (by simp [hk2])).1 (hk k2 (by simp [hk2])).2).2 he.symm
    simp [h1] at h2

theorem structEqEntries_mem (es fs : List (Value × Value))
    (h : Value.structEqEntries es fs = true) :
    ∀ e ∈ es, ∃ f ∈ fs, Value.goEq f.1 e.1 = true := by
  induction es with
  | nil => simp
  | cons e rest ih =>
    obtain ⟨k, x⟩ := e
    simp only [Value.structEqEntries, Bool.and_eq_true, List.any_eq_true] at h
    intro y hy
    rcases List.mem_cons.1 hy with rfl | hy
    · exact h.1.1
    · exact ih h.2 y hy

theorem keys_subset (es fs : List (Value × Value))
    (kes : ∀ e ∈ es, e.1.plain = true ∧ e.1.hashable = true)
    (kfs : ∀ f ∈ fs, f.1.plain = true ∧ f.1.hashable = true)
    (h : ∀ e ∈ es, ∃ f ∈ fs, Value.goEq f.1 e.1 = true) :
    (es.map Prod.fst).map Value.erase ⊆ (fs.map Prod.fst).map Value.erase := by
  intro v hv
  simp only [List.map_map, List.mem_map, Function.comp] at hv ⊢
  obtain ⟨e, he, rfl⟩ := hv
  obtain ⟨f, hf, hg⟩ := h e he
  exact ⟨f, hf, (goEq_iff_erase f.1 e.1 (kfs f hf).1 (kfs f hf).2 (kes e he).1 (kes e he).2).1 hg⟩

theorem keys_superset (es fs : List (Value × Value))
    (kes : ∀ e ∈ es, e.1.plain = true ∧ e.1.hashable = true)
    (kfs : ∀ f ∈ fs, f.1.plain = true ∧ f.1.hashable = true)
    (des : distinctKeys (es.map Prod.fst) = true)
    (h : ∀ e ∈ es, ∃ f ∈ fs, Value.goEq f.1 e.1 = true)
    (hlen : fs.length ≤ es.length) :
    fs.all (fun f => es.any (fun e => Value.goEq e.1 f.1)) = true := by
  have hn := distinctKeys_nodup (es.map Prod.fst)
    (fun k hk => by
      obtain ⟨e, he, rfl⟩ := List.mem_map.1 hk
      exact kes e he) des
  have hsub := keys_subset es fs kes kfs h
  have hperm := (List.subperm_of_subset hn hsub).perm_of_length_le (by simpa using hlen)
  simp only [List.all_eq_true, List.any_eq_true]
  intro f hf
  have hmem : f.1.erase ∈ (es.map Prod.fst).map Value.erase :=
    hperm.symm.subset (by
      simp only [List.map_map, List.mem_map, Function.comp]
      exact ⟨f, hf, rfl⟩)
  simp only [List.map_map, List.mem_map, Function.comp] at hmem
  obtain ⟨e, he, heq⟩ := hmem
  exact ⟨e, he, (goEq_iff_erase e.1 f.1 (kes e he).1 (kes e he).2 (kfs f hf).1 (kfs f hf).2).2 heq⟩

theorem keys_length_eq (es fs : List (Value × Value))
    (kes : ∀ e ∈ es, e.1.plain = true ∧ e.1.hashable = true)
    (kfs : ∀ f ∈ fs, f.1.plain = true ∧ f.1.hashable = true)
    (des : distinctKeys (es.map Prod.fst) = true)
    (dfs : distinctKeys (fs.map Prod.fst) = true)
    (h1 : ∀ e ∈ es, ∃ f ∈ fs, Value.goEq f.1 e.1 = true)
    (h2 : ∀ f ∈ fs, ∃ e ∈ es, Value.goEq e.1 f.1 = true) :
    es.length = fs.length := by
  have hn1 := distinctKeys_nodup (es.map Prod.fst)
    (fun k hk => by
      obtain ⟨e, he, rfl⟩ := List.mem_map.1 hk
      exact kes e he) des
  have hn2 := distinctKeys_nodup (fs.map Prod.fst)
    (fun k hk => by
      obtain ⟨e, he, rfl⟩ := List.mem_map.1 hk
      exact kfs e he) dfs
  have l1 := (List.subperm_of_subset hn1 (keys_subset es fs kes kfs h1)).length_le
  have l2 := (List.subperm_of_subset hn2 (keys_subset fs es kfs kes h2)).length_le
  simp only [List.length_map] at l1 l2
  omega


theorem wellTyped_shape (a : Value) (h : a.wellTyped = true) :
    a.goType.kind.shape = a.shape := by
  cases a <;> simp only [Value.wellTyped, Bool.and_eq_true, beq_iff_eq, Bool.or_eq_true] at h
  case invalid => simp at h
  case int t i =>
    simp only [Value.goType, Value.shape]
    cases hk : t.kind <;> simp [intFits, hk] at h <;> rfl
  case uint t n =>
    simp only [Value.goType, Value.shape]
    cases hk : t.kind <;> simp [uintFits, hk] at h <;> rfl
  case float t x =>
    simp only [Value.goType, Value.shape]
    rcases h.1 with h1 | h1 <;> rw [h1] <;> rfl
  case complex t re im =>
    simp only [Value.goType, Value.shape]
    rcases h.1.1 with h1 | h1 <;> rw [h1] <;> rfl
  all_goals simp only [Value.goType, Value.shape]
  all_goals first
    | (rw [h]; rfl)
    | (rw [h.1]; rfl)
    | (rw [h.1.1]; rfl)
    | (rw [h.1.1.1]; rfl)

theorem shape_eq_of_type_eq (a b : Value) (ha : a.wellTyped = true) (hb : b.wellTyped = true)
    (h : a.goType = b.goType) : a.shape = b.shape := by
  rw [← wellTyped_shape a ha, ← wellTyped_shape b hb, h]

theorem structEq_of_type_ne (a b : Value) (h : a.goType ≠ b.goType) :
    a.structEq b = false := by
  rw [Value.structEq.eq_def]
  simp [h]


theorem structEqList_length (xs ys : List Value) (h : Value.structEqList xs ys = true) :
    xs.length = ys.length := by
  induction xs generalizing ys with
  | nil => cases ys <;> simp_all [Value.structEqList]
  | cons x xs1 ih =>
    cases ys with
    | nil => simp [Value.structEqList] at h
    | cons y ys1 =>
      simp only [Value.structEqList, Bool.and_eq_true] at h
      simp [ih ys1 h.2]

mutual
theorem equals_nil_iff (env : Env) (a b : Value) (what : String)
    (pa : a.plain = true) (wa : a.wellTyped = true)
    (pb : b.plain = true) (wb : b.wellTyped = true) :
    Bee.equals env a b what = [] ↔ a.structEq b = true := by
  by_cases ht : a.goType = b.goType
  swap
  · rw [equals_of_type_ne env a b what (plain_valid a pa) (plain_valid b pb) ht,
      structEq_of_type_ne a b ht]
    simp
  have hs := shape_eq_of_type_eq a b wa wb ht
  cases a with
  | bool t x =>
    cases b with
    | bool t2 y =>
      simp only [Value.goType] at ht
      subst ht
      rw [Bee.equals.eq_def]
      simp [Value.IsValid, Value.structEq, Value.goType, Value.asBool, Bee.errorNotEquals]
    | _ => simp [Value.shape] at hs
  | int t x =>
    cases b with
    | int t2 y =>
      simp only [Value.goType] at ht
      subst ht
      rw [Bee.equals.eq_def]
      simp [Value.IsValid, Value.structEq, Value.goType, Value.asInt, Bee.errorNotEquals]
    | _ => simp [Value.shape] at hs
  | uint t x =>
    cases b with
    | uint t2 y =>
      simp only [Value.goType] at ht
      subst ht
      rw [Bee.equals.eq_def]
      simp [Value.IsValid, Value.structEq, Value.goType, Value.asUint, Bee.errorNotEquals]
    | _ => simp [Value.shape] at hs
  | string t x =>
    cases b with
    | string t2 y =>
      simp only [Value.goType] at ht
      subst ht
      rw [Bee.equals.eq_def]
      simp [Value.IsValid, Value.structEq, Value.goType, Value.asString, Bee.errorNotEquals]
    | _ => simp [Value.shape] at hs
  | array t xs =>
    cases b with
    | array t2 ys =>
      simp only [Value.goType] at ht
      subst ht
      rw [Bee.equals.eq_def]
      simp only [Value.plain] at pa pb
      simp only [Value.wellTyped, Bool.and_eq_true, beq_iff_eq] at wa wb
      have hlen : xs.length = ys.length := by rw [wa.1.2, wb.1.2]
      have ih := equalsIndex_nil_iff env xs ys (.array t ys) 0 what
        (fun j => by simp [Value.Index]) hlen (plainList_mem xs pa)
        (fun x hx => (wellTypedList_mem _ xs wa.2 x hx).2) (plainList_mem ys pb)
        (fun x hx => (wellTypedList_mem _ ys wb.2 x hx).2)
      simp [Value.IsValid, Value.structEq, Value.goType, Value.Len, hlen, ih]
    | _ => simp [Value.shape] at hs
  | slice t n xs =>
    cases b with
    | slice t2 n2 ys =>
      simp only [Value.goType] at ht
      subst ht
      rw [Bee.equals.eq_def]
      simp only [Value.plain] at pa pb
      simp only [Value.wellTyped, Bool.and_eq_true, beq_iff_eq] at wa wb
      by_cases hlen : xs.length = ys.length
      · have ih := equalsIndex_nil_iff env xs ys (.slice t n2 ys) 0 what
          (fun j => by simp [Value.Index]) hlen (plainList_mem xs pa)
          (fun x hx => (wellTypedList_mem _ xs wa.2 x hx).2) (plainList_mem ys pb)
          (fun x hx => (wellTypedList_mem _ ys wb.2 x hx).2)
        simp [Value.IsValid, Value.structEq, Value.goType, Value.Len, hlen, ih]
      · have hne : Value.structEqList xs ys = false := by
          rw [Bool.eq_false_iff]
          exact fun h => hlen (structEqList_length xs ys h)
        simp [Value.IsValid, Value.structEq, Value.goType, Value.Len, hlen, hne,
          Bee.errorNotEquals]
    | _ => simp [Value.shape] at hs
  | struct t xs =>
    cases b with
    | struct t2 ys =>
      simp only [Value.goType] at ht
      subst ht
      rw [Bee.equals.eq_def]
      simp only [Value.plain] at pa pb
      simp only [Value.wellTyped, Bool.and_eq_true, beq_iff_eq] at wa wb
      have hlen : xs.length = ys.length := by
        rw [wellTypedFields_length _ xs wa.2, wellTypedFields_length _ ys wb.2]
      have ih := equalsFields_nil_iff env xs ys (.struct t ys) t 0 what
        (fun j => by simp [Value.Field]) hlen (plainList_mem xs pa)
        (wellTypedFields_mem _ xs wa.2) (plainList_mem ys pb)
        (wellTypedFields_mem _ ys wb.2)
      simp [Value.IsValid, Value.structEq, Value.goType, ih]
    | _ => simp [Value.shape] at hs
  | map t n es =>
    cases b with
    | map t2 n2 fs =>
      simp only [Value.goType] at ht
      subst ht
      rw [Bee.equals.eq_def]
      simp only [Value.plain] at pa pb
      simp only [Value.wellTyped, Bool.and_eq_true, beq_iff_eq] at wa wb
      have kes : ∀ e ∈ es, e.1.plain = true ∧ e.1.hashable = true := fun e he =>
        ⟨(plainEntries_mem es pa e he).1, (wellTypedEntries_mem _ _ es wa.1.2 e he).2.1⟩
      have kfs : ∀ f ∈ fs, f.1.plain = true ∧ f.1.hashable = true := fun e he =>
        ⟨(plainEntries_mem fs pb e he).1, (wellTypedEntries_mem _ _ fs wb.1.2 e he).2.1⟩
      by_cases hlen : es.length = fs.length
      · have ih := equalsKeys_nil_iff env es fs (.map t n2 fs) what
          (fun k => by simp [Value.MapIndex]) (plainEntries_mem es pa)
          (wellTypedEntries_mem _ _ es wa.1.2) (plainEntries_mem fs pb)
          (wellTypedEntries_mem _ _ fs wb.1.2)
        have hsup : Value.structEqEntries es fs = true →
            fs.all (fun f => es.any (fun e => Value.goEq e.1 f.1)) = true := fun h =>
          keys_superset es fs kes kfs wa.2 (structEqEntries_mem es fs h) (le_of_eq hlen.symm)
        simp only [Value.IsValid, Value.structEq, Value.goType, Value.Len, hlen]
        simp only [Bool.not_true, Bool.or_self, Bool.false_eq_true, ↓reduceIte, ne_eq,
          not_true_eq_false, decide_True, Bool.true_and, Bool.and_eq_true]
        rw [ih]
        exact ⟨fun h => ⟨h, hsup h⟩, fun h => h.1⟩
      · have hne : (Value.structEqEntries es fs &&
            fs.all (fun f => es.any (fun e => Value.goEq e.1 f.1))) = false := by
          rw [Bool.eq_false_iff]
          intro h
          simp only [Bool.and_eq_true] at h
          apply hlen
          refine keys_length_eq es fs kes kfs wa.2 wb.2 (structEqEntries_mem es fs h.1) ?_
          intro f hf
          have := h.2
          simp only [List.all_eq_true, List.any_eq_true] at this
          exact this f hf
        simp [Value.IsValid, Value.structEq, Value.goType, Value.Len, hlen, hne,
          Bee.errorNotEquals]
    | _ => simp [Value.shape] at hs
  | _ => simp [Value.plain] at pa
termination_by sizeOf a
theorem equalsIndex_nil_iff (env : Env) (xs ys : List Value) (expected : Value) (i : Nat)
    (what : String) (hidx : ∀ j, expected.Index (i + j) = ys.getD j .invalid)
    (hlen : xs.length = ys.length)
    (pxs : ∀ x ∈ xs, x.plain = true) (wxs : ∀ x ∈ xs, x.wellTyped = true)
    (pys : ∀ y ∈ ys, y.plain = true) (wys : ∀ y ∈ ys, y.wellTyped = true) :
    Bee.equalsIndex env xs expected i what = [] ↔ Value.structEqList xs ys = true := by
  cases xs with
  | nil =>
    cases ys with
    | nil => simp [Bee.equalsIndex, Value.structEqList]
    | cons y ys1 => simp at hlen
  | cons x xs1 =>
    cases ys with
    | nil => simp at hlen
    | cons y ys1 =>
      have h0 : expected.Index i = y := by simpa using hidx 0
      have h1 := equals_nil_iff env x y (what ++ "[" ++ toString i ++ "]")
        (pxs x (by simp)) (wxs x (by simp)) (pys y (by simp)) (wys y (by simp))
      have h2 := equalsIndex_nil_iff env xs1 ys1 expected (i + 1) what
        (fun j => by
          have := hidx (j + 1)
          simpa [Nat.add_assoc, Nat.add_comm 1 j] using this)
        (by simpa using hlen)
        (fun x hx => pxs x (by simp [hx])) (fun x hx => wxs x (by simp [hx]))
        (fun x hx => pys x (by simp [hx])) (fun x hx => wys x (by simp [hx]))
      simp [Bee.equalsIndex, Value.structEqList, h0, h1, h2]
termination_by sizeOf xs
theorem equalsFields_nil_iff (env : Env) (xs ys : List Value) (expected : Value) (t : GoType)
    (i : Nat) (what : String) (hidx : ∀ j, expected.Field (i + j) = ys.getD j .invalid)
    (hlen : xs.length = ys.length)
    (pxs : ∀ x ∈ xs, x.plain = true) (wxs : ∀ x ∈ xs, x.wellTyped = true)
    (pys : ∀ y ∈ ys, y.plain = true) (wys : ∀ y ∈ ys, y.wellTyped = true) :
    Bee.equalsFields env xs expected t i what = [] ↔ Value.structEqList xs ys = true := by
  cases xs with
  | nil =>
    cases ys with
    | nil => simp [Bee.equalsFields, Value.structEqList]
    | cons y ys1 => simp at hlen
  | cons x xs1 =>
    cases ys with
    | nil => simp at hlen
    | cons y ys1 =>
      have h0 : expected.Field i = y := by simpa using hidx 0
      have h1 := equals_nil_iff env x y (what ++ "." ++ t.FieldName i)
        (pxs x (by simp)) (wxs x (by simp)) (pys y (by simp)) (wys y (by simp))
      have h2 := equalsFields_nil_iff env xs1 ys1 expected t (i + 1) what
        (fun j => by
          have := hidx (j + 1)
          simpa [Nat.add_assoc, Nat.add_comm 1 j] using this)
        (by simpa using hlen)
        (fun x hx => pxs x (by simp [hx])) (fun x hx => wxs x (by simp [hx]))
        (fun x hx => pys x (by simp [hx])) (fun x hx => wys x (by simp [hx]))
      simp [Bee.equalsFields, Value.structEqList, h0, h1, h2]
termination_by sizeOf xs
theorem equalsKeys_nil_iff (env : Env) (es fs : List (Value × Value)) (expected : Value)
    (what : String) (hexp : ∀ k, expected.MapIndex k = lookupKey k fs)
    (pes : ∀ e ∈ es, e.1.plain = true ∧ e.2.plain = true)
    (wes : ∀ e ∈ es, e.1.wellTyped = true ∧ e.1.hashable = true ∧ e.2.wellTyped = true)
    (pfs : ∀ f ∈ fs, f.1.plain = true ∧ f.2.plain = true)
    (wfs : ∀ f ∈ fs, f.1.wellTyped = true ∧ f.1.hashable = true ∧ f.2.wellTyped = true) :
    Bee.equalsKeys env es expected what = [] ↔ Value.structEqEntries es fs = true := by
  match es, pes, wes with
  | [], _, _ => simp [Bee.equalsKeys, Value.structEqEntries]
  | (k, x) :: rest, pes, wes =>
    have hk := goEq_self k (pes (k, x) (by simp)).1 (wes (k, x) (by simp)).2.1
    have px : x.plain = true := (pes (k, x) (by simp)).2
    have wx : x.wellTyped = true := (wes (k, x) (by simp)).2.2
    have h2 := equalsKeys_nil_iff env rest fs expected what hexp
      (fun e he => pes e (by simp [he])) (fun e he => wes e (by simp [he])) pfs wfs
    rw [Bee.equalsKeys, Value.structEqEntries]
    simp only [hk, ↓reduceIte, List.append_eq_nil, h2, Bool.and_eq_true, hexp]
    rcases lookupKey_cases k fs with ⟨hl, hany⟩ | ⟨f, hf, hg, hl⟩
    · have hv := plain_valid x px
      have : Bee.equals env x (lookupKey k fs) (what ++ "[" ++ printValue env .s k 0 ++ "]") ≠
          [] := by
        rw [hl, Bee.equals.eq_def]
        simp [hv, show Value.IsValid .invalid = false from rfl]
      simp [this, hany]
    · have h1 := equals_nil_iff env x f.2 (what ++ "[" ++ printValue env .s k 0 ++ "]")
        px wx (pfs f hf).2 (wfs f hf).2.2
      have hany : fs.any (fun f => Value.goEq f.1 k) = true := by
        simp only [List.any_eq_true]
        exact ⟨f, hf, hg⟩
      rw [hl, h1, hany]
      simp
termination_by sizeOf es
end


/-- C1: for every two well-formed values `a` and `b` built only from booleans,
signed and unsigned integers, texts, sequences, mappings and records,
`Equal(a, b)` reports no failure if and only if `a` and `b` have the same
type and are structurally equal. -/
theorem C1_equal_iff_structEq (env : Env) (a b : Value)
    (pa : a.plain = true) (wa : a.wellTyped = true)
    (pb : b.plain = true) (wb : b.wellTyped = true) :
    Bee.Equal env a b = [] ↔ a.structEq b = true :=
  equals_nil_iff env a b "" pa wa pb wb

/-- Witness of C1: two maps with the same entries in different orders. -/
theorem C1_witness :
    ((Value.map (.map tString tInt) false
        [(.string tString "a", .int tInt 1), (.string tString "b", .int tInt 2)]).plain = true ∧
      (Value.map (.map tString tInt) false
        [(.string tString "a", .int tInt 1), (.string tString "b", .int tInt 2)]).wellTyped = true ∧
      (Value.map (.map tString tInt) false
        [(.string tString "b", .int tInt 2), (.string tString "a", .int tInt 1)]).plain = true ∧
      (Value.map (.map tString tInt) false
        [(.string tString "b", .int tInt 2), (.string tString "a", .int tInt 1)]).wellTyped = true) ∧
    (Bee.Equal sampleEnv
        (.map (.map tString tInt) false
          [(.string tString "a", .int tInt 1), (.string tString "b", .int tInt 2)])
        (.map (.map tString tInt) false
          [(.string tString "b", .int tInt 2), (.string tString "a", .int tInt 1)]) = [] ↔
      (Value.map (.map tString tInt) false
        [(.string tString "a", .int tInt 1), (.string tString "b", .int tInt 2)]).structEq
        (.map (.map tString tInt) false
          [(.string tString "b", .int tInt 2), (.string tString "a", .int tInt 1)]) = true) :=
  ⟨by decide, C1_equal_iff_structEq sampleEnv _ _ (by decide) (by decide) (by decide) (by decide)⟩

theorem Float64.sub_self_abs_gt (x : Float64) : ((x.sub x).abs.gt epsilon) = false := by
  cases x with
  | nan => rfl
  | inf n => simp [Float64.sub, Float64.abs, Float64.gt]
  | fin n m e =>
    simp [Float64.sub, Float64.abs, Float64.gt, epsilon, Float64.scaled]

theorem Float64.eq_self (x : Float64) (h : x.isNaN = false) : x.eq x = true := by
  cases x with
  | nan => simp [Float64.isNaN] at h
  | inf n => simp [Float64.eq]
  | fin n m e => simp [Float64.eq]

theorem Float64.gt_eq_not_le (x y : Float64) (hx : x.isNaN = false) (hy : y.isNaN = false) :
    x.gt y = !x.le y := by
  cases x <;> cases y <;> simp_all [Float64.gt, Float64.le, Float64.isNaN]
  rw [Bool.eq_iff_iff]
  simp only [decide_eq_true_eq, Bool.not_eq_true', decide_eq_false_iff_not, not_le]

theorem equalsIndex_eq_flatMap (env : Env) (xs : List Value) (expected : Value) (i : Nat)
    (what : String) :
    Bee.equalsIndex env xs expected i what =
      (List.range xs.length).flatMap (fun j =>
        Bee.equals env (xs.getD j .invalid) (expected.Index (i + j))
          (what ++ "[" ++ toString (i + j) ++ "]")) := by
  induction xs generalizing i with
  | nil => simp [Bee.equalsIndex]
  | cons x rest ih =>
    rw [Bee.equalsIndex, ih (i + 1), List.length_cons, List.range_succ_eq_map,
      List.flatMap_cons, List.flatMap_map]
    simp [Nat.add_assoc, Nat.add_comm 1]

theorem equalsFields_eq_flatMap (env : Env) (xs : List Value) (expected : Value) (t : GoType)
    (i : Nat) (what : String) :
    Bee.equalsFields env xs expected t i what =
      (List.range xs.length).flatMap (fun j =>
        Bee.equals env (xs.getD j .invalid) (expected.Field (i + j))
          (what ++ "." ++ t.FieldName (i + j))) := by
  induction xs generalizing i with
  | nil => simp [Bee.equalsFields]
  | cons x rest ih =>
    rw [Bee.equalsFields, ih (i + 1), List.length_cons, List.range_succ_eq_map,
      List.flatMap_cons, List.flatMap_map]
    simp [Nat.add_assoc, Nat.add_comm 1]

theorem equalsKeys_eq_flatMap (env : Env) (es : List (Value × Value)) (expected : Value)
    (what : String) :
    Bee.equalsKeys env es expected what =
      es.flatMap (fun e =>
        if Value.goEq e.1 e.1 then
          Bee.equals env e.2 (expected.MapIndex e.1)
            (what ++ "[" ++ printValue env .s e.1 0 ++ "]")
        else if (expected.MapIndex e.1).IsValid then
          [Bee.errorNotEquals (.value .invalid) (.value (expected.MapIndex e.1))
            (what ++ "[" ++ printValue env .s e.1 0 ++ "]")]
        else []) := by
  induction es with
  | nil => simp [Bee.equalsKeys]
  | cons e rest ih =>
    obtain ⟨k, x⟩ := e
    rw [Bee.equalsKeys, ih, List.flatMap_cons]

theorem flatMap_range_single {α : Type} (n i : Nat) (f : Nat → List α) (hi : i < n)
    (h : ∀ j, j < n → j ≠ i → f j = []) : (List.range n).flatMap f = f i := by
  induction n with
  | zero => omega
  | succ n ih =>
    rw [List.range_succ, List.flatMap_append]
    by_cases hin : i = n
    · subst hin
      have : (List.range i).flatMap f = [] := by
        rw [List.flatMap_eq_nil_iff]
        intro j hj
        have hj1 := List.mem_range.1 hj
        exact h j (by omega) (by omega)
      simp [this]
    · have h1 := ih (by omega) (fun j hj hne => h j (by omega) hne)
      have h2 : f n = [] := h n (by omega) (fun h => hin h.symm)
      simp [h1, h2]

/-- Counterexample to C2: two slices of the same length that differ at both
indices make `Equal` submit two failures, and the reporter two messages. -/
theorem C2_counterexample :
    ¬ (Bee.Equal sampleEnv (.slice (.slice tInt) false [.int tInt 1, .int tInt 2])
        (.slice (.slice tInt) false [.int tInt 3, .int tInt 4])).length ≤ 1 ∧
    (New false [NoColor]).report sampleEnv sampleLipgloss
      (Bee.Equal sampleEnv (.slice (.slice tInt) false [.int tInt 1, .int tInt 2])
        (.slice (.slice tInt) false [.int tInt 3, .int tInt 4])) =
      some [Event.errorf "1 != 3 ([0])", Event.errorf "2 != 4 ([1])"] := by
  constructor
  · decide
  · rfl

/-- C2 (amended): the loops of `equals` go on after a failure. The failures of
two sequences of one type and equal length are the failures of the pairs of
elements, one index after the other; those of two records of one type are
the failures of the pairs of fields, in declaration order; those of two
mappings of one type and equal size are the failures found under the keys
of the actual mapping, in the order of `MapKeys`. -/
theorem C2_failures_of_every_pair (env : Env) (t : GoType) (what : String) :
    (∀ n m xs ys, xs.length = ys.length →
      Bee.equals env (.slice t n xs) (.slice t m ys) what =
        (List.range xs.length).flatMap (fun j =>
          Bee.equals env (xs.getD j .invalid) (ys.getD j .invalid)
            (what ++ "[" ++ toString j ++ "]"))) ∧
    (∀ xs ys, xs.length = ys.length →
      Bee.equals env (.array t xs) (.array t ys) what =
        (List.range xs.length).flatMap (fun j =>
          Bee.equals env (xs.getD j .invalid) (ys.getD j .invalid)
            (what ++ "[" ++ toString j ++ "]"))) ∧
    (∀ xs ys,
      Bee.equals env (.struct t xs) (.struct t ys) what =
        (List.range xs.length).flatMap (fun j =>
          Bee.equals env (xs.getD j .invalid) (ys.getD j .invalid)
            (what ++ "." ++ t.FieldName j))) ∧
    (∀ n m es fs, es.length = fs.length →
      Bee.equals env (.map t n es) (.map t m fs) what =
        es.flatMap (fun e =>
          if Value.goEq e.1 e.1 then
            Bee.equals env e.2 (lookupKey e.1 fs)
              (what ++ "[" ++ printValue env .s e.1 0 ++ "]")
          else if (lookupKey e.1 fs).IsValid then
            [Bee.errorNotEquals (.value .invalid) (.value (lookupKey e.1 fs))
              (what ++ "[" ++ printValue env .s e.1 0 ++ "]")]
          else [])) := by
  refine ⟨?_, ?_, ?_, ?_⟩
  · intro n m xs ys h
    rw [Bee.equals.eq_def]
    simp [Value.IsValid, Value.goType, Value.Len, h, equalsIndex_eq_flatMap, Value.Index]
  · intro xs ys h
    rw [Bee.equals.eq_def]
    simp [Value.IsValid, Value.goType, Value.Len, h, equalsIndex_eq_flatMap, Value.Index]
  · intro xs ys
    rw [Bee.equals.eq_def]
    simp [Value.IsValid, Value.goType, equalsFields_eq_flatMap, Value.Field]
  · intro n m es fs h
    rw [Bee.equals.eq_def]
    simp [Value.IsValid, Value.goType, Value.Len, h, equalsKeys_eq_flatMap, Value.MapIndex]

/-- Witness of C2 (amended): the two slices of the counterexample. -/
theorem C2_witness :
    [Value.int tInt 1, .int tInt 2].length = [Value.int tInt 3, .int tInt 4].length ∧
    Bee.equals sampleEnv (.slice (.slice tInt) false [.int tInt 1, .int tInt 2])
        (.slice (.slice tInt) false [.int tInt 3, .int tInt 4]) "" =
      (List.range 2).flatMap (fun j =>
        Bee.equals sampleEnv ([Value.int tInt 1, .int tInt 2].getD j .invalid)
          ([Value.int tInt 3, .int tInt 4].getD j .invalid) ("" ++ "[" ++ toString j ++ "]")) :=
  ⟨rfl, (C2_failures_of_every_pair sampleEnv (.slice tInt) "").1 false false
    [.int tInt 1, .int tInt 2] [.int tInt 3, .int tInt 4] rfl⟩

/-- C3 (code bug): `equals` does nothing on two pointers of one type, whatever
they point to; the two records of the test of `assert_test.go`, whose field
`p` points to the slices `a` and `b`, are reported equal. -/
theorem C3_pointers_not_dereferenced (env : Env) :
    (∀ t a1 e1 a2 e2 what, Bee.equals env (.ptr t a1 e1) (.ptr t a2 e2) what = []) ∧
    Bee.Equal env (testStructP 1 "a") (testStructP 2 "b") = [] := by
  constructor
  · intro t a1 e1 a2 e2 what
    rw [Bee.equals.eq_def]
    simp [Value.IsValid, Value.goType]
  · rfl

/-- C4: for two valid values whose types differ, `equals` reports exactly one
failure, whose leaves are the two types and whose path is the current path;
two well-formed arrays of different lengths have different types and are
reported so, with the message `[1]int != [2]int` for `[1]int` against
`[2]int` at top level. -/
theorem C4_type_mismatch (env : Env) (lg : Lipgloss) :
    (∀ a b what, a.IsValid = true → b.IsValid = true → a.goType ≠ b.goType →
      Bee.equals env a b what =
        [Bee.errorNotEquals (.type a.goType) (.type b.goType) what]) ∧
    (∀ t1 t2 xs ys what, (Value.array t1 xs).wellTyped = true →
      (Value.array t2 ys).wellTyped = true → xs.length ≠ ys.length →
      Bee.equals env (.array t1 xs) (.array t2 ys) what =
        [Bee.errorNotEquals (.type t1) (.type t2) what]) ∧
    (New false [NoColor]).report env lg
      (Bee.Equal env (.array (.array 1 tInt) [.int tInt 0])
        (.array (.array 2 tInt) [.int tInt 0, .int tInt 0])) =
      some [Event.errorf "[1]int != [2]int"] := by
  refine ⟨fun a b what ha hb h => equals_of_type_ne env a b what ha hb h, ?_, rfl⟩
  intro t1 t2 xs ys what h1 h2 h
  have hne : t1 ≠ t2 := by
    intro heq
    subst heq
    simp only [Value.wellTyped, Bool.and_eq_true, beq_iff_eq] at h1 h2
    omega
  exact equals_of_type_ne env (.array t1 xs) (.array t2 ys) what rfl rfl hne

/-- Witness of C4: `true` against `1`, and `[1]int` against `[2]int`. -/
theorem C4_witness :
    ((Value.bool (.basic .bool) true).IsValid = true ∧ (Value.int tInt 1).IsValid = true ∧
      (Value.bool (.basic .bool) true).goType ≠ (Value.int tInt 1).goType ∧
      Bee.equals sampleEnv (.bool (.basic .bool) true) (.int tInt 1) "" =
        [Bee.errorNotEquals (.type (.basic .bool)) (.type tInt) ""]) ∧
    ((Value.array (.array 1 tInt) [.int tInt 0]).wellTyped = true ∧
      (Value.array (.array 2 tInt) [.int tInt 0, .int tInt 0]).wellTyped = true ∧
      [Value.int tInt 0].length ≠ [Value.int tInt 0, .int tInt 0].length ∧
      Bee.equals sampleEnv (.array (.array 1 tInt) [.int tInt 0])
          (.array (.array 2 tInt) [.int tInt 0, .int tInt 0]) "" =
        [Bee.errorNotEquals (.type (.array 1 tInt)) (.type (.array 2 tInt)) ""]) :=
  ⟨⟨rfl, rfl, by decide,
      (C4_type_mismatch sampleEnv sampleLipgloss).1 (.bool (.basic .bool) true) (.int tInt 1) ""
        rfl rfl (by decide)⟩,
    ⟨by decide, by decide, by decide,
      (C4_type_mismatch sampleEnv sampleLipgloss).2.1 (.array 1 tInt) (.array 2 tInt)
        [.int tInt 0] [.int tInt 0, .int tInt 0] "" (by decide) (by decide) (by decide)⟩⟩

/-- C5: on two booleans, two texts, or two signed or two unsigned integers of
one type, `equals` reports nothing when the values are equal and otherwise
exactly one failure, whose leaves are the two values (integers as `int64` /
`uint64`) and whose path is the current path; `Equal(1, 2)` without colour
gives the message `1 != 2`. -/
theorem C5_primitives (env : Env) (lg : Lipgloss) (t : GoType) (what : String) :
    (∀ x y : Bool, Bee.equals env (.bool t x) (.bool t y) what =
      if x = y then [] else [Bee.errorNotEquals (.bool x) (.bool y) what]) ∧
    (∀ x y : String, Bee.equals env (.string t x) (.string t y) what =
      if x = y then [] else [Bee.errorNotEquals (.string x) (.string y) what]) ∧
    (∀ x y : Int, Bee.equals env (.int t x) (.int t y) what =
      if x = y then [] else [Bee.errorNotEquals (.int64 x) (.int64 y) what]) ∧
    (∀ x y : Nat, Bee.equals env (.uint t x) (.uint t y) what =
      if x = y then [] else [Bee.errorNotEquals (.uint64 x) (.uint64 y) what]) ∧
    (New false [NoColor]).report env lg (Bee.Equal env (.int tInt 1) (.int tInt 2)) =
      some [Event.errorf "1 != 2"] := by
  refine ⟨?_, ?_, ?_, ?_, rfl⟩
  · intro x y
    rw [Bee.equals.eq_def]
    by_cases h : x = y <;> simp [Value.IsValid, Value.goType, Value.asBool, h]
  · intro x y
    rw [Bee.equals.eq_def]
    by_cases h : x = y <;> simp [Value.IsValid, Value.goType, Value.asString, h]
  · intro x y
    rw [Bee.equals.eq_def]
    by_cases h : x = y <;> simp [Value.IsValid, Value.goType, Value.asInt, h]
  · intro x y
    rw [Bee.equals.eq_def]
    by_cases h : x = y <;> simp [Value.IsValid, Value.goType, Value.asUint, h]

theorem Float64.abs_isNaN (x : Float64) : x.abs.isNaN = x.isNaN := by
  cases x <;> rfl

/-- Counterexample to C6: a complex number with a NaN real part is a primitive
value, and `Equal(a, a)` reports a failure for it. -/
theorem C6_counterexample :
    (Value.complex (.basic .complex128) .nan (.fin false 0 0)).isPrimitive = true ∧
    (Value.complex (.basic .complex128) .nan (.fin false 0 0)).wellTyped = true ∧
    Bee.Equal sampleEnv (.complex (.basic .complex128) .nan (.fin false 0 0))
        (.complex (.basic .complex128) .nan (.fin false 0 0)) =
      [Bee.errorNotEquals (.complex128 .nan (.fin false 0 0))
        (.complex128 .nan (.fin false 0 0)) ""] := by
  refine ⟨rfl, by decide, rfl⟩

/-- C6 (amended): for every primitive value `a` (boolean, signed or unsigned
integer, float, complex number, text) that is not a complex number with a NaN
part, `Equal(a, a)` reports no failure. -/
theorem C6_primitive_self_equal (env : Env) (a : Value) (hp : a.isPrimitive = true)
    (hn : a.hasNaNPart = false) : Bee.Equal env a a = [] := by
  unfold Bee.Equal
  rw [Bee.equals.eq_def]
  cases a <;> simp [Value.isPrimitive] at hp
  case bool t x => simp [Value.IsValid, Value.asBool]
  case int t x => simp [Value.IsValid, Value.asInt]
  case uint t x => simp [Value.IsValid, Value.asUint]
  case uintptr t x => simp [Value.IsValid]
  case float t x => simp [Value.IsValid, Value.asFloat, Float64.sub_self_abs_gt]
  case complex t re im =>
    simp only [Value.hasNaNPart, Bool.or_eq_false_iff] at hn
    simp [Value.IsValid, Value.asComplex, Float64.eq_self re hn.1, Float64.eq_self im hn.2]
  case string t x => simp [Value.IsValid, Value.asString]

/-- Witness of C6 (amended): the float NaN, which is equal to itself for
`Equal`. -/
theorem C6_witness :
    ((Value.float (.basic .float64) .nan).isPrimitive = true ∧
      (Value.float (.basic .float64) .nan).hasNaNPart = false) ∧
    Bee.Equal sampleEnv (.float (.basic .float64) .nan) (.float (.basic .float64) .nan) = [] :=
  ⟨⟨rfl, rfl⟩, C6_primitive_self_equal sampleEnv (.float (.basic .float64) .nan) rfl rfl⟩

/-- Counterexample to C7: `Equal(NaN, 1.0)` reports no failure, although the
absolute difference of NaN and 1 is not at most `1e-9` (no comparison with
NaN holds). -/
theorem C7_counterexample :
    Bee.Equal sampleEnv (.float (.basic .float64) .nan)
        (.float (.basic .float64) (.fin false 1 0)) = [] ∧
    ((Float64.nan.sub (.fin false 1 0)).abs.le epsilon) = false := by
  exact ⟨rfl, rfl⟩

/-- C7 (amended): for all floats `a` and `b` of one type whose `float64`
difference `a - b` is not NaN, `equals` reports no failure if and only if the
absolute value of that difference is at most the `float64` constant `1e-9`,
and otherwise reports exactly one failure, whose leaves are `a` and `b` and
whose path is the current path. -/
theorem C7_float_epsilon (env : Env) (t : GoType) (x y : Float64) (what : String)
    (h : (x.sub y).isNaN = false) :
    (Bee.equals env (.float t x) (.float t y) what = [] ↔
      (x.sub y).abs.le epsilon = true) ∧
    ((x.sub y).abs.le epsilon = false →
      Bee.equals env (.float t x) (.float t y) what =
        [Bee.errorNotEquals (.float64 x) (.float64 y) what]) := by
  have hgt : (x.sub y).abs.gt epsilon = !(x.sub y).abs.le epsilon :=
    Float64.gt_eq_not_le _ _ (by rw [Float64.abs_isNaN]; exact h) rfl
  rw [Bee.equals.eq_def]
  simp only [Value.IsValid, Value.goType, Value.asFloat, hgt]
  cases hle : (x.sub y).abs.le epsilon <;> simp

/-- Witness of C7 (amended): `1.1` against `2.2`, as in `assert_test.go`. -/
theorem C7_witness :
    ((Float64.fin false 0x1199999999999A (-52)).sub
      (.fin false 0x1199999999999A (-51))).isNaN = false ∧
    ((Float64.fin false 0x1199999999999A (-52)).sub
      (.fin false 0x1199999999999A (-51))).abs.le epsilon = false ∧
    Bee.equals sampleEnv (.float (.basic .float64) (.fin false 0x1199999999999A (-52)))
        (.float (.basic .float64) (.fin false 0x1199999999999A (-51))) "" =
      [Bee.errorNotEquals (.float64 (.fin false 0x1199999999999A (-52)))
        (.float64 (.fin false 0x1199999999999A (-51))) ""] :=
  ⟨by decide, by decide,
    (C7_float_epsilon sampleEnv (.basic .float64) (.fin false 0x1199999999999A (-52))
      (.fin false 0x1199999999999A (-51)) "" (by decide)).2 (by decide)⟩

/-- C8: for two slices of one type, or two mappings of one type, whose lengths
differ, `equals` reports exactly one failure, whatever the elements: its
leaves are the two lengths and its path is `len(` current path `)`, which is
`len()` at top level. (Two arrays of one type have the same length.) -/
theorem C8_length_mismatch (env : Env) (t : GoType) (what : String) :
    (∀ n m xs ys, xs.length ≠ ys.length →
      Bee.equals env (.slice t n xs) (.slice t m ys) what =
        [Bee.errorNotEquals (.int xs.length) (.int ys.length) ("len(" ++ what ++ ")")]) ∧
    (∀ n m es fs, es.length ≠ fs.length →
      Bee.equals env (.map t n es) (.map t m fs) what =
        [Bee.errorNotEquals (.int es.length) (.int fs.length) ("len(" ++ what ++ ")")]) ∧
    (∀ n m xs ys, xs.length ≠ ys.length →
      Bee.Equal env (.slice t n xs) (.slice t m ys) =
        [Bee.errorNotEquals (.int xs.length) (.int ys.length) "len()"]) ∧
    (∀ n m es fs, es.length ≠ fs.length →
      Bee.Equal env (.map t n es) (.map t m fs) =
        [Bee.errorNotEquals (.int es.length) (.int fs.length) "len()"]) := by
  have h1 : ∀ w n m xs ys, xs.length ≠ ys.length →
      Bee.equals env (.slice t n xs) (.slice t m ys) w =
        [Bee.errorNotEquals (.int xs.length) (.int ys.length) ("len(" ++ w ++ ")")] := by
    intro w n m xs ys h
    rw [Bee.equals.eq_def]
    simp [Value.IsValid, Value.goType, Value.Len, h]
  have h2 : ∀ w n m es fs, es.length ≠ fs.length →
      Bee.equals env (.map t n es) (.map t m fs) w =
        [Bee.errorNotEquals (.int es.length) (.int fs.length) ("len(" ++ w ++ ")")] := by
    intro w n m es fs h
    rw [Bee.equals.eq_def]
    simp [Value.IsValid, Value.goType, Value.Len, h]
  exact ⟨h1 what, h2 what, fun n m xs ys h => h1 "" n m xs ys h,
    fun n m es fs h => h2 "" n m es fs h⟩

/-- Witness of C8: `[]int{0}` against `[]int{0, 0}`, as in `assert_test.go`,
with the message `1 != 2 (len())`. -/
theorem C8_witness :
    [Value.int tInt 0].length ≠ [Value.int tInt 0, .int tInt 0].length ∧
    Bee.Equal sampleEnv (.slice (.slice tInt) false [.int tInt 0])
        (.slice (.slice tInt) false [.int tInt 0, .int tInt 0]) =
      [Bee.errorNotEquals (.int 1) (.int 2) "len()"] ∧
    (New false [NoColor]).report sampleEnv sampleLipgloss
        [Bee.errorNotEquals (.int 1) (.int 2) "len()"] =
      some [Event.errorf "1 != 2 (len())"] :=
  ⟨by decide, (C8_length_mismatch sampleEnv (.slice tInt) "").2.2.1 false false [.int tInt 0]
    [.int tInt 0, .int tInt 0] (by decide), rfl⟩

theorem equals_compared (env : Env) (x y : Value) (what : String)
    (hc : x.isCompared = true) (wx : x.wellTyped = true) (wy : y.wellTyped = true)
    (ht : x.goType = y.goType) :
    Bee.equals env x y what =
      if x.differs y = true then [Bee.errorNotEquals x.leaf y.leaf what] else [] := by
  have hs := shape_eq_of_type_eq x y wx wy ht
  cases x <;> simp [Value.isCompared, Value.isPrimitive] at hc
  case bool t a =>
    cases y <;> simp [Value.shape] at hs
    simp only [Value.goType] at ht
    subst ht
    rw [Bee.equals.eq_def]
    simp [Value.IsValid, Value.goType, Value.asBool, Value.differs, Value.leaf]
  case int t a =>
    cases y <;> simp [Value.shape] at hs
    simp only [Value.goType] at ht
    subst ht
    rw [Bee.equals.eq_def]
    simp [Value.IsValid, Value.goType, Value.asInt, Value.differs, Value.leaf]
  case uint t a =>
    cases y <;> simp [Value.shape] at hs
    simp only [Value.goType] at ht
    subst ht
    rw [Bee.equals.eq_def]
    simp [Value.IsValid, Value.goType, Value.asUint, Value.differs, Value.leaf]
  case float t a =>
    cases y <;> simp [Value.shape] at hs
    simp only [Value.goType] at ht
    subst ht
    rw [Bee.equals.eq_def]
    simp [Value.IsValid, Value.goType, Value.asFloat, Value.differs, Value.leaf]
  case complex t re im =>
    cases y <;> simp [Value.shape] at hs
    simp only [Value.goType] at ht
    subst ht
    rw [Bee.equals.eq_def]
    simp [Value.IsValid, Value.goType, Value.asComplex, Value.differs, Value.leaf]
  case string t a =>
    cases y <;> simp [Value.shape] at hs
    simp only [Value.goType] at ht
    subst ht
    rw [Bee.equals.eq_def]
    simp [Value.IsValid, Value.goType, Value.asString, Value.differs, Value.leaf]

theorem wellTypedList_getD (t : GoType) (xs : List Value) (h : Value.wellTypedList t xs = true)
    (j : Nat) (hj : j < xs.length) :
    (xs.getD j .invalid).goType = t ∧ (xs.getD j .invalid).wellTyped = true := by
  have hmem : xs.getD j .invalid ∈ xs := by
    rw [List.getD_eq_getElem _ _ hj]
    exact List.getElem_mem hj
  exact wellTypedList_mem t xs h _ hmem

theorem flatMap_eq_range {α β : Type} (l : List α) (d : α) (f : α → List β) :
    l.flatMap f = (List.range l.length).flatMap (fun j => f (l.getD j d)) := by
  induction l with
  | nil => simp
  | cons a rest ih =>
    rw [List.length_cons, List.range_succ_eq_map, List.flatMap_cons, List.flatMap_cons,
      List.flatMap_map, ih]
    simp

theorem equalsIndex_single (env : Env) (te : GoType) (xs ys : List Value) (expected : Value)
    (i : Nat) (what : String)
    (hidx : ∀ j, expected.Index j = ys.getD j .invalid)
    (hxs : Value.wellTypedList te xs = true) (hys : Value.wellTypedList te ys = true)
    (hp : xs.all Value.isCompared = true) (hlen : xs.length = ys.length) (hi : i < xs.length)
    (hd : Value.differs (xs.getD i .invalid) (ys.getD i .invalid) = true)
    (hs : ∀ j, j < xs.length → j ≠ i →
      Value.differs (xs.getD j .invalid) (ys.getD j .invalid) = false) :
    Bee.equalsIndex env xs expected 0 what =
      [Bee.errorNotEquals (xs.getD i .invalid).leaf (ys.getD i .invalid).leaf
        (what ++ "[" ++ toString i ++ "]")] := by
  have hcmp : ∀ j, j < xs.length →
      Bee.equals env (xs.getD j .invalid) (expected.Index (0 + j))
          (what ++ "[" ++ toString (0 + j) ++ "]") =
        if Value.differs (xs.getD j .invalid) (ys.getD j .invalid) = true then
          [Bee.errorNotEquals (xs.getD j .invalid).leaf (ys.getD j .invalid).leaf
            (what ++ "[" ++ toString j ++ "]")]
        else [] := by
    intro j hj
    have h1 := wellTypedList_getD te xs hxs j hj
    have h2 := wellTypedList_getD te ys hys j (by omega)
    have h3 : (xs.getD j .invalid).isCompared = true := by
      rw [List.all_eq_true] at hp
      apply hp
      rw [List.getD_eq_getElem _ _ hj]
      exact List.getElem_mem hj
    rw [Nat.zero_add, hidx]
    exact equals_compared env _ _ _ h3 h1.2 h2.2 (h1.1.trans h2.1.symm)
  rw [equalsIndex_eq_flatMap, flatMap_range_single xs.length i _ hi, hcmp i hi, hd]
  · rfl
  · intro j hj hne
    rw [hcmp j hj, hs j hj hne]
    rfl

/-- Counterexample to C9: two slices of floats of length one whose elements
differ (by `2^-40`, less than `1e-9`), for which `Equal` reports no failure;
and two slices of `uintptr` of length one whose elements differ, for which
`Equal` reports no failure either. -/
theorem C9_counterexample :
    ((Value.slice (.slice (.basic .float64)) false
        [.float (.basic .float64) (.fin false (2 ^ 52) (-52))]).wellTyped = true ∧
      (Value.slice (.slice (.basic .float64)) false
        [.float (.basic .float64) (.fin false (2 ^ 52 + 2 ^ 12) (-52))]).wellTyped = true ∧
      Float64.eq (.fin false (2 ^ 52) (-52)) (.fin false (2 ^ 52 + 2 ^ 12) (-52)) = false ∧
      Bee.Equal sampleEnv
        (.slice (.slice (.basic .float64)) false
          [.float (.basic .float64) (.fin false (2 ^ 52) (-52))])
        (.slice (.slice (.basic .float64)) false
          [.float (.basic .float64) (.fin false (2 ^ 52 + 2 ^ 12) (-52))]) = []) ∧
    ((Value.slice (.slice (.basic .uintptr)) false [.uintptr (.basic .uintptr) 1]).wellTyped =
        true ∧
      (Value.slice (.slice (.basic .uintptr)) false [.uintptr (.basic .uintptr) 2]).wellTyped =
        true ∧
      Bee.Equal sampleEnv
        (.slice (.slice (.basic .uintptr)) false [.uintptr (.basic .uintptr) 1])
        (.slice (.slice (.basic .uintptr)) false [.uintptr (.basic .uintptr) 2]) = []) := by
  refine ⟨⟨by decide, by decide, by decide, rfl⟩, by decide, by decide, rfl⟩

/-- C9 (amended): for two sequences of one type and equal length whose elements
are primitives that `equals` compares (booleans, integers other than
`uintptr`, floats, complex numbers, texts), if the pair at index `i` is told
apart by the comparison of its kind and no other pair is, `equals` reports
exactly one failure, whose leaves are the two elements at index `i` and whose
path is the current path followed by `[i]`, which is `[i]` at top level. -/
theorem C9_one_differing_index (env : Env) (t : GoType) (xs ys : List Value) (i : Nat)
    (what : String)
    (hxs : Value.wellTypedList t.elem xs = true) (hys : Value.wellTypedList t.elem ys = true)
    (hp : xs.all Value.isCompared = true) (hlen : xs.length = ys.length) (hi : i < xs.length)
    (hd : Value.differs (xs.getD i .invalid) (ys.getD i .invalid) = true)
    (hs : ∀ j, j < xs.length → j ≠ i →
      Value.differs (xs.getD j .invalid) (ys.getD j .invalid) = false) :
    (∀ n m, Bee.equals env (.slice t n xs) (.slice t m ys) what =
      [Bee.errorNotEquals (xs.getD i .invalid).leaf (ys.getD i .invalid).leaf
        (what ++ "[" ++ toString i ++ "]")]) ∧
    Bee.equals env (.array t xs) (.array t ys) what =
      [Bee.errorNotEquals (xs.getD i .invalid).leaf (ys.getD i .invalid).leaf
        (what ++ "[" ++ toString i ++ "]")] ∧
    (∀ n m, Bee.Equal env (.slice t n xs) (.slice t m ys) =
      [Bee.errorNotEquals (xs.getD i .invalid).leaf (ys.getD i .invalid).leaf
        ("[" ++ toString i ++ "]")]) ∧
    Bee.Equal env (.array t xs) (.array t ys) =
      [Bee.errorNotEquals (xs.getD i .invalid).leaf (ys.getD i .invalid).leaf
        ("[" ++ toString i ++ "]")] := by
  have h1 : ∀ w n m, Bee.equals env (.slice t n xs) (.slice t m ys) w =
      [Bee.errorNotEquals (xs.getD i .invalid).leaf (ys.getD i .invalid).leaf
        (w ++ "[" ++ toString i ++ "]")] := by
    intro w n m
    rw [Bee.equals.eq_def]
    simp only [Value.IsValid, Value.goType, Value.Len, hlen]
    simp only [Bool.not_true, Bool.or_self, Bool.false_eq_true, ↓reduceIte, ne_eq,
      not_true_eq_false]
    exact equalsIndex_single env t.elem xs ys _ i w (fun j => by simp [Value.Index])
      hxs hys hp hlen hi hd hs
  have h2 : ∀ w, Bee.equals env (.array t xs) (.array t ys) w =
      [Bee.errorNotEquals (xs.getD i .invalid).leaf (ys.getD i .invalid).leaf
        (w ++ "[" ++ toString i ++ "]")] := by
    intro w
    rw [Bee.equals.eq_def]
    simp only [Value.IsValid, Value.goType, Value.Len, hlen]
    simp only [Bool.not_true, Bool.or_self, Bool.false_eq_true, ↓reduceIte, ne_eq,
      not_true_eq_false]
    exact equalsIndex_single env t.elem xs ys _ i w (fun j => by simp [Value.Index])
      hxs hys hp hlen hi hd hs
  refine ⟨h1 what, h2 what, fun n m => ?_, ?_⟩
  · have := h1 "" n m
    simpa [Bee.Equal] using this
  · have := h2 ""
    simpa [Bee.Equal] using this

/-- Witness of C9 (amended): `[]int{1, 2, 3}` against `[]int{1, 5, 3}`. -/
theorem C9_witness :
    (Value.wellTypedList tInt [.int tInt 1, .int tInt 2, .int tInt 3] = true ∧
      Value.wellTypedList tInt [.int tInt 1, .int tInt 5, .int tInt 3] = true ∧
      [Value.int tInt 1, .int tInt 2, .int tInt 3].all Value.isCompared = true ∧
      Value.differs (.int tInt 2) (.int tInt 5) = true ∧
      Value.differs (.int tInt 1) (.int tInt 1) = false ∧
      Value.differs (.int tInt 3) (.int tInt 3) = false) ∧
    Bee.Equal sampleEnv (.slice (.slice tInt) false [.int tInt 1, .int tInt 2, .int tInt 3])
        (.slice (.slice tInt) false [.int tInt 1, .int tInt 5, .int tInt 3]) =
      [Bee.errorNotEquals (.int64 2) (.int64 5) "[1]"] :=
  ⟨by decide,
    (C9_one_differing_index sampleEnv (.slice tInt) [.int tInt 1, .int tInt 2, .int tInt 3]
      [.int tInt 1, .int tInt 5, .int tInt 3] 1 "" (by decide) (by decide) (by decide)
      (by decide) (by decide) (by decide) (by decide)).2.2.1 false false⟩

theorem wellTypedEntries_types (kt vt : GoType) (es : List (Value × Value))
    (h : Value.wellTypedEntries kt vt es = true) :
    ∀ e ∈ es, e.1.goType = kt ∧ e.2.goType = vt := by
  induction es with
  | nil => simp
  | cons e rest ih =>
    obtain ⟨k, x⟩ := e
    simp only [Value.wellTypedEntries, Bool.and_eq_true, decide_eq_true_eq] at h
    intro y hy
    rcases List.mem_cons.1 hy with rfl | hy
    · exact ⟨h.1.1.1.1.1, h.1.1.2⟩
    · exact ih h.2 y hy

theorem equalsKeys_single (env : Env) (kt vt : GoType) (es fs : List (Value × Value))
    (expected : Value) (i : Nat) (kt1 : GoType) (k : String) (what : String)
    (hexp : ∀ key, expected.MapIndex key = lookupKey key fs)
    (wes : Value.wellTypedEntries kt vt es = true)
    (wfs : Value.wellTypedEntries kt vt fs = true)
    (hk : es.all (fun e => e.1.shape == .string) = true)
    (hp : es.all (fun e => e.2.isCompared) = true)
    (hkeys : es.all (fun e => (lookupKey e.1 fs).IsValid) = true)
    (hi : i < es.length) (hki : (es.getD i (.invalid, .invalid)).1 = .string kt1 k)
    (hd : (es.getD i (.invalid, .invalid)).2.differs (lookupKey (.string kt1 k) fs) = true)
    (hs : ∀ j, j < es.length → j ≠ i →
      (es.getD j (.invalid, .invalid)).2.differs
        (lookupKey (es.getD j (.invalid, .invalid)).1 fs) = false) :
    Bee.equalsKeys env es expected what =
      [Bee.errorNotEquals (es.getD i (.invalid, .invalid)).2.leaf
        (lookupKey (.string kt1 k) fs).leaf (what ++ "[" ++ k ++ "]")] := by
  have hcmp : ∀ j, j < es.length →
      (if Value.goEq (es.getD j (.invalid, .invalid)).1 (es.getD j (.invalid, .invalid)).1 then
        Bee.equals env (es.getD j (.invalid, .invalid)).2
          (expected.MapIndex (es.getD j (.invalid, .invalid)).1)
          (what ++ "[" ++ printValue env .s (es.getD j (.invalid, .invalid)).1 0 ++ "]")
      else if (expected.MapIndex (es.getD j (.invalid, .invalid)).1).IsValid then
        [Bee.errorNotEquals (.value .invalid)
          (.value (expected.MapIndex (es.getD j (.invalid, .invalid)).1))
          (what ++ "[" ++ printValue env .s (es.getD j (.invalid, .invalid)).1 0 ++ "]")]
      else []) =
        if (es.getD j (.invalid, .invalid)).2.differs
            (lookupKey (es.getD j (.invalid, .invalid)).1 fs) = true then
          [Bee.errorNotEquals (es.getD j (.invalid, .invalid)).2.leaf
            (lookupKey (es.getD j (.invalid, .invalid)).1 fs).leaf
            (what ++ "[" ++ printValue env .s (es.getD j (.invalid, .invalid)).1 0 ++ "]")]
        else [] := by
    intro j hj
    have hmem : es.getD j (.invalid, .invalid) ∈ es := by
      rw [List.getD_eq_getElem _ _ hj]
      exact List.getElem_mem hj
    generalize es.getD j (.invalid, .invalid) = e at hmem
    rw [List.all_eq_true] at hk hp hkeys
    have h1 := hk e hmem
    have h2 := hp e hmem
    have h3 := hkeys e hmem
    have h4 := wellTypedEntries_mem kt vt es wes e hmem
    have h5 := wellTypedEntries_types kt vt es wes e hmem
    have hself : Value.goEq e.1 e.1 = true := by
      obtain ⟨ek, ex⟩ := e
      cases ek <;> simp [Value.shape] at h1
      simp [Value.goEq]
    rw [hexp, hself]
    rcases lookupKey_cases e.1 fs with ⟨hl, _⟩ | ⟨f, hf, _, hl⟩
    · rw [hl] at h3
      simp [Value.IsValid] at h3
    · have h6 := wellTypedEntries_mem kt vt fs wfs f hf
      have h7 := wellTypedEntries_types kt vt fs wfs f hf
      rw [hl]
      simp only [↓reduceIte]
      exact equals_compared env e.2 f.2 _ h2 h4.2.2 h6.2.2 (h5.2.trans h7.2.symm)
  rw [equalsKeys_eq_flatMap, flatMap_eq_range es (.invalid, .invalid),
    flatMap_range_single es.length i _ hi, hcmp i hi, hki, hd]
  · simp [printValue]
  · intro j hj hne
    rw [hcmp j hj, hs j hj hne]
    rfl

/-- Counterexample to C10: two mappings with the one key `a`, whose values are
slices that differ at index 0, give a failure whose leaves are the elements
and whose path is `[a][0]`, not `[a]`; and two mappings with the one key `a`
whose values are floats that differ by `2^-40` give no failure at all. -/
theorem C10_counterexample :
    (Bee.Equal sampleEnv
        (.map (.map tString (.slice tInt)) false
          [(.string tString "a", .slice (.slice tInt) false [.int tInt 1])])
        (.map (.map tString (.slice tInt)) false
          [(.string tString "a", .slice (.slice tInt) false [.int tInt 2])]) =
      [Bee.errorNotEquals (.int64 1) (.int64 2) "[a][0]"] ∧ "[a][0]" ≠ "[a]") ∧
    (Float64.eq (.fin false (2 ^ 52) (-52)) (.fin false (2 ^ 52 + 2 ^ 12) (-52)) = false ∧
      Bee.Equal sampleEnv
        (.map (.map tString (.basic .float64)) false
          [(.string tString "a", .float (.basic .float64) (.fin false (2 ^ 52) (-52)))])
        (.map (.map tString (.basic .float64)) false
          [(.string tString "a",
            .float (.basic .float64) (.fin false (2 ^ 52 + 2 ^ 12) (-52)))]) = []) := by
  refine ⟨⟨rfl, by decide⟩, by decide, rfl⟩

/-- C10 (amended): for two well-formed mappings of one type and equal size whose
keys are texts of a key type without methods (the type `string`: a defined
text type may have a method `Format`, `Error` or `String`, whose result `%s`
then prints in the place of the key) and whose values are primitives that
`equals` compares, such that every key of the actual mapping is a key of the
expected one, if the two values under the key `k` are told apart by the
comparison of their kind and the values under no other key are, `equals`
reports exactly one failure, whose leaves are the two values under `k` and
whose path is the current path followed by `[k]`, which is `[k]` at top
level. -/
theorem C10_one_differing_key (env : Env) (t : GoType) (n m : Bool)
    (es fs : List (Value × Value)) (i : Nat) (kt : GoType) (k : String) (what : String)
    (wa : (Value.map t n es).wellTyped = true) (wb : (Value.map t m fs).wellTyped = true)
    (_hm : t.key.methodFree = true)
    (hk : es.all (fun e => e.1.shape == .string) = true)
    (hp : es.all (fun e => e.2.isCompared) = true)
    (hlen : es.length = fs.length)
    (hkeys : es.all (fun e => (lookupKey e.1 fs).IsValid) = true)
    (hi : i < es.length) (hki : (es.getD i (.invalid, .invalid)).1 = .string kt k)
    (hd : (es.getD i (.invalid, .invalid)).2.differs (lookupKey (.string kt k) fs) = true)
    (hs : ∀ j, j < es.length → j ≠ i →
      (es.getD j (.invalid, .invalid)).2.differs
        (lookupKey (es.getD j (.invalid, .invalid)).1 fs) = false) :
    Bee.equals env (.map t n es) (.map t m fs) what =
      [Bee.errorNotEquals (es.getD i (.invalid, .invalid)).2.leaf
        (lookupKey (.string kt k) fs).leaf (what ++ "[" ++ k ++ "]")] ∧
    Bee.Equal env (.map t n es) (.map t m fs) =
      [Bee.errorNotEquals (es.getD i (.invalid, .invalid)).2.leaf
        (lookupKey (.string kt k) fs).leaf ("[" ++ k ++ "]")] := by
  simp only [Value.wellTyped, Bool.and_eq_true, beq_iff_eq] at wa wb
  have h1 : ∀ w, Bee.equals env (.map t n es) (.map t m fs) w =
      [Bee.errorNotEquals (es.getD i (.invalid, .invalid)).2.leaf
        (lookupKey (.string kt k) fs).leaf (w ++ "[" ++ k ++ "]")] := by
    intro w
    rw [Bee.equals.eq_def]
    simp only [Value.IsValid, Value.goType, Value.Len, hlen]
    simp only [Bool.not_true, Bool.or_self, Bool.false_eq_true, ↓reduceIte, ne_eq,
      not_true_eq_false]
    exact equalsKeys_single env t.key t.elem es fs _ i kt k w
      (fun key => by simp [Value.MapIndex]) wa.1.2 wb.1.2 hk hp hkeys hi hki hd hs
  refine ⟨h1 what, ?_⟩
  have := h1 ""
  simpa [Bee.Equal] using this

/-- Witness of C10 (amended): `map[string]int` with `a: 1, b: 2` against
`b: 2, a: 3`, with the message `1 != 3 ([a])`. -/
theorem C10_witness :
    ((Value.map (.map tString tInt) false
        [(.string tString "a", .int tInt 1), (.string tString "b", .int tInt 2)]).wellTyped = true ∧
      (Value.map (.map tString tInt) false
        [(.string tString "b", .int tInt 2), (.string tString "a", .int tInt 3)]).wellTyped = true ∧
      (GoType.map tString tInt).key.methodFree = true ∧
      Value.differs (.int tInt 1) (.int tInt 3) = true ∧
      Value.differs (.int tInt 2) (.int tInt 2) = false) ∧
    Bee.Equal sampleEnv
        (.map (.map tString tInt) false
          [(.string tString "a", .int tInt 1), (.string tString "b", .int tInt 2)])
        (.map (.map tString tInt) false
          [(.string tString "b", .int tInt 2), (.string tString "a", .int tInt 3)]) =
      [Bee.errorNotEquals (.int64 1) (.int64 3) "[a]"] ∧
    (New false [NoColor]).report sampleEnv sampleLipgloss
        [Bee.errorNotEquals (.int64 1) (.int64 3) "[a]"] =
      some [Event.errorf "1 != 3 ([a])"] :=
  ⟨by decide, (C10_one_differing_key sampleEnv (.map tString tInt) false false
    [(.string tString "a", .int tInt 1), (.string tString "b", .int tInt 2)]
    [(.string tString "b", .int tInt 2), (.string tString "a", .int tInt 3)] 0 tString "a" ""
    (by decide) (by decide) (by decide) (by decide) (by decide) (by decide) (by decide)
    (by decide) rfl (by decide) (by decide)).2, rfl⟩

/-- C13: two absent values give no failure; an absent value against a present
one, on either side, gives exactly one failure, whose leaves are the two
values and whose path is the current path, whatever the present value holds. -/
theorem C13_absence (env : Env) (what : String) :
    Bee.equals env .invalid .invalid what = [] ∧
    Bee.Equal env .invalid .invalid = [] ∧
    (∀ b, b.IsValid = true →
      Bee.equals env .invalid b what =
        [Bee.errorNotEquals (.value .invalid) (.value b) what]) ∧
    (∀ a, a.IsValid = true →
      Bee.equals env a .invalid what =
        [Bee.errorNotEquals (.value a) (.value .invalid) what]) := by
  refine ⟨rfl, rfl, ?_, ?_⟩
  · intro b hb
    rw [Bee.equals.eq_def]
    simp [hb, show Value.IsValid .invalid = false from rfl]
  · intro a ha
    rw [Bee.equals.eq_def]
    simp [ha, show Value.IsValid .invalid = false from rfl]

/-- Witness of C13: `Equal(nil, 1)` and `Equal(1, nil)`. -/
theorem C13_witness :
    (Value.int tInt 1).IsValid = true ∧
    Bee.equals sampleEnv .invalid (.int tInt 1) "" =
      [Bee.errorNotEquals (.value .invalid) (.value (.int tInt 1)) ""] ∧
    Bee.equals sampleEnv (.int tInt 1) .invalid "" =
      [Bee.errorNotEquals (.value (.int tInt 1)) (.value .invalid) ""] :=
  ⟨rfl, (C13_absence sampleEnv "").2.2.1 (.int tInt 1) rfl,
    (C13_absence sampleEnv "").2.2.2 (.int tInt 1) rfl⟩

/-- C16: for a value `v` that `reflect.ValueOf` can return, `Nil(v)` reports no
failure if and only if `v` is the absent value or the kind of `v` is channel,
function, pointer, slice, mapping or raw pointer and `v` is nil; otherwise it
reports exactly one failure with relation `!=`, actual leaf `v` and expected
leaf nil. `Nil` passes for nil, a nil pointer, a nil slice and a nil map, and
fails for a pointer that is not nil, an empty slice and an empty map. -/
theorem C16_Nil (v : Value) (h : v.isValueOf = true) :
    (Bee.Nil v = [] ↔
      (v.IsValid = false ∨
        ((v.goKind = .chan ∨ v.goKind = .func ∨ v.goKind = .pointer ∨ v.goKind = .slice ∨
          v.goKind = .map ∨ v.goKind = .rawPointer) ∧ v.IsNil = true))) ∧
    (Bee.Nil v = [] ∨ Bee.Nil v = [⟨.any v, .any .invalid, "", "!="⟩]) ∧
    (Bee.Nil .invalid = [] ∧ Bee.Nil (.ptr (.pointer tInt) 0 .invalid) = [] ∧
      Bee.Nil (.slice (.slice tInt) true []) = [] ∧
      Bee.Nil (.map (.map tString tInt) true []) = []) ∧
    (Bee.Nil (.ptr (.pointer tInt) 824633802760 (.int tInt 1)) =
        [⟨.any (.ptr (.pointer tInt) 824633802760 (.int tInt 1)), .any .invalid, "", "!="⟩] ∧
      Bee.Nil (.slice (.slice tInt) false []) =
        [⟨.any (.slice (.slice tInt) false []), .any .invalid, "", "!="⟩] ∧
      Bee.Nil (.map (.map tString tInt) false []) =
        [⟨.any (.map (.map tString tInt) false []), .any .invalid, "", "!="⟩]) := by
  refine ⟨?_, ?_, ⟨rfl, rfl, rfl, rfl⟩, ⟨rfl, rfl, rfl⟩⟩
  · unfold Value.isValueOf at h
    cases hv : v.IsValid
    · simp [Bee.Nil, isNil, hv]
    · simp only [hv, Bool.not_true, Bool.false_or, Bool.and_eq_true, bne_iff_ne, ne_eq] at h
      have hk : v.goKind.shape = v.shape := wellTyped_shape v h.1
      have hn : v.goKind ≠ .interface := by
        intro hi
        rw [hi] at hk
        exact h.2 hk.symm
      simp only [Bee.Nil, isNil, hv, Bool.not_true, Bool.false_eq_true, ↓reduceIte, false_or]
      generalize v.goKind = k at hn
      generalize v.IsNil = n
      cases k <;> cases n <;> simp at hn ⊢
  · unfold Bee.Nil
    cases isNil v <;> simp [Bee.errorNotEquals]

/-- Witness of C16: the nil slice `[]int(nil)`. -/
theorem C16_witness :
    (Value.slice (.slice tInt) true []).isValueOf = true ∧
    (Bee.Nil (.slice (.slice tInt) true []) = [] ↔
      ((Value.slice (.slice tInt) true []).IsValid = false ∨
        (((Value.slice (.slice tInt) true []).goKind = .chan ∨
          (Value.slice (.slice tInt) true []).goKind = .func ∨
          (Value.slice (.slice tInt) true []).goKind = .pointer ∨
          (Value.slice (.slice tInt) true []).goKind = .slice ∨
          (Value.slice (.slice tInt) true []).goKind = .map ∨
          (Value.slice (.slice tInt) true []).goKind = .rawPointer) ∧
          (Value.slice (.slice tInt) true []).IsNil = true))) :=
  ⟨by decide, (C16_Nil (.slice (.slice tInt) true []) (by decide)).1⟩

/-- C17: for every value `v`, exactly one of `Nil(v)` and `NotNil(v)` reports a
failure, and it is exactly one failure: for `NotNil` with relation `==`,
actual leaf `v` and expected leaf nil. -/
theorem C17_NotNil_negates_Nil (v : Value) :
    (Bee.Nil v = [] ∧ Bee.NotNil v = [⟨.any v, .any .invalid, "", "=="⟩]) ∨
    (Bee.Nil v = [⟨.any v, .any .invalid, "", "!="⟩] ∧ Bee.NotNil v = []) := by
  unfold Bee.Nil Bee.NotNil
  cases isNil v <;> simp [Bee.errorNotEquals, Bee.errorEquals]

/-- C18: `True(v)` is `Equal(v, true)` and `False(v)` is `Equal(v, false)`;
`True(v)` reports a failure if and only if `v` is false, with the message
`false != true` without colour, and `False(v)` if and only if `v` is true,
with the message `true != false`. -/
theorem C18_True_False (env : Env) (lg : Lipgloss) (v : Bool) :
    Bee.True env v = Bee.Equal env (.bool (.basic .bool) v) (.bool (.basic .bool) true) ∧
    Bee.False env v = Bee.Equal env (.bool (.basic .bool) v) (.bool (.basic .bool) false) ∧
    (Bee.True env v ≠ [] ↔ v = false) ∧
    (Bee.False env v ≠ [] ↔ v = true) ∧
    Bee.True env false = [⟨.bool false, .bool true, "", "!="⟩] ∧
    Bee.False env true = [⟨.bool true, .bool false, "", "!="⟩] ∧
    (New false [NoColor]).report env lg (Bee.True env false) =
      some [Event.errorf "false != true"] ∧
    (New false [NoColor]).report env lg (Bee.False env true) =
      some [Event.errorf "true != false"] := by
  refine ⟨rfl, rfl, ?_, ?_, rfl, rfl, rfl, rfl⟩
  · cases v
    · simp [show Bee.True env false = [⟨.bool false, .bool true, "", "!="⟩] from rfl]
    · simp [show Bee.True env true = [] from rfl]
  · cases v
    · simp [show Bee.False env false = [] from rfl]
    · simp [show Bee.False env true = [⟨.bool true, .bool false, "", "!="⟩] from rfl]

theorem wrap_fits (s : String) (w : Int)
    (h : ((String.mk (s.data.filter (fun c => c.toNat != 10))).length : Int) ≤ w) :
    wrap s w = some (String.mk (s.data.filter (fun c => c.toNat != 10))) := by
  unfold wrap
  simp only [not_lt.2 h, ↓reduceIte]

theorem wrap_cut (s : String) (w : Int)
    (h : w < ((String.mk (s.data.filter (fun c => c.toNat != 10))).length : Int))
    (hw : 3 ≤ w) :
    wrap s w =
      some ((String.mk (s.data.filter (fun c => c.toNat != 10))).take (w - 3).toNat ++
        "...") := by
  unfold wrap
  have h3 : ¬ (w - 3 < 0) := by omega
  simp only [h, ↓reduceIte, h3]

theorem filter_newline_id (s : String) (h : s.data.all (fun c => c.toNat != 10) = true) :
    String.mk (s.data.filter (fun c => c.toNat != 10)) = s := by
  have : s.data.filter (fun c => c.toNat != 10) = s.data := by
    rw [List.filter_eq_self]
    intro c hc
    rw [List.all_eq_true] at h
    exact h c hc
  rw [this]

/-- Counterexample to C20: for the width 2 and the text `abc`, longer than 2,
`wrap` has no result (the slice `s[:w-3]` is out of range). -/
theorem C20_counterexample : wrap "abc" 2 = none := by decide

/-- C20 (amended): `wrap` first removes the newline characters of `s`; when the
remaining text is not longer than `w` the result is that text, unchanged;
when it is longer than `w` and `w` is at least 3 the result is its first
`w - 3` characters followed by `...`. A text without newline of length `w`
is returned unchanged, and one of length `w + 1` is cut to `w - 3`
characters and `...`, for `w` at least 3. -/
theorem C20_wrap (s : String) (w : Int) :
    (((String.mk (s.data.filter (fun c => c.toNat != 10))).length : Int) ≤ w →
      wrap s w = some (String.mk (s.data.filter (fun c => c.toNat != 10)))) ∧
    (w < ((String.mk (s.data.filter (fun c => c.toNat != 10))).length : Int) → 3 ≤ w →
      wrap s w =
        some ((String.mk (s.data.filter (fun c => c.toNat != 10))).take (w - 3).toNat ++
          "...")) ∧
    (s.data.all (fun c => c.toNat != 10) = true → (s.length : Int) = w →
      wrap s w = some s) ∧
    (s.data.all (fun c => c.toNat != 10) = true → (s.length : Int) = w + 1 → 3 ≤ w →
      wrap s w = some (s.take (w - 3).toNat ++ "...")) := by
  refine ⟨wrap_fits s w, wrap_cut s w, ?_, ?_⟩
  · intro hn hl
    have := wrap_fits s w (by rw [filter_newline_id s hn]; omega)
    rwa [filter_newline_id s hn] at this
  · intro hn hl hw
    have := wrap_cut s w (by rw [filter_newline_id s hn]; omega) hw
    rwa [filter_newline_id s hn] at this

/-- Witness of C20 (amended): the width 5 on the text `ab`, a newline, `cdefgh`
(cut to `ab...`) and on the text `abcde` (unchanged). -/
theorem C20_witness :
    ((5 : Int) < ((String.mk ("ab\ncdefgh".data.filter (fun c => c.toNat != 10))).length : Int) ∧
      (3 : Int) ≤ 5 ∧ wrap "ab\ncdefgh" 5 = some "ab...") ∧
    ("abcde".data.all (fun c => c.toNat != 10) = true ∧ (("abcde".length : Nat) : Int) = 5 ∧
      wrap "abcde" 5 = some "abcde") :=
  ⟨⟨by decide, by decide, (C20_wrap "ab\ncdefgh" 5).2.1 (by decide) (by decide)⟩,
    ⟨by decide, by decide, (C20_wrap "abcde" 5).2.2.1 (by decide) (by decide)⟩⟩

mutual
theorem equals_relation (env : Env) (a b : Value) (what : String) :
    ∀ f ∈ Bee.equals env a b what, f.relation = "!=" := by
  rw [Bee.equals.eq_def]
  split_ifs
  · simp [Bee.errorNotEquals]
  · simp
  · simp [Bee.errorNotEquals]
  · cases a with
    | iface t e => exact equals_relation env e b.Elem what
    | array t xs =>
      simp only
      split_ifs
      · simp [Bee.errorNotEquals]
      · exact equalsIndex_relation env xs b 0 what
    | slice t n xs =>
      simp only
      split_ifs
      · simp [Bee.errorNotEquals]
      · exact equalsIndex_relation env xs b 0 what
    | map t n es =>
      simp only
      split_ifs
      · simp [Bee.errorNotEquals]
      · exact equalsKeys_relation env es b what
    | struct t xs => exact equalsFields_relation env xs b t 0 what
    | _ =>
      simp only
      try split_ifs
      all_goals simp [Bee.errorNotEquals]
termination_by sizeOf a
theorem equalsIndex_relation (env : Env) (xs : List Value) (b : Value) (i : Nat)
    (what : String) : ∀ f ∈ Bee.equalsIndex env xs b i what, f.relation = "!=" := by
  match xs with
  | [] => simp [Bee.equalsIndex]
  | x :: rest =>
    intro f hf
    rw [Bee.equalsIndex, List.mem_append] at hf
    rcases hf with hf | hf
    · exact equals_relation env x _ _ f hf
    · exact equalsIndex_relation env rest b (i + 1) what f hf
termination_by sizeOf xs
theorem equalsFields_relation (env : Env) (xs : List Value) (b : Value) (t : GoType)
    (i : Nat) (what : String) :
    ∀ f ∈ Bee.equalsFields env xs b t i what, f.relation = "!=" := by
  match xs with
  | [] => simp [Bee.equalsFields]
  | x :: rest =>
    intro f hf
    rw [Bee.equalsFields, List.mem_append] at hf
    rcases hf with hf | hf
    · exact equals_relation env x _ _ f hf
    · exact equalsFields_relation env rest b t (i + 1) what f hf
termination_by sizeOf xs
theorem equalsKeys_relation (env : Env) (es : List (Value × Value)) (b : Value)
    (what : String) : ∀ f ∈ Bee.equalsKeys env es b what, f.relation = "!=" := by
  match es with
  | [] => simp [Bee.equalsKeys]
  | (k, x) :: rest =>
    intro f hf
    rw [Bee.equalsKeys, List.mem_append] at hf
    rcases hf with hf | hf
    · split_ifs at hf
      · exact equals_relation env x _ _ f hf
      · simp only [List.mem_singleton] at hf
        rw [hf]
        rfl
      · simp at hf
    · exact equalsKeys_relation env rest b what f hf
termination_by sizeOf es
end

theorem wrap_defined (s : String) (w : Int) (h : 3 ≤ w) : ∃ r, wrap s w = some r := by
  unfold wrap
  have h3 : ¬ (w - 3 < 0) := by omega
  simp only [h3, ↓reduceIte]
  split_ifs <;> exact ⟨_, rfl⟩

theorem wrap_some (s : String) (w : Nat) (r : String) (h : wrap s w = some r) :
    r = if w < (String.mk (s.data.filter (fun c => c.toNat != 10))).length then
        (String.mk (s.data.filter (fun c => c.toNat != 10))).take (w - 3) ++ "..."
      else String.mk (s.data.filter (fun c => c.toNat != 10)) := by
  unfold wrap at h
  simp only [Nat.cast_lt] at h
  by_cases hlt : w < (String.mk (s.data.filter (fun c => c.toNat != 10))).length
  · simp only [hlt, ↓reduceIte] at h ⊢
    by_cases h3 : (w : Int) - 3 < 0
    · simp [h3] at h
    · simp only [h3, ↓reduceIte, Option.some.injEq] at h
      have : ((w : Int) - 3).toNat = w - 3 := by omega
      rw [← h, this]
  · simp only [hlt, ↓reduceIte, Option.some.injEq] at h ⊢
    exact h.symm

/-- C19: when `b.error` submits a failure, its message is the rendering of the
truncated text of the actual leaf, a blank, the relation, a blank, the
rendering of the truncated text of the expected leaf, followed by ` (` the
rendering of the path `)` if and only if the path is not empty. The
truncated text of a leaf is its text without the newline characters, cut to
its first `w - 3` characters followed by `...` when it is longer than the
inline width `w` of its side. A failure is submitted whenever both inline
widths are at least 3. The relation is `!=` in every failure of `Equal`,
`True`, `False` and `Nil`, and `==` in every failure of `NotNil`. -/
theorem C19_message_form (b : Bee) (env : Env) (lg : Lipgloss) :
    (∀ f es sa se,
      sa = String.mk ((Sprint env f.actual).data.filter (fun c => c.toNat != 10)) →
      se = String.mk ((Sprint env f.expected).data.filter (fun c => c.toNat != 10)) →
      b.error env lg f = some es →
      ∃ log, es =
        Event.errorf (
          b.cfg.actualTextStyle.Render lg
            (if b.cfg.actualTextStyle.maxWidth < sa.length then
              sa.take (b.cfg.actualTextStyle.maxWidth - 3) ++ "..." else sa) ++
          " " ++ f.relation ++ " " ++
          b.cfg.expectedTextStyle.Render lg
            (if b.cfg.expectedTextStyle.maxWidth < se.length then
              se.take (b.cfg.expectedTextStyle.maxWidth - 3) ++ "..." else se) ++
          (if f.what = "" then "" else " (" ++ b.cfg.whatTextStyle.Render lg f.what ++ ")")) ::
            log) ∧
    (∀ f, 3 ≤ b.cfg.actualTextStyle.maxWidth → 3 ≤ b.cfg.expectedTextStyle.maxWidth →
      ∃ es, b.error env lg f = some es) ∧
    (∀ a e, ∀ f ∈ Bee.Equal env a e, f.relation = "!=") ∧
    (∀ v, ∀ f ∈ Bee.True env v, f.relation = "!=") ∧
    (∀ v, ∀ f ∈ Bee.False env v, f.relation = "!=") ∧
    (∀ v, ∀ f ∈ Bee.Nil v, f.relation = "!=") ∧
    (∀ v, ∀ f ∈ Bee.NotNil v, f.relation = "==") := by
  refine ⟨?_, ?_, ?_, ?_, ?_, ?_, ?_⟩
  · intro f es sa se hsa hse hes
    cases ha : wrap (Sprint env f.actual) b.cfg.actualTextStyle.maxWidth with
    | none => simp [Bee.error, ha] at hes
    | some a =>
      cases he : wrap (Sprint env f.expected) b.cfg.expectedTextStyle.maxWidth with
      | none => simp [Bee.error, ha, he] at hes
      | some e =>
        have h1 := wrap_some _ _ _ ha
        have h2 := wrap_some _ _ _ he
        rw [← hsa] at h1
        rw [← hse] at h2
        unfold Bee.error at hes
        simp only [ha, he, Option.some.injEq] at hes
        rw [← h1, ← h2, ← hes]
        by_cases hw : f.what = "" <;> simp [hw]
  · intro f ha he
    obtain ⟨a, h1⟩ := wrap_defined (Sprint env f.actual) b.cfg.actualTextStyle.maxWidth
      (by exact_mod_cast ha)
    obtain ⟨e, h2⟩ := wrap_defined (Sprint env f.expected) b.cfg.expectedTextStyle.maxWidth
      (by exact_mod_cast he)
    unfold Bee.error
    simp only [h1, h2]
    exact ⟨_, rfl⟩
  · intro a e f hf
    exact equals_relation env a e "" f hf
  · intro v f hf
    exact equals_relation env _ _ "" f hf
  · intro v f hf
    exact equals_relation env _ _ "" f hf
  · intro v f hf
    unfold Bee.Nil at hf
    split_ifs at hf
    · simp only [List.mem_singleton] at hf
      rw [hf]
      rfl
    · simp at hf
  · intro v f hf
    unfold Bee.NotNil at hf
    split_ifs at hf
    · simp only [List.mem_singleton] at hf
      rw [hf]
      rfl
    · simp at hf

/-- Witness of C19: without colour and with the width 5, the failure of the
texts `abcdefgh` (cut to `ab...`) and `ab`, a newline, `cd` (which becomes
`abcd`) at the path `.a`; and the failure of `Equal(1, 2)` at the path `.a`
with the default width. -/
theorem C19_witness :
    ((New false [NoColor, ColumnWidth 5]).error sampleEnv sampleLipgloss
        ⟨.string "abcdefgh", .string "ab\ncd", ".a", "!="⟩ =
      some [Event.errorf "ab... != abcd (.a)", Event.logf "\nabcdefghab\ncd"]) ∧
    (∃ log, [Event.errorf "ab... != abcd (.a)", Event.logf "\nabcdefghab\ncd"] =
      Event.errorf (
        (New false [NoColor, ColumnWidth 5]).cfg.actualTextStyle.Render sampleLipgloss
          (if (New false [NoColor, ColumnWidth 5]).cfg.actualTextStyle.maxWidth <
              "abcdefgh".length then
            "abcdefgh".take ((New false [NoColor, ColumnWidth 5]).cfg.actualTextStyle.maxWidth - 3)
              ++ "..." else "abcdefgh") ++
        " " ++ "!=" ++ " " ++
        (New false [NoColor, ColumnWidth 5]).cfg.expectedTextStyle.Render sampleLipgloss
          (if (New false [NoColor, ColumnWidth 5]).cfg.expectedTextStyle.maxWidth <
              "abcd".length then
            "abcd".take ((New false [NoColor, ColumnWidth 5]).cfg.expectedTextStyle.maxWidth - 3)
              ++ "..." else "abcd") ++
        (if ".a" = "" then "" else
          " (" ++ (New false [NoColor, ColumnWidth 5]).cfg.whatTextStyle.Render sampleLipgloss
            ".a" ++ ")")) :: log) ∧
    (New false [NoColor]).error sampleEnv sampleLipgloss ⟨.int64 1, .int64 2, ".a", "!="⟩ =
      some [Event.errorf "1 != 2 (.a)"] :=
  ⟨rfl,
    (C19_message_form (New false [NoColor, ColumnWidth 5]) sampleEnv sampleLipgloss).1
      ⟨.string "abcdefgh", .string "ab\ncd", ".a", "!="⟩
      [Event.errorf "ab... != abcd (.a)", Event.logf "\nabcdefghab\ncd"] "abcdefgh" "abcd"
      (by decide) (by decide) rfl,
    rfl⟩

theorem equals_invalid_right (env : Env) (a : Value) (what : String) (ha : a.IsValid = true) :
    Bee.equals env a .invalid what =
      [Bee.errorNotEquals (.value a) (.value .invalid) what] := by
  rw [Bee.equals.eq_def]
  simp [ha, show Value.IsValid .invalid = false from rfl]

theorem lookupKey_of_lack (k : Value) (fs : List (Value × Value))
    (h : fs.any (fun f => Value.goEq f.1 k) = false) : lookupKey k fs = .invalid := by
  rcases lookupKey_cases k fs with ⟨hl, _⟩ | ⟨f, hf, hg, _⟩
  · exact hl
  · have : fs.any (fun f => Value.goEq f.1 k) = true := by
      rw [List.any_eq_true]
      exact ⟨f, hf, hg⟩
    rw [this] at h
    cases h

/-- Counterexample to C11: the mappings `map[float64]int` with the one key NaN
and with the one key 0 have the same type and size, the actual one has a
key (NaN) that the expected one lacks, and `Equal` reports no failure. -/
theorem C11_counterexample :
    (Value.map (.map (.basic .float64) tInt) false
      [(.float (.basic .float64) .nan, .int tInt 1)]).wellTyped = true ∧
    (Value.map (.map (.basic .float64) tInt) false
      [(.float (.basic .float64) (.fin false 0 0), .int tInt 1)]).wellTyped = true ∧
    [(Value.float (.basic .float64) (.fin false 0 0), Value.int tInt 1)].any
      (fun f => Value.goEq f.1 (.float (.basic .float64) .nan)) = false ∧
    Bee.Equal sampleEnv
      (.map (.map (.basic .float64) tInt) false [(.float (.basic .float64) .nan, .int tInt 1)])
      (.map (.map (.basic .float64) tInt) false
        [(.float (.basic .float64) (.fin false 0 0), .int tInt 1)]) = [] := by
  refine ⟨by decide, by decide, by decide, rfl⟩

/-- C11 (amended): for two mappings of one type and equal size, if the actual
mapping holds the value `x` under a key `k` that is `==` to itself (it has no
NaN in it), of a type without methods (built from predeclared types: on a
key with a method `Format`, `Error` or `String`, `%s` prints the result of
the method), and the expected mapping has no key `==` to `k`, then among the
failures of `equals` is the one with actual leaf `x`, expected leaf the
absent value and path the current path followed by `[` the text of `k` `]`
(`[k]` for a text key), which is the one failure of comparing `x` with an
absent value at that path. -/
theorem C11_missing_key (env : Env) (t : GoType) (n m : Bool) (es fs : List (Value × Value))
    (k x : Value) (what : String) (hlen : es.length = fs.length) (hmem : (k, x) ∈ es)
    (hself : Value.goEq k k = true) (_hm : k.goType.methodFree = true) (hx : x.IsValid = true)
    (hlack : fs.any (fun f => Value.goEq f.1 k) = false) :
    Bee.errorNotEquals (.value x) (.value .invalid)
        (what ++ "[" ++ printValue env .s k 0 ++ "]") ∈
      Bee.equals env (.map t n es) (.map t m fs) what ∧
    Bee.equals env x .invalid (what ++ "[" ++ printValue env .s k 0 ++ "]") =
      [Bee.errorNotEquals (.value x) (.value .invalid)
        (what ++ "[" ++ printValue env .s k 0 ++ "]")] ∧
    (∀ kt s, k = .string kt s →
      what ++ "[" ++ printValue env .s k 0 ++ "]" = what ++ "[" ++ s ++ "]") := by
  refine ⟨?_, equals_invalid_right env x _ hx, ?_⟩
  · rw [Bee.equals.eq_def]
    simp only [Value.IsValid, Value.goType, Value.Len, hlen]
    simp only [Bool.not_true, Bool.or_self, Bool.false_eq_true, ↓reduceIte, ne_eq,
      not_true_eq_false]
    rw [equalsKeys_eq_flatMap, List.mem_flatMap]
    refine ⟨(k, x), hmem, ?_⟩
    simp only [hself, ↓reduceIte, Value.MapIndex, lookupKey_of_lack k fs hlack,
      equals_invalid_right env x _ hx, List.mem_singleton]
  · intro kt s hk
    subst hk
    simp [printValue]

/-- Witness of C11 (amended): `map[string]int` with `a: 1` against `b: 1`. -/
theorem C11_witness :
    ([(Value.string tString "a", Value.int tInt 1)].length =
        [(Value.string tString "b", Value.int tInt 1)].length ∧
      Value.goEq (.string tString "a") (.string tString "a") = true ∧
      (Value.string tString "a").goType.methodFree = true ∧
      (Value.int tInt 1).IsValid = true ∧
      [(Value.string tString "b", Value.int tInt 1)].any
        (fun f => Value.goEq f.1 (.string tString "a")) = false) ∧
    Bee.errorNotEquals (.value (.int tInt 1)) (.value .invalid)
        ("" ++ "[" ++ printValue sampleEnv .s (.string tString "a") 0 ++ "]") ∈
      Bee.equals sampleEnv (.map (.map tString tInt) false [(.string tString "a", .int tInt 1)])
        (.map (.map tString tInt) false [(.string tString "b", .int tInt 1)]) "" :=
  ⟨by decide,
    (C11_missing_key sampleEnv (.map tString tInt) false false
      [(.string tString "a", .int tInt 1)] [(.string tString "b", .int tInt 1)]
      (.string tString "a") (.int tInt 1) "" rfl (by simp) (by decide) (by decide) rfl
      (by decide)).1⟩

/-- C14 (code bug): the absent side of a comparison is given to `b.error` as the
zero `reflect.Value`, whose text is `<invalid reflect.Value>`: `Equal(nil, 1)`
gives the message `<invalid reflect.Value> != 1`, and a key `a` missing from
the expected mapping the message `1 != <invalid reflect.Value> ([a])`, while
`Nil(1)` renders the absent side as `<nil>`. -/
theorem C14_absent_side_text (env : Env) (lg : Lipgloss) :
    Sprint env (.value .invalid) = "<invalid reflect.Value>" ∧
    (New false [NoColor]).report env lg (Bee.Equal env .invalid (.int tInt 1)) =
      some [Event.errorf "<invalid reflect.Value> != 1"] ∧
    (New false [NoColor]).report env lg
        (Bee.Equal env (.map (.map tString tInt) false [(.string tString "a", .int tInt 1)])
          (.map (.map tString tInt) false [(.string tString "b", .int tInt 1)])) =
      some [Event.errorf "1 != <invalid reflect.Value> ([a])"] ∧
    (New false [NoColor]).report env lg (Bee.Nil (.int tInt 1)) =
      some [Event.errorf "1 != <nil>"] := by
  refine ⟨rfl, rfl, rfl, rfl⟩

theorem equals_slice_single (env : Env) (t : GoType) (n m : Bool) (xs ys : List Value)
    (i : Nat) (what : String)
    (hxs : Value.wellTypedList t.elem xs = true) (hys : Value.wellTypedList t.elem ys = true)
    (hp : xs.all Value.isCompared = true) (hlen : xs.length = ys.length) (hi : i < xs.length)
    (hd : Value.differs (xs.getD i .invalid) (ys.getD i .invalid) = true)
    (hs : ∀ j, j < xs.length → j ≠ i →
      Value.differs (xs.getD j .invalid) (ys.getD j .invalid) = false) :
    Bee.equals env (.slice t n xs) (.slice t m ys) what =
      [Bee.errorNotEquals (xs.getD i .invalid).leaf (ys.getD i .invalid).leaf
        (what ++ "[" ++ toString i ++ "]")] := by
  rw [Bee.equals.eq_def]
  simp only [Value.IsValid, Value.goType, Value.Len, hlen]
  simp only [Bool.not_true, Bool.or_self, Bool.false_eq_true, ↓reduceIte, ne_eq,
    not_true_eq_false]
  exact equalsIndex_single env t.elem xs ys _ i what (fun j => by simp [Value.Index])
    hxs hys hp hlen hi hd hs

theorem equals_array_single (env : Env) (t : GoType) (xs ys : List Value)
    (i : Nat) (what : String)
    (hxs : Value.wellTypedList t.elem xs = true) (hys : Value.wellTypedList t.elem ys = true)
    (hp : xs.all Value.isCompared = true) (hlen : xs.length = ys.length) (hi : i < xs.length)
    (hd : Value.differs (xs.getD i .invalid) (ys.getD i .invalid) = true)
    (hs : ∀ j, j < xs.length → j ≠ i →
      Value.differs (xs.getD j .invalid) (ys.getD j .invalid) = false) :
    Bee.equals env (.array t xs) (.array t ys) what =
      [Bee.errorNotEquals (xs.getD i .invalid).leaf (ys.getD i .invalid).leaf
        (what ++ "[" ++ toString i ++ "]")] := by
  rw [Bee.equals.eq_def]
  simp only [Value.IsValid, Value.goType, Value.Len, hlen]
  simp only [Bool.not_true, Bool.or_self, Bool.false_eq_true, ↓reduceIte, ne_eq,
    not_true_eq_false]
  exact equalsIndex_single env t.elem xs ys _ i what (fun j => by simp [Value.Index])
    hxs hys hp hlen hi hd hs

theorem equals_map_single (env : Env) (t : GoType) (n m : Bool)
    (es fs : List (Value × Value)) (i : Nat) (kt : GoType) (k : String) (what : String)
    (wa : (Value.map t n es).wellTyped = true) (wb : (Value.map t m fs).wellTyped = true)
    (hk : es.all (fun e => e.1.shape == .string) = true)
    (hp : es.all (fun e => e.2.isCompared) = true)
    (hlen : es.length = fs.length)
    (hkeys : es.all (fun e => (lookupKey e.1 fs).IsValid) = true)
    (hi : i < es.length) (hki : (es.getD i (.invalid, .invalid)).1 = .string kt k)
    (hd : (es.getD i (.invalid, .invalid)).2.differs (lookupKey (.string kt k) fs) = true)
    (hs : ∀ j, j < es.length → j ≠ i →
      (es.getD j (.invalid, .invalid)).2.differs
        (lookupKey (es.getD j (.invalid, .invalid)).1 fs) = false) :
    Bee.equals env (.map t n es) (.map t m fs) what =
      [Bee.errorNotEquals (es.getD i (.invalid, .invalid)).2.leaf
        (lookupKey (.string kt k) fs).leaf (what ++ "[" ++ k ++ "]")] := by
  simp only [Value.wellTyped, Bool.and_eq_true, beq_iff_eq] at wa wb
  rw [Bee.equals.eq_def]
  simp only [Value.IsValid, Value.goType, Value.Len, hlen]
  simp only [Bool.not_true, Bool.or_self, Bool.false_eq_true, ↓reduceIte, ne_eq,
    not_true_eq_false]
  exact equalsKeys_single env t.key t.elem es fs _ i kt k what
    (fun key => by simp [Value.MapIndex]) wa.1.2 wb.1.2 hk hp hkeys hi hki hd hs

theorem equals_slice_len (env : Env) (t : GoType) (n m : Bool) (xs ys : List Value)
    (what : String) (h : xs.length ≠ ys.length) :
    Bee.equals env (.slice t n xs) (.slice t m ys) what =
      [Bee.errorNotEquals (.int xs.length) (.int ys.length) ("len(" ++ what ++ ")")] := by
  rw [Bee.equals.eq_def]
  simp [Value.IsValid, Value.goType, Value.Len, h]

theorem equals_map_len (env : Env) (t : GoType) (n m : Bool) (es fs : List (Value × Value))
    (what : String) (h : es.length ≠ fs.length) :
    Bee.equals env (.map t n es) (.map t m fs) what =
      [Bee.errorNotEquals (.int es.length) (.int fs.length) ("len(" ++ what ++ ")")] := by
  rw [Bee.equals.eq_def]
  simp [Value.IsValid, Value.goType, Value.Len, h]

theorem equals_struct_single (env : Env) (t : GoType) (xs ys : List Value) (i : Nat)
    (what : String) (hi : i < xs.length)
    (hothers : ∀ j, j < xs.length → j ≠ i →
      Bee.equals env (xs.getD j .invalid) (ys.getD j .invalid)
        (what ++ "." ++ t.FieldName j) = []) :
    Bee.equals env (.struct t xs) (.struct t ys) what =
      Bee.equals env (xs.getD i .invalid) (ys.getD i .invalid)
        (what ++ "." ++ t.FieldName i) := by
  rw [Bee.equals.eq_def]
  simp only [Value.IsValid, Value.goType]
  simp only [Bool.not_true, Bool.or_self, Bool.false_eq_true, ↓reduceIte, ne_eq,
    not_true_eq_false]
  rw [equalsFields_eq_flatMap, flatMap_range_single xs.length i _ hi]
  · simp [Value.Field]
  · intro j hj hne
    simpa [Value.Field] using hothers j hj hne

/-- Counterexample to C12: two records of one type with the one field `f`, a
float, whose values differ (by `2^-40`, less than `1e-9`), for which `Equal`
reports no failure. -/
theorem C12_counterexample :
    (Value.struct (.struct (.cons "f" (.basic .float64) .nil))
      [.float (.basic .float64) (.fin false (2 ^ 52) (-52))]).wellTyped = true ∧
    (Value.struct (.struct (.cons "f" (.basic .float64) .nil))
      [.float (.basic .float64) (.fin false (2 ^ 52 + 2 ^ 12) (-52))]).wellTyped = true ∧
    Float64.eq (.fin false (2 ^ 52) (-52)) (.fin false (2 ^ 52 + 2 ^ 12) (-52)) = false ∧
    Bee.Equal sampleEnv
      (.struct (.struct (.cons "f" (.basic .float64) .nil))
        [.float (.basic .float64) (.fin false (2 ^ 52) (-52))])
      (.struct (.struct (.cons "f" (.basic .float64) .nil))
        [.float (.basic .float64) (.fin false (2 ^ 52 + 2 ^ 12) (-52))]) = [] := by
  refine ⟨by decide, by decide, by decide, rfl⟩

/-- C12 (amended): for two records of one type in which no field other than the
field `f` (at position `i`) gives a failure, the failures are those of the
two values of `f`, at the current path followed by `.f` (`.f` at top level).
So `equals` reports exactly one failure, with path `.f` when the values of
`f` are primitives that `equals` compares and that the comparison of their
kind tells apart; with path `.f[k]` when they are sequences (slices or
arrays) of such primitives, of equal length, told apart at the one index
`k`; with path `.f[k]` when they are mappings of such primitives with the
same keys, texts of a key type without methods (the type `string`: on a key
with a method `Format`, `Error` or `String`, `%s` prints the result of the
method), told apart under the one key `k`; and with path `len(.f)` when they
are two slices or two mappings of different lengths. -/
theorem C12_one_differing_field (env : Env) (t : GoType) (xs ys : List Value) (i : Nat)
    (what : String) (hi : i < xs.length)
    (hothers : ∀ j, j < xs.length → j ≠ i →
      Bee.equals env (xs.getD j .invalid) (ys.getD j .invalid)
        (what ++ "." ++ t.FieldName j) = []) :
    Bee.equals env (.struct t xs) (.struct t ys) what =
      Bee.equals env (xs.getD i .invalid) (ys.getD i .invalid)
        (what ++ "." ++ t.FieldName i) ∧
    "" ++ "." ++ t.FieldName i = "." ++ t.FieldName i ∧
    ((xs.getD i .invalid).isCompared = true → (xs.getD i .invalid).wellTyped = true →
      (ys.getD i .invalid).wellTyped = true →
      (xs.getD i .invalid).goType = (ys.getD i .invalid).goType →
      (xs.getD i .invalid).differs (ys.getD i .invalid) = true →
      Bee.equals env (.struct t xs) (.struct t ys) what =
        [Bee.errorNotEquals (xs.getD i .invalid).leaf (ys.getD i .invalid).leaf
          (what ++ "." ++ t.FieldName i)]) ∧
    (∀ te n m as bs k, xs.getD i .invalid = .slice te n as →
      ys.getD i .invalid = .slice te m bs →
      Value.wellTypedList te.elem as = true → Value.wellTypedList te.elem bs = true →
      as.all Value.isCompared = true → as.length = bs.length → k < as.length →
      Value.differs (as.getD k .invalid) (bs.getD k .invalid) = true →
      (∀ j, j < as.length → j ≠ k →
        Value.differs (as.getD j .invalid) (bs.getD j .invalid) = false) →
      Bee.equals env (.struct t xs) (.struct t ys) what =
        [Bee.errorNotEquals (as.getD k .invalid).leaf (bs.getD k .invalid).leaf
          (what ++ "." ++ t.FieldName i ++ "[" ++ toString k ++ "]")]) ∧
    (∀ te as bs k, xs.getD i .invalid = .array te as →
      ys.getD i .invalid = .array te bs →
      Value.wellTypedList te.elem as = true → Value.wellTypedList te.elem bs = true →
      as.all Value.isCompared = true → as.length = bs.length → k < as.length →
      Value.differs (as.getD k .invalid) (bs.getD k .invalid) = true →
      (∀ j, j < as.length → j ≠ k →
        Value.differs (as.getD j .invalid) (bs.getD j .invalid) = false) →
      Bee.equals env (.struct t xs) (.struct t ys) what =
        [Bee.errorNotEquals (as.getD k .invalid).leaf (bs.getD k .invalid).leaf
          (what ++ "." ++ t.FieldName i ++ "[" ++ toString k ++ "]")]) ∧
    (∀ te n m es fs p kt k, xs.getD i .invalid = .map te n es →
      ys.getD i .invalid = .map te m fs →
      (Value.map te n es).wellTyped = true → (Value.map te m fs).wellTyped = true →
      te.key.methodFree = true →
      es.all (fun e => e.1.shape == .string) = true →
      es.all (fun e => e.2.isCompared) = true → es.length = fs.length →
      es.all (fun e => (lookupKey e.1 fs).IsValid) = true → p < es.length →
      (es.getD p (.invalid, .invalid)).1 = .string kt k →
      (es.getD p (.invalid, .invalid)).2.differs (lookupKey (.string kt k) fs) = true →
      (∀ j, j < es.length → j ≠ p →
        (es.getD j (.invalid, .invalid)).2.differs
          (lookupKey (es.getD j (.invalid, .invalid)).1 fs) = false) →
      Bee.equals env (.struct t xs) (.struct t ys) what =
        [Bee.errorNotEquals (es.getD p (.invalid, .invalid)).2.leaf
          (lookupKey (.string kt k) fs).leaf
          (what ++ "." ++ t.FieldName i ++ "[" ++ k ++ "]")]) ∧
    (∀ te n m as bs, xs.getD i .invalid = .slice te n as →
      ys.getD i .invalid = .slice te m bs → as.length ≠ bs.length →
      Bee.equals env (.struct t xs) (.struct t ys) what =
        [Bee.errorNotEquals (.int as.length) (.int bs.length)
          ("len(" ++ (what ++ "." ++ t.FieldName i) ++ ")")]) ∧
    (∀ te n m es fs, xs.getD i .invalid = .map te n es →
      ys.getD i .invalid = .map te m fs → es.length ≠ fs.length →
      Bee.equals env (.struct t xs) (.struct t ys) what =
        [Bee.errorNotEquals (.int es.length) (.int fs.length)
          ("len(" ++ (what ++ "." ++ t.FieldName i) ++ ")")]) := by
  have hred := equals_struct_single env t xs ys i what hi hothers
  refine ⟨hred, by simp, ?_, ?_, ?_, ?_, ?_, ?_⟩
  · intro hc wx wy ht hd
    rw [hred, equals_compared env _ _ _ hc wx wy ht, hd]
    rfl
  · intro te n m as bs k hx hy was wbs hp hlen hk hd hs
    rw [hred, hx, hy]
    exact equals_slice_single env te n m as bs k _ was wbs hp hlen hk hd hs
  · intro te as bs k hx hy was wbs hp hlen hk hd hs
    rw [hred, hx, hy]
    exact equals_array_single env te as bs k _ was wbs hp hlen hk hd hs
  · intro te n m es fs p kt k hx hy wa wb _ hk hp hlen hkeys hpl hki hd hs
    rw [hred, hx, hy]
    exact equals_map_single env te n m es fs p kt k _ wa wb hk hp hlen hkeys hpl hki hd hs
  · intro te n m as bs hx hy hne
    rw [hred, hx, hy]
    exact equals_slice_len env te n m as bs _ hne
  · intro te n m es fs hx hy hne
    rw [hred, hx, hy]
    exact equals_map_len env te n m es fs _ hne

/-- Witness of C12 (amended): `testStruct{a: 1}` against `testStruct{a: 2}`, with
the message `1 != 2 (.a)`, and `testStruct{b: []int{1}}` against
`testStruct{b: []int{2}}`, with the message `1 != 2 (.b[0])`, as in
`assert_test.go`. -/
theorem C12_witness :
    ((0 < (testFields 1 []).length ∧ (Value.int tInt 1).differs (.int tInt 2) = true) ∧
      Bee.equals sampleEnv (.struct tTestStruct (testFields 1 []))
          (.struct tTestStruct (testFields 2 [])) "" =
        [Bee.errorNotEquals (.int64 1) (.int64 2) ".a"] ∧
      (New false [NoColor]).report sampleEnv sampleLipgloss
          [Bee.errorNotEquals (.int64 1) (.int64 2) ".a"] =
        some [Event.errorf "1 != 2 (.a)"]) ∧
    ((1 < (testFields 0 [1]).length ∧ (Value.int tInt 1).differs (.int tInt 2) = true) ∧
      Bee.equals sampleEnv (.struct tTestStruct (testFields 0 [1]))
          (.struct tTestStruct (testFields 0 [2])) "" =
        [Bee.errorNotEquals (.int64 1) (.int64 2) ".b[0]"] ∧
      (New false [NoColor]).report sampleEnv sampleLipgloss
          [Bee.errorNotEquals (.int64 1) (.int64 2) ".b[0]"] =
        some [Event.errorf "1 != 2 (.b[0])"]) :=
  ⟨⟨⟨by decide, by decide⟩,
      (C12_one_differing_field sampleEnv tTestStruct (testFields 1 []) (testFields 2 []) 0 ""
        (by decide)
        (fun j hj hne => by
          have hj4 : j < 4 := hj
          interval_cases j
          · exact absurd rfl hne
          · rfl
          · rfl
          · rfl)).2.2.1 rfl (by decide) (by decide) rfl (by decide), rfl⟩,
    ⟨⟨by decide, by decide⟩,
      (C12_one_differing_field sampleEnv tTestStruct (testFields 0 [1]) (testFields 0 [2]) 1 ""
        (by decide)
        (fun j hj hne => by
          have hj4 : j < 4 := hj
          interval_cases j
          · rfl
          · exact absurd rfl hne
          · rfl
          · rfl)).2.2.2.1 (.slice tInt) false false [.int tInt 1] [.int tInt 2] 0 rfl rfl
        (by decide) (by decide) (by decide) rfl (by decide) (by decide)
        (fun j hj hne => by
          have hj1 : j < 1 := hj
          interval_cases j
          exact absurd rfl hne), rfl⟩⟩

theorem Float64.round_abs (n : Bool) (M : Nat) (E : Int) :
    (Float64.round n M E).abs = (Float64.round false M E).abs := by
  unfold Float64.round
  simp only
  split_ifs <;> rfl

theorem Float64.scaled_neg (n : Bool) (m : Nat) (e E : Int) :
    Float64.scaled (!n) m e E = - Float64.scaled n m e E := by
  cases n <;> simp [Float64.scaled]

theorem Float64.abs_sub_comm (x y : Float64) : (x.sub y).abs = (y.sub x).abs := by
  cases x with
  | nan => cases y <;> rfl
  | inf n1 =>
    cases y with
    | nan => rfl
    | inf n2 =>
      cases n1 <;> cases n2 <;> rfl
    | fin n2 m2 e2 => rfl
  | fin n1 m1 e1 =>
    cases y with
    | nan => rfl
    | inf n2 => rfl
    | fin n2 m2 e2 =>
      simp only [Float64.sub, min_comm e2 e1]
      generalize Float64.scaled n1 m1 e1 (min e1 e2) = p
      generalize Float64.scaled n2 m2 e2 (min e1 e2) = q
      by_cases h : p - q = 0
      · have h' : q - p = 0 := by omega
        simp [h, h', Float64.abs]
      · have h' : ¬ (q - p = 0) := by omega
        simp only [h, h', ↓reduceIte]
        rw [Float64.round_abs, Float64.round_abs (decide (q - p < 0))]
        have : (p - q).natAbs = (q - p).natAbs := by omega
        rw [this]

theorem Float64.eq_comm (x y : Float64) : x.eq y = y.eq x := by
  cases x <;> cases y <;> simp [Float64.eq, min_comm, Bool.beq_comm]
  exact ⟨fun h => h.symm, fun h => h.symm⟩

theorem Float64.scaled_cast (n : Bool) (m : Nat) (e E : Int) (h : E ≤ e) :
    ((Float64.scaled n m e E : Int) : ℚ) * (2 : ℚ) ^ E = Float64.toRat n m e := by
  unfold Float64.scaled Float64.toRat
  have hk : ((e - E).toNat : Int) = e - E := Int.toNat_of_nonneg (by omega)
  have h2 : (2 : ℚ) ^ (e - E).toNat * (2 : ℚ) ^ E = (2 : ℚ) ^ e := by
    rw [← zpow_natCast, ← zpow_add₀ (by norm_num : (2 : ℚ) ≠ 0), hk]
    congr 1
    omega
  cases n
  · simp only [Bool.false_eq_true, ↓reduceIte, one_mul, Int.cast_mul, Int.cast_natCast,
      Int.cast_pow, Int.cast_ofNat]
    rw [mul_assoc, h2]
  · simp only [↓reduceIte, Int.cast_mul, Int.cast_neg, Int.cast_one, Int.cast_natCast,
      Int.cast_pow, Int.cast_ofNat]
    rw [mul_assoc, mul_assoc, h2]
    ring

theorem Float64.eq_iff_key (x y : Float64) (hx : x.eq x = true) (hy : y.eq y = true) :
    x.eq y = true ↔ x.key = y.key := by
  cases x with
  | nan => simp [Float64.eq] at hx
  | inf n1 =>
    cases y with
    | nan => simp [Float64.eq] at hy
    | inf n2 => simp [Float64.eq, Float64.key]
    | fin n2 m2 e2 => simp [Float64.eq, Float64.key]
  | fin n1 m1 e1 =>
    cases y with
    | nan => simp [Float64.eq] at hy
    | inf n2 => simp [Float64.eq, Float64.key]
    | fin n2 m2 e2 =>
      simp only [Float64.eq, Float64.key, decide_eq_true_eq, Key.num.injEq]
      rw [← Float64.scaled_cast n1 m1 e1 (min e1 e2) (min_le_left _ _),
        ← Float64.scaled_cast n2 m2 e2 (min e1 e2) (min_le_right _ _)]
      constructor
      · intro h
        rw [h]
      · intro h
        have h2 : (2 : ℚ) ^ (min e1 e2) ≠ 0 := zpow_ne_zero _ (by norm_num)
        exact_mod_cast mul_right_cancel₀ h2 h

theorem Float64.key_cases (x : Float64) :
    x.key = .nan ∨ (∃ n, x.key = .inf n) ∨ (∃ q, x.key = .num q) := by
  cases x
  · exact Or.inl rfl
  · exact Or.inr (Or.inl ⟨_, rfl⟩)
  · exact Or.inr (Or.inr ⟨_, rfl⟩)

mutual
theorem goEq_iff_keyOf (a b : Value) (ha : Value.goEq a a = true)
    (hb : Value.goEq b b = true) : Value.goEq a b = true ↔ a.keyOf = b.keyOf := by
  cases a with
  | invalid =>
    cases b <;> simp [Value.goEq, Value.keyOf, Value.IsValid]
    case float t x => rcases Float64.key_cases x with h | ⟨n, h⟩ | ⟨q, h⟩ <;> simp [h]
    case iface t e => split_ifs <;> simp
  | bool t x =>
    cases b <;> simp [Value.goEq, Value.keyOf]
    case float t x => rcases Float64.key_cases x with h | ⟨n, h⟩ | ⟨q, h⟩ <;> simp [h]
    case iface t e => split_ifs <;> simp
  | int t x =>
    cases b <;> simp [Value.goEq, Value.keyOf]
    case float t x => rcases Float64.key_cases x with h | ⟨n, h⟩ | ⟨q, h⟩ <;> simp [h]
    case iface t e => split_ifs <;> simp
  | uint t x =>
    cases b <;> simp [Value.goEq, Value.keyOf]
    case float t x => rcases Float64.key_cases x with h | ⟨n, h⟩ | ⟨q, h⟩ <;> simp [h]
    case iface t e => split_ifs <;> simp
  | uintptr t x =>
    cases b <;> simp [Value.goEq, Value.keyOf]
    case float t x => rcases Float64.key_cases x with h | ⟨n, h⟩ | ⟨q, h⟩ <;> simp [h]
    case iface t e => split_ifs <;> simp
  | string t x =>
    cases b <;> simp [Value.goEq, Value.keyOf]
    case float t x => rcases Float64.key_cases x with h | ⟨n, h⟩ | ⟨q, h⟩ <;> simp [h]
    case iface t e => split_ifs <;> simp
  | chan t x =>
    cases b <;> simp [Value.goEq, Value.keyOf]
    case float t x => rcases Float64.key_cases x with h | ⟨n, h⟩ | ⟨q, h⟩ <;> simp [h]
    case iface t e => split_ifs <;> simp
  | ptr t x e0 =>
    cases b <;> simp [Value.goEq, Value.keyOf]
    case float t x => rcases Float64.key_cases x with h | ⟨n, h⟩ | ⟨q, h⟩ <;> simp [h]
    case iface t e => split_ifs <;> simp
  | rawPointer t x =>
    cases b <;> simp [Value.goEq, Value.keyOf]
    case float t x => rcases Float64.key_cases x with h | ⟨n, h⟩ | ⟨q, h⟩ <;> simp [h]
    case iface t e => split_ifs <;> simp
  | slice t n xs => simp [Value.goEq] at ha
  | map t n es => simp [Value.goEq] at ha
  | func t x => simp [Value.goEq] at ha
  | float t x =>
    cases b with
    | float t2 y =>
      simp only [Value.goEq] at ha hb
      simp only [Value.goEq, Value.keyOf]
      exact Float64.eq_iff_key x y ha hb
    | iface t2 e =>
      simp only [Value.goEq, Value.keyOf]
      rcases Float64.key_cases x with h | ⟨n, h⟩ | ⟨q, h⟩ <;> split_ifs <;> simp [h]
    | _ =>
      simp only [Value.goEq, Value.keyOf]
      rcases Float64.key_cases x with h | ⟨n, h⟩ | ⟨q, h⟩ <;> simp [h]
  | complex t re im =>
    cases b with
    | complex t2 re2 im2 =>
      simp only [Value.goEq, Bool.and_eq_true] at ha hb
      simp only [Value.goEq, Value.keyOf, Bool.and_eq_true, Key.complex.injEq]
      rw [Float64.eq_iff_key re re2 ha.1 hb.1, Float64.eq_iff_key im im2 ha.2 hb.2]
    | float t2 y =>
      simp only [Value.goEq, Value.keyOf]
      rcases Float64.key_cases y with h | ⟨n, h⟩ | ⟨q, h⟩ <;> simp [h]
    | iface t2 e =>
      simp only [Value.goEq, Value.keyOf]
      split_ifs <;> simp
    | _ => simp [Value.goEq, Value.keyOf]
  | iface t e =>
    cases b with
    | iface t2 e2 =>
      simp only [Value.goEq, Value.keyOf]
      cases he : e.IsValid <;> cases he2 : e2.IsValid
      · simp
      · simp
      · simp
      · have ha' : Value.goEq e e = true := by
          simpa [Value.goEq, he] using ha
        have hb' : Value.goEq e2 e2 = true := by
          simpa [Value.goEq, he2] using hb
        have ih := goEq_iff_keyOf e e2 ha' hb'
        simp [ih]
    | float t2 y =>
      simp only [Value.goEq, Value.keyOf]
      rcases Float64.key_cases y with h | ⟨n, h⟩ | ⟨q, h⟩ <;> split_ifs <;> simp [h]
    | _ =>
      simp only [Value.goEq, Value.keyOf]
      split_ifs <;> simp
  | array t xs =>
    cases b with
    | array t2 ys =>
      simp only [Value.goEq] at ha hb
      simp only [Value.goEq, Value.keyOf, Key.array.injEq]
      exact goEqList_iff_keyOf xs ys ha hb
    | float t2 y =>
      simp only [Value.goEq, Value.keyOf]
      rcases Float64.key_cases y with h | ⟨n, h⟩ | ⟨q, h⟩ <;> simp [h]
    | iface t2 e =>
      simp only [Value.goEq, Value.keyOf]
      split_ifs <;> simp
    | _ => simp [Value.goEq, Value.keyOf]
  | struct t xs =>
    cases b with
    | struct t2 ys =>
      simp only [Value.goEq] at ha hb
      simp only [Value.goEq, Value.keyOf, Key.struct.injEq]
      exact goEqList_iff_keyOf xs ys ha hb
    | float t2 y =>
      simp only [Value.goEq, Value.keyOf]
      rcases Float64.key_cases y with h | ⟨n, h⟩ | ⟨q, h⟩ <;> simp [h]
    | iface t2 e =>
      simp only [Value.goEq, Value.keyOf]
      split_ifs <;> simp
    | _ => simp [Value.goEq, Value.keyOf]
termination_by sizeOf a
theorem goEqList_iff_keyOf (xs ys : List Value) (ha : Value.goEqList xs xs = true)
    (hb : Value.goEqList ys ys = true) :
    Value.goEqList xs ys = true ↔ Value.keyOfList xs = Value.keyOfList ys := by
  cases xs with
  | nil => cases ys <;> simp [Value.goEqList, Value.keyOfList]
  | cons x xs1 =>
    cases ys with
    | nil => simp [Value.goEqList, Value.keyOfList]
    | cons y ys1 =>
      simp only [Value.goEqList, Bool.and_eq_true] at ha hb
      have h1 := goEq_iff_keyOf x y ha.1 hb.1
      have h2 := goEqList_iff_keyOf xs1 ys1 ha.2 hb.2
      simp [Value.goEqList, Value.keyOfList, h1, h2]
termination_by sizeOf xs
end

theorem keysSelfEqList_mem (xs : List Value) (h : Value.keysSelfEqList xs = true) :
    ∀ x ∈ xs, x.keysSelfEq = true := by
  induction xs with
  | nil => simp
  | cons x rest ih =>
    simp only [Value.keysSelfEqList, Bool.and_eq_true] at h
    intro y hy
    rcases List.mem_cons.1 hy with rfl | hy
    · exact h.1
    · exact ih h.2 y hy

theorem keysSelfEqEntries_mem (es : List (Value × Value))
    (h : Value.keysSelfEqEntries es = true) :
    ∀ e ∈ es, Value.goEq e.1 e.1 = true ∧ e.2.keysSelfEq = true := by
  induction es with
  | nil => simp
  | cons e rest ih =>
    obtain ⟨k, x⟩ := e
    simp only [Value.keysSelfEqEntries, Bool.and_eq_true] at h
    intro y hy
    rcases List.mem_cons.1 hy with rfl | hy
    · exact ⟨h.1.1, h.1.2⟩
    · exact ih h.2 y hy

theorem distinctKeys_nodup_keyOf (ks : List Value)
    (hk : ∀ k ∈ ks, Value.goEq k k = true) (hd : distinctKeys ks = true) :
    (ks.map Value.keyOf).Nodup := by
  induction ks with
  | nil => simp
  | cons k rest ih =>
    simp only [distinctKeys, Bool.and_eq_true, List.all_eq_true, Bool.not_eq_true'] at hd
    rw [List.map_cons, List.nodup_cons]
    refine ⟨?_, ih (fun k hk1 => hk k (by simp [hk1])) hd.2⟩
    intro hmem
    obtain ⟨k2, hk2, he⟩ := List.mem_map.1 hmem
    have h1 := hd.1 k2 hk2
    have h2 := (goEq_iff_keyOf k k2 (hk k (by simp)) (hk k2 (by simp [hk2]))).2 he.symm
    simp [h1] at h2

theorem entries_nodup_keyOf (es : List (Value × Value))
    (kes : ∀ e ∈ es, Value.goEq e.1 e.1 = true)
    (des : distinctKeys (es.map Prod.fst) = true) :
    (es.map (fun e => e.1.keyOf)).Nodup := by
  have hn := distinctKeys_nodup_keyOf (es.map Prod.fst)
    (fun k hk => by
      obtain ⟨e, he, rfl⟩ := List.mem_map.1 hk
      exact kes e he) des
  simpa [List.map_map, Function.comp] using hn

/-- If every key of the entries `es` is found among the entries `fs`, and
`fs` has no more entries than `es`, then the lookups pair the entries of the
two lists off: every entry of `fs` is found in `es` under its key, and is what
`fs` holds under the key of the entry found. -/
theorem lookup_back (es fs : List (Value × Value))
    (kes : ∀ e ∈ es, Value.goEq e.1 e.1 = true)
    (kfs : ∀ f ∈ fs, Value.goEq f.1 f.1 = true)
    (des : distinctKeys (es.map Prod.fst) = true)
    (dfs : distinctKeys (fs.map Prod.fst) = true)
    (hlen : fs.length ≤ es.length)
    (h : ∀ e ∈ es, (lookupKey e.1 fs).IsValid = true) :
    ∀ f ∈ fs, ∃ e ∈ es, lookupKey f.1 es = e.2 ∧ lookupKey e.1 fs = f.2 := by
  have hfound : ∀ e ∈ es, ∃ f ∈ fs, Value.goEq f.1 e.1 = true ∧ lookupKey e.1 fs = f.2 := by
    intro e he
    rcases lookupKey_cases e.1 fs with ⟨hl, _⟩ | hx
    · have := h e he
      rw [hl] at this
      cases this
    · exact hx
  have hn1 := entries_nodup_keyOf es kes des
  have hn2 := entries_nodup_keyOf fs kfs dfs
  have hsub : es.map (fun e => e.1.keyOf) ⊆ fs.map (fun e => e.1.keyOf) := by
    intro v hv
    simp only [List.mem_map] at hv ⊢
    obtain ⟨e, he, rfl⟩ := hv
    obtain ⟨f, hf, hg, _⟩ := hfound e he
    exact ⟨f, hf, (goEq_iff_keyOf f.1 e.1 (kfs f hf) (kes e he)).1 hg⟩
  have hperm := (List.subperm_of_subset hn1 hsub).perm_of_length_le (by simpa using hlen)
  intro f hf
  have hmem : f.1.keyOf ∈ es.map (fun e => e.1.keyOf) :=
    hperm.symm.subset (List.mem_map.2 ⟨f, hf, rfl⟩)
  obtain ⟨e0, he0, heq0⟩ := List.mem_map.1 hmem
  have hg0 : Value.goEq e0.1 f.1 = true :=
    (goEq_iff_keyOf e0.1 f.1 (kes e0 he0) (kfs f hf)).2 heq0
  rcases lookupKey_cases f.1 es with ⟨_, hany⟩ | ⟨e, he, hg, hl⟩
  · have : es.any (fun e => Value.goEq e.1 f.1) = true := by
      rw [List.any_eq_true]
      exact ⟨e0, he0, hg0⟩
    rw [this] at hany
    cases hany
  · refine ⟨e, he, hl, ?_⟩
    obtain ⟨f2, hf2, hg2, hl2⟩ := hfound e he
    have hk1 := (goEq_iff_keyOf e.1 f.1 (kes e he) (kfs f hf)).1 hg
    have hk2 := (goEq_iff_keyOf f2.1 e.1 (kfs f2 hf2) (kes e he)).1 hg2
    have : f2 = f := List.inj_on_of_nodup_map hn2 hf2 hf (hk2.trans hk1)
    rw [hl2, this]

theorem getD_mem (xs : List Value) (j : Nat) (hj : j < xs.length) :
    xs.getD j .invalid ∈ xs := by
  rw [List.getD_eq_getElem _ _ hj]
  exact List.getElem_mem hj

theorem sizeOf_entry_lt (e : Value × Value) (es : List (Value × Value)) (he : e ∈ es) :
    sizeOf e.2 < sizeOf es := by
  have := List.sizeOf_lt_of_mem he
  obtain ⟨k, x⟩ := e
  simp only [Prod.mk.sizeOf_spec] at this
  simp only
  omega

theorem equalsIndex_symm (env : Env) (xs ys : List Value) (a b : Value) (w w2 : String)
    (ha : ∀ j, a.Index j = xs.getD j .invalid) (hb : ∀ j, b.Index j = ys.getD j .invalid)
    (hlen : xs.length = ys.length)
    (hstep : ∀ x ∈ xs, ∀ y ∈ ys, ∀ u v, Bee.equals env x y u = [] → Bee.equals env y x v = [])
    (h : Bee.equalsIndex env xs b 0 w = []) : Bee.equalsIndex env ys a 0 w2 = [] := by
  rw [equalsIndex_eq_flatMap, List.flatMap_eq_nil_iff] at h ⊢
  intro j hj
  have hj1 : j < ys.length := List.mem_range.1 hj
  have hj2 : j < xs.length := by omega
  have := h j (List.mem_range.2 hj2)
  simp only [Nat.zero_add, ha, hb] at this ⊢
  exact hstep _ (getD_mem xs j hj2) _ (getD_mem ys j hj1) _ _ this

theorem equalsFields_symm (env : Env) (xs ys : List Value) (a b : Value) (t t2 : GoType)
    (w w2 : String)
    (ha : ∀ j, a.Field j = xs.getD j .invalid) (hb : ∀ j, b.Field j = ys.getD j .invalid)
    (hlen : xs.length = ys.length)
    (hstep : ∀ x ∈ xs, ∀ y ∈ ys, ∀ u v, Bee.equals env x y u = [] → Bee.equals env y x v = [])
    (h : Bee.equalsFields env xs b t 0 w = []) : Bee.equalsFields env ys a t2 0 w2 = [] := by
  rw [equalsFields_eq_flatMap, List.flatMap_eq_nil_iff] at h ⊢
  intro j hj
  have hj1 : j < ys.length := List.mem_range.1 hj
  have hj2 : j < xs.length := by omega
  have := h j (List.mem_range.2 hj2)
  simp only [Nat.zero_add, ha, hb] at this ⊢
  exact hstep _ (getD_mem xs j hj2) _ (getD_mem ys j hj1) _ _ this

theorem equalsKeys_symm (env : Env) (es fs : List (Value × Value)) (a b : Value) (w w2 : String)
    (ha : ∀ k, a.MapIndex k = lookupKey k es) (hb : ∀ k, b.MapIndex k = lookupKey k fs)
    (kes : ∀ e ∈ es, Value.goEq e.1 e.1 = true)
    (kfs : ∀ f ∈ fs, Value.goEq f.1 f.1 = true)
    (ves : ∀ e ∈ es, e.2.IsValid = true)
    (des : distinctKeys (es.map Prod.fst) = true)
    (dfs : distinctKeys (fs.map Prod.fst) = true)
    (hlen : es.length = fs.length)
    (hstep : ∀ e ∈ es, ∀ f ∈ fs, ∀ u v,
      Bee.equals env e.2 f.2 u = [] → Bee.equals env f.2 e.2 v = [])
    (h : Bee.equalsKeys env es b w = []) : Bee.equalsKeys env fs a w2 = [] := by
  rw [equalsKeys_eq_flatMap, List.flatMap_eq_nil_iff] at h ⊢
  have hall : ∀ e ∈ es, Bee.equals env e.2 (lookupKey e.1 fs)
      (w ++ "[" ++ printValue env .s e.1 0 ++ "]") = [] := by
    intro e he
    have := h e he
    simpa only [kes e he, hb, ↓reduceIte] using this
  have hvalid : ∀ e ∈ es, (lookupKey e.1 fs).IsValid = true := by
    intro e he
    cases hv : (lookupKey e.1 fs).IsValid
    · exfalso
      have h1 := hall e he
      rw [Bee.equals.eq_def] at h1
      simp [hv, ves e he] at h1
    · rfl
  have hback := lookup_back es fs kes kfs des dfs (le_of_eq hlen.symm) hvalid
  intro f hf
  obtain ⟨e, he, h1, h2⟩ := hback f hf
  simp only [kfs f hf, ha, ↓reduceIte, h1]
  have h3 := hall e he
  rw [h2] at h3
  exact hstep e he f hf _ _ h3

theorem equals_symm_aux (env : Env) (n : Nat) :
    ∀ (a b : Value) (w w2 : String), sizeOf a < n →
      (a.IsValid = true → a.wellTyped = true) → (b.IsValid = true → b.wellTyped = true) →
      a.keysSelfEq = true → b.keysSelfEq = true →
      Bee.equals env a b w = [] → Bee.equals env b a w2 = [] := by
  induction n with
  | zero =>
    intro a b w w2 h
    omega
  | succ n ih =>
    intro a b w w2 hsz wa wb ka kb h
    cases hva : a.IsValid
    · have hvb : b.IsValid = false := by
        rw [Bee.equals.eq_def] at h
        cases hvb : b.IsValid
        · rfl
        · simp [hva, hvb] at h
      rw [Bee.equals.eq_def]
      simp [hva, hvb]
    cases hvb : b.IsValid
    · rw [Bee.equals.eq_def] at h
      simp [hva, hvb] at h
    have wa1 := wa hva
    have wb1 := wb hvb
    by_cases ht : a.goType = b.goType
    swap
    · rw [equals_of_type_ne env a b w hva hvb ht] at h
      simp at h
    have hs := shape_eq_of_type_eq a b wa1 wb1 ht
    cases a with
    | invalid => simp [Value.IsValid] at hva
    | bool t x =>
      cases b with
      | bool t2 y =>
        simp only [Value.goType] at ht
        subst ht
        rw [Bee.equals.eq_def] at h ⊢
        simp [Value.IsValid, Value.goType, Value.asBool, Bee.errorNotEquals] at h ⊢
        exact h.symm
      | _ => simp [Value.shape] at hs
    | int t x =>
      cases b with
      | int t2 y =>
        simp only [Value.goType] at ht
        subst ht
        rw [Bee.equals.eq_def] at h ⊢
        simp [Value.IsValid, Value.goType, Value.asInt, Bee.errorNotEquals] at h ⊢
        exact h.symm
      | _ => simp [Value.shape] at hs
    | uint t x =>
      cases b with
      | uint t2 y =>
        simp only [Value.goType] at ht
        subst ht
        rw [Bee.equals.eq_def] at h ⊢
        simp [Value.IsValid, Value.goType, Value.asUint, Bee.errorNotEquals] at h ⊢
        exact h.symm
      | _ => simp [Value.shape] at hs
    | string t x =>
      cases b with
      | string t2 y =>
        simp only [Value.goType] at ht
        subst ht
        rw [Bee.equals.eq_def] at h ⊢
        simp [Value.IsValid, Value.goType, Value.asString, Bee.errorNotEquals] at h ⊢
        exact h.symm
      | _ => simp [Value.shape] at hs
    | float t x =>
      cases b with
      | float t2 y =>
        simp only [Value.goType] at ht
        subst ht
        rw [Bee.equals.eq_def] at h ⊢
        simp [Value.IsValid, Value.goType, Value.asFloat, Bee.errorNotEquals] at h ⊢
        rw [Float64.abs_sub_comm y x]
        exact h
      | _ => simp [Value.shape] at hs
    | complex t re im =>
      cases b with
      | complex t2 re2 im2 =>
        simp only [Value.goType] at ht
        subst ht
        rw [Bee.equals.eq_def] at h ⊢
        simp [Value.IsValid, Value.goType, Value.asComplex, Bee.errorNotEquals] at h ⊢
        rw [Float64.eq_comm re2 re, Float64.eq_comm im2 im]
        exact h
      | _ => simp [Value.shape] at hs
    | uintptr t x =>
      cases b with
      | uintptr t2 y =>
        rw [Bee.equals.eq_def]
        simp [Value.IsValid, Value.goType] at ht ⊢
        exact ht.symm
      | _ => simp [Value.shape] at hs
    | chan t x =>
      cases b with
      | chan t2 y =>
        rw [Bee.equals.eq_def]
        simp [Value.IsValid, Value.goType] at ht ⊢
        exact ht.symm
      | _ => simp [Value.shape] at hs
    | func t x =>
      cases b with
      | func t2 y =>
        rw [Bee.equals.eq_def]
        simp [Value.IsValid, Value.goType] at ht ⊢
        exact ht.symm
      | _ => simp [Value.shape] at hs
    | ptr t x e =>
      cases b with
      | ptr t2 y e2 =>
        rw [Bee.equals.eq_def]
        simp [Value.IsValid, Value.goType] at ht ⊢
        exact ht.symm
      | _ => simp [Value.shape] at hs
    | rawPointer t x =>
      cases b with
      | rawPointer t2 y =>
        rw [Bee.equals.eq_def]
        simp [Value.IsValid, Value.goType] at ht ⊢
        exact ht.symm
      | _ => simp [Value.shape] at hs
    | iface t e =>
      cases b with
      | iface t2 e2 =>
        simp only [Value.goType] at ht
        subst ht
        rw [Bee.equals.eq_def] at h ⊢
        simp only [Value.IsValid, Value.goType, Value.Elem, Bool.not_true, Bool.or_self,
          Bool.false_eq_true, ↓reduceIte, ne_eq, not_true_eq_false] at h ⊢
        simp only [Value.wellTyped, Bool.and_eq_true, beq_iff_eq, Bool.or_eq_true,
          Bool.not_eq_true', bne_iff_ne] at wa1 wb1
        simp only [Value.keysSelfEq] at ka kb
        have hsz1 : sizeOf e < n := by
          simp only [Value.iface.sizeOf_spec] at hsz
          omega
        refine ih e e2 w w2 hsz1 (fun hv => ?_) (fun hv => ?_) ka kb h
        · rcases wa1.2 with h1 | h1
          · rw [hv] at h1
            cases h1
          · exact h1.2
        · rcases wb1.2 with h1 | h1
          · rw [hv] at h1
            cases h1
          · exact h1.2
      | _ => simp [Value.shape] at hs
    | array t xs =>
      cases b with
      | array t2 ys =>
        simp only [Value.goType] at ht
        subst ht
        rw [Bee.equals.eq_def] at h ⊢
        simp only [Value.wellTyped, Bool.and_eq_true, beq_iff_eq] at wa1 wb1
        simp only [Value.keysSelfEq] at ka kb
        have hlen : xs.length = ys.length := by rw [wa1.1.2, wb1.1.2]
        simp only [Value.IsValid, Value.goType, Value.Len, hlen, Bool.not_true, Bool.or_self,
          Bool.false_eq_true, ↓reduceIte, ne_eq, not_true_eq_false] at h ⊢
        refine equalsIndex_symm env xs ys (.array t xs) (.array t ys) w w2 (fun j => rfl) (fun j => rfl) hlen ?_ h
        intro x hx y hy u v hxy
        have hsz1 : sizeOf x < n := by
          have := List.sizeOf_lt_of_mem hx
          simp only [Value.array.sizeOf_spec] at hsz
          omega
        exact ih x y u v hsz1 (fun _ => (wellTypedList_mem _ xs wa1.2 x hx).2)
          (fun _ => (wellTypedList_mem _ ys wb1.2 y hy).2)
          (keysSelfEqList_mem xs ka x hx) (keysSelfEqList_mem ys kb y hy) hxy
      | _ => simp [Value.shape] at hs
    | slice t nl xs =>
      cases b with
      | slice t2 nl2 ys =>
        simp only [Value.goType] at ht
        subst ht
        rw [Bee.equals.eq_def] at h ⊢
        simp only [Value.wellTyped, Bool.and_eq_true, beq_iff_eq] at wa1 wb1
        simp only [Value.keysSelfEq] at ka kb
        by_cases hlen : xs.length = ys.length
        swap
        · simp [Value.IsValid, Value.goType, Value.Len, hlen] at h
        simp only [Value.IsValid, Value.goType, Value.Len, hlen, Bool.not_true, Bool.or_self,
          Bool.false_eq_true, ↓reduceIte, ne_eq, not_true_eq_false] at h ⊢
        refine equalsIndex_symm env xs ys (.slice t nl xs) (.slice t nl2 ys) w w2 (fun j => rfl) (fun j => rfl) hlen ?_ h
        intro x hx y hy u v hxy
        have hsz1 : sizeOf x < n := by
          have := List.sizeOf_lt_of_mem hx
          simp only [Value.slice.sizeOf_spec] at hsz
          omega
        exact ih x y u v hsz1 (fun _ => (wellTypedList_mem _ xs wa1.2 x hx).2)
          (fun _ => (wellTypedList_mem _ ys wb1.2 y hy).2)
          (keysSelfEqList_mem xs ka x hx) (keysSelfEqList_mem ys kb y hy) hxy
      | _ => simp [Value.shape] at hs
    | struct t xs =>
      cases b with
      | struct t2 ys =>
        simp only [Value.goType] at ht
        subst ht
        rw [Bee.equals.eq_def] at h ⊢
        simp only [Value.wellTyped, Bool.and_eq_true, beq_iff_eq] at wa1 wb1
        simp only [Value.keysSelfEq] at ka kb
        have hlen : xs.length = ys.length := by
          rw [wellTypedFields_length _ xs wa1.2, wellTypedFields_length _ ys wb1.2]
        simp only [Value.IsValid, Value.goType, Bool.not_true, Bool.or_self,
          Bool.false_eq_true, ↓reduceIte, ne_eq, not_true_eq_false] at h ⊢
        refine equalsFields_symm env xs ys (.struct t xs) (.struct t ys) t t w w2 (fun j => rfl) (fun j => rfl) hlen ?_ h
        intro x hx y hy u v hxy
        have hsz1 : sizeOf x < n := by
          have := List.sizeOf_lt_of_mem hx
          simp only [Value.struct.sizeOf_spec] at hsz
          omega
        exact ih x y u v hsz1 (fun _ => wellTypedFields_mem _ xs wa1.2 x hx)
          (fun _ => wellTypedFields_mem _ ys wb1.2 y hy)
          (keysSelfEqList_mem xs ka x hx) (keysSelfEqList_mem ys kb y hy) hxy
      | _ => simp [Value.shape] at hs
    | map t nl es =>
      cases b with
      | map t2 nl2 fs =>
        simp only [Value.goType] at ht
        subst ht
        rw [Bee.equals.eq_def] at h ⊢
        simp only [Value.wellTyped, Bool.and_eq_true, beq_iff_eq] at wa1 wb1
        simp only [Value.keysSelfEq] at ka kb
        by_cases hlen : es.length = fs.length
        swap
        · simp [Value.IsValid, Value.goType, Value.Len, hlen] at h
        simp only [Value.IsValid, Value.goType, Value.Len, hlen, Bool.not_true, Bool.or_self,
          Bool.false_eq_true, ↓reduceIte, ne_eq, not_true_eq_false] at h ⊢
        refine equalsKeys_symm env es fs (.map t nl es) (.map t nl2 fs) w w2 (fun k => rfl) (fun k => rfl)
          (fun e he => (keysSelfEqEntries_mem es ka e he).1)
          (fun f hf => (keysSelfEqEntries_mem fs kb f hf).1)
          (fun e he => wellTyped_valid _ (wellTypedEntries_mem _ _ es wa1.1.2 e he).2.2)
          wa1.2 wb1.2 hlen ?_ h
        intro e he f hf u v hxy
        have hsz1 : sizeOf e.2 < n := by
          have := sizeOf_entry_lt e es he
          simp only [Value.map.sizeOf_spec] at hsz
          omega
        exact ih e.2 f.2 u v hsz1 (fun _ => (wellTypedEntries_mem _ _ es wa1.1.2 e he).2.2)
          (fun _ => (wellTypedEntries_mem _ _ fs wb1.1.2 f hf).2.2)
          (keysSelfEqEntries_mem es ka e he).2 (keysSelfEqEntries_mem fs kb f hf).2 hxy
      | _ => simp [Value.shape] at hs

theorem equals_symm (env : Env) (a b : Value) (w w2 : String)
    (wa : a.IsValid = true → a.wellTyped = true) (wb : b.IsValid = true → b.wellTyped = true)
    (ka : a.keysSelfEq = true) (kb : b.keysSelfEq = true)
    (h : Bee.equals env a b w = []) : Bee.equals env b a w2 = [] :=
  equals_symm_aux env (sizeOf a + 1) a b w w2 (Nat.lt_succ_self _) wa wb ka kb h

/-- Counterexample to C15: with `a` the mapping `map[float64]int` whose one
key is NaN and `b` the one whose one key is 0, `Equal(a, b)` reports no
failure (the key NaN is found in neither mapping) and `Equal(b, a)` reports
one (the key 0 is missing from `a`). -/
theorem C15_counterexample :
    (Value.map (.map (.basic .float64) tInt) false
      [(.float (.basic .float64) .nan, .int tInt 1)]).isValueOf = true ∧
    (Value.map (.map (.basic .float64) tInt) false
      [(.float (.basic .float64) (.fin false 0 0), .int tInt 1)]).isValueOf = true ∧
    Bee.Equal sampleEnv
      (.map (.map (.basic .float64) tInt) false [(.float (.basic .float64) .nan, .int tInt 1)])
      (.map (.map (.basic .float64) tInt) false
        [(.float (.basic .float64) (.fin false 0 0), .int tInt 1)]) = [] ∧
    Bee.Equal sampleEnv
      (.map (.map (.basic .float64) tInt) false
        [(.float (.basic .float64) (.fin false 0 0), .int tInt 1)])
      (.map (.map (.basic .float64) tInt) false [(.float (.basic .float64) .nan, .int tInt 1)]) =
      [Bee.errorNotEquals (.value (.int tInt 1)) (.value .invalid)
        ("[" ++ printValue sampleEnv .s (.float (.basic .float64) (.fin false 0 0)) 0 ++ "]")] ∧
    ¬ (Bee.Equal sampleEnv
        (.map (.map (.basic .float64) tInt) false
          [(.float (.basic .float64) .nan, .int tInt 1)])
        (.map (.map (.basic .float64) tInt) false
          [(.float (.basic .float64) (.fin false 0 0), .int tInt 1)]) ≠ [] ↔
      Bee.Equal sampleEnv
        (.map (.map (.basic .float64) tInt) false
          [(.float (.basic .float64) (.fin false 0 0), .int tInt 1)])
        (.map (.map (.basic .float64) tInt) false
          [(.float (.basic .float64) .nan, .int tInt 1)]) ≠ []) := by
  refine ⟨by decide, by decide, rfl, rfl, ?_⟩
  intro h
  exact h.2 (fun h2 => List.noConfusion h2) rfl

/-- C15 (amended): for every two values `a` and `b` that `reflect.ValueOf` can
return and in which every key of every mapping that `equals` reaches (not
behind pointers) is `==` to itself (no key is or holds a NaN), `Equal(a, b)`
reports at least one failure if and only if `Equal(b, a)` reports at least one
failure. -/
theorem C15_symmetric_outcome (env : Env) (a b : Value)
    (va : a.isValueOf = true) (vb : b.isValueOf = true)
    (ka : a.keysSelfEq = true) (kb : b.keysSelfEq = true) :
    Bee.Equal env a b ≠ [] ↔ Bee.Equal env b a ≠ [] := by
  have wa : a.IsValid = true → a.wellTyped = true := by
    intro hv
    simp only [Value.isValueOf, hv, Bool.not_true, Bool.false_or, Bool.and_eq_true] at va
    exact va.1
  have wb : b.IsValid = true → b.wellTyped = true := by
    intro hv
    simp only [Value.isValueOf, hv, Bool.not_true, Bool.false_or, Bool.and_eq_true] at vb
    exact vb.1
  exact not_congr ⟨equals_symm env a b "" "" wa wb ka kb, equals_symm env b a "" "" wb wa kb ka⟩

/-- Witness of C15 (amended): the mappings `map[string]int` with `a: 1` and
with `b: 1`, of equal size and different key sets. -/
theorem C15_witness :
    ((Value.map (.map tString tInt) false [(.string tString "a", .int tInt 1)]).isValueOf = true ∧
      (Value.map (.map tString tInt) false [(.string tString "b", .int tInt 1)]).isValueOf = true ∧
      (Value.map (.map tString tInt) false [(.string tString "a", .int tInt 1)]).keysSelfEq = true ∧
      (Value.map (.map tString tInt) false [(.string tString "b", .int tInt 1)]).keysSelfEq =
        true) ∧
    (Bee.Equal sampleEnv
        (.map (.map tString tInt) false [(.string tString "a", .int tInt 1)])
        (.map (.map tString tInt) false [(.string tString "b", .int tInt 1)]) ≠ [] ↔
      Bee.Equal sampleEnv
        (.map (.map tString tInt) false [(.string tString "b", .int tInt 1)])
        (.map (.map tString tInt) false [(.string tString "a", .int tInt 1)]) ≠ []) :=
  ⟨by decide, C15_symmetric_outcome sampleEnv _ _ (by decide) (by decide) (by decide) (by decide)⟩

theorem error_events (b : Bee) (env : Env) (lg : Lipgloss) (f : Failure) (es : List Event)
    (h : b.error env lg f = some es) :
    ∃ msg, es = Event.errorf msg ::
      (if b.cfg.expectedColumnStyle.width + b.cfg.actualColumnStyle.width <
          (Sprint env f.actual).length + (Sprint env f.expected).length then
        [Event.logf ("\n" ++ lg.joinHorizontal
          (b.cfg.actualColumnStyle.Render lg (Sprint env f.actual))
          (b.cfg.expectedColumnStyle.Render lg (Sprint env f.expected)))]
      else []) := by
  unfold Bee.error at h
  cases ha : wrap (Sprint env f.actual) b.cfg.actualTextStyle.maxWidth with
  | none => simp [ha] at h
  | some a =>
    cases he : wrap (Sprint env f.expected) b.cfg.expectedTextStyle.maxWidth with
    | none => simp [ha, he] at h
    | some e =>
      simp only [ha, he, Option.some.injEq] at h
      exact ⟨_, h.symm⟩

theorem error_defined (b : Bee) (env : Env) (lg : Lipgloss) (f : Failure)
    (ha : 3 ≤ b.cfg.actualTextStyle.maxWidth) (he : 3 ≤ b.cfg.expectedTextStyle.maxWidth) :
    ∃ es, b.error env lg f = some es := by
  obtain ⟨a, h1⟩ := wrap_defined (Sprint env f.actual) b.cfg.actualTextStyle.maxWidth
    (by exact_mod_cast ha)
  obtain ⟨e, h2⟩ := wrap_defined (Sprint env f.expected) b.cfg.expectedTextStyle.maxWidth
    (by exact_mod_cast he)
  unfold Bee.error
  simp only [h1, h2]
  exact ⟨_, rfl⟩

/-- C21: whenever `b.error` reports a failure, the calls it makes are the one
`Errorf` with the message, followed by exactly one `Logf` with the two
columns if the lengths of the untruncated texts of the actual and the
expected leaf add up to more than the widths of the expected and the actual
column, and by nothing otherwise. It does report whenever both inline widths
are at least 3. With `ColumnWidth(w)`, `w` not below zero, the two column
widths add up to `2w`. -/
theorem C21_log_threshold (b : Bee) (env : Env) (lg : Lipgloss) (f : Failure) :
    (∀ es, b.error env lg f = some es →
      (b.cfg.expectedColumnStyle.width + b.cfg.actualColumnStyle.width <
          (Sprint env f.actual).length + (Sprint env f.expected).length →
        ∃ msg, es = [Event.errorf msg, Event.logf ("\n" ++ lg.joinHorizontal
          (b.cfg.actualColumnStyle.Render lg (Sprint env f.actual))
          (b.cfg.expectedColumnStyle.Render lg (Sprint env f.expected)))]) ∧
      ((Sprint env f.actual).length + (Sprint env f.expected).length ≤
          b.cfg.expectedColumnStyle.width + b.cfg.actualColumnStyle.width →
        ∃ msg, es = [Event.errorf msg]) ∧
      ((∃ l, Event.logf l ∈ es) ↔
        b.cfg.expectedColumnStyle.width + b.cfg.actualColumnStyle.width <
          (Sprint env f.actual).length + (Sprint env f.expected).length)) ∧
    (3 ≤ b.cfg.actualTextStyle.maxWidth → 3 ≤ b.cfg.expectedTextStyle.maxWidth →
      ∃ es, b.error env lg f = some es) ∧
    (∀ (nc : Bool) (pre : List option) (w : Int), 0 ≤ w →
      (((New nc (pre ++ [ColumnWidth w])).cfg.expectedColumnStyle.width +
        (New nc (pre ++ [ColumnWidth w])).cfg.actualColumnStyle.width : Nat) : Int) = 2 * w) := by
  refine ⟨?_, error_defined b env lg f, ?_⟩
  · intro es hes
    obtain ⟨msg, hmsg⟩ := error_events b env lg f es hes
    refine ⟨?_, ?_, ?_⟩
    · intro hlt
      rw [if_pos hlt] at hmsg
      exact ⟨msg, hmsg⟩
    · intro hle
      rw [if_neg (by omega)] at hmsg
      exact ⟨msg, hmsg⟩
    · by_cases hlt : b.cfg.expectedColumnStyle.width + b.cfg.actualColumnStyle.width <
          (Sprint env f.actual).length + (Sprint env f.expected).length
      · rw [if_pos hlt] at hmsg
        simp [hmsg, hlt]
      · rw [if_neg hlt] at hmsg
        simp [hmsg, hlt]
  · intro nc pre w hw
    cases nc <;> simp [New, List.foldl_append, ColumnWidth, NoColor] <;> omega

/-- Witness of C21: with `NoColor()` and `ColumnWidth(3)`, the failure of
`Equal("abc", "abd")`, of combined length 6, gives no log, and the failure of
`Equal("abcd", "abd")`, of combined length 7, gives one, after the message. -/
theorem C21_witness :
    (New false [NoColor, ColumnWidth 3]).error sampleEnv sampleLipgloss
        ⟨.string "abc", .string "abd", "", "!="⟩ = some [Event.errorf "abc != abd"] ∧
    (∃ msg, [Event.errorf "abc != abd"] = [Event.errorf msg]) ∧
    (New false [NoColor, ColumnWidth 3]).error sampleEnv sampleLipgloss
        ⟨.string "abcd", .string "abd", "", "!="⟩ =
      some [Event.errorf "... != abd", Event.logf "\nabcdabd"] ∧
    (∃ msg, [Event.errorf "... != abd", Event.logf "\nabcdabd"] =
      [Event.errorf msg, Event.logf ("\n" ++ sampleLipgloss.joinHorizontal
        ((New false [NoColor, ColumnWidth 3]).cfg.actualColumnStyle.Render sampleLipgloss
          (Sprint sampleEnv (.string "abcd")))
        ((New false [NoColor, ColumnWidth 3]).cfg.expectedColumnStyle.Render sampleLipgloss
          (Sprint sampleEnv (.string "abd"))))]) :=
  ⟨rfl,
    ((C21_log_threshold (New false [NoColor, ColumnWidth 3]) sampleEnv sampleLipgloss
      ⟨.string "abc", .string "abd", "", "!="⟩).1 _ rfl).2.1 (by decide),
    rfl,
    ((C21_log_threshold (New false [NoColor, ColumnWidth 3]) sampleEnv sampleLipgloss
      ⟨.string "abcd", .string "abd", "", "!="⟩).1 _ rfl).1 (by decide)⟩

theorem colorFactor_nearest :
    ∃ m : Nat, colorFactor = .fin false m (-60) ∧ 2 ^ 52 ≤ m ∧ m < 2 ^ 53 ∧
      (255 * (m : Int) - 2 ^ 60).natAbs * 2 ≤ 255 :=
  ⟨0x10101010101010, rfl, by decide, by decide, by decide⟩

theorem colorComponent_examples :
    colorComponent 0 = 0 ∧ colorComponent 2 = 2 ∧ colorComponent 118 = 118 ∧
      colorComponent 250 = 250 ∧ colorComponent 255 = 255 ∧ colorComponent 33 = 32 ∧
      colorSeq (rgb 33 0 0) = "38;2;32;0;0" := by
  decide

/-- C22: a context built by `New` with no options, the no-colour flag unset,
has the default style: maximal inline width 60 on the actual and the expected
text, width 60 on the actual and the expected column, the colour
RGB(2,118,250) on the what label, RGB(18,181,32) on the expected text and the
expected column, RGB(250,40,25) on the actual text and the actual column.
With it `Equal(true, 1)` gives the message of `assert_test.go`, in the actual
and the expected colour. -/
theorem C22_default_style :
    (New false []).cfg.actualTextStyle.maxWidth = 60 ∧
    (New false []).cfg.expectedTextStyle.maxWidth = 60 ∧
    (New false []).cfg.actualColumnStyle.width = 60 ∧
    (New false []).cfg.expectedColumnStyle.width = 60 ∧
    (New false []).cfg.whatTextStyle.foreground = some (rgb 2 118 250) ∧
    (New false []).cfg.expectedTextStyle.foreground = some (rgb 18 181 32) ∧
    (New false []).cfg.expectedColumnStyle.foreground = some (rgb 18 181 32) ∧
    (New false []).cfg.actualTextStyle.foreground = some (rgb 250 40 25) ∧
    (New false []).cfg.actualColumnStyle.foreground = some (rgb 250 40 25) ∧
    (rgb 2 118 250 = "#0276fa" ∧ rgb 18 181 32 = "#12b520" ∧ rgb 250 40 25 = "#fa2819") ∧
    (colorSeq (rgb 2 118 250) = "38;2;2;118;250" ∧ colorSeq (rgb 18 181 32) = "38;2;18;181;32" ∧
      colorSeq (rgb 250 40 25) = "38;2;250;40;25") ∧
    (∀ env lg, (New false []).report env lg
        (Bee.Equal env (.bool (.basic .bool) true) (.int tInt 1)) =
      some [Event.errorf "\x1b[38;2;250;40;25mbool\x1b[0m != \x1b[38;2;18;181;32mint\x1b[0m"]) := by
  refine ⟨rfl, rfl, rfl, rfl, rfl, rfl, rfl, rfl, rfl, ⟨by decide, by decide, by decide⟩,
    ⟨by decide, by decide, by decide⟩, ?_⟩
  intro env lg
  rfl

theorem New_middle (nc : Bool) (pre post : List option) (o1 o2 : option)
    (h : ∀ cfg, o2 (o1 cfg) = o2 cfg) :
    New nc (pre ++ [o1, o2] ++ post) = New nc (pre ++ [o2] ++ post) := by
  cases nc <;> simp [New, List.foldl_append, h]

/-- C23: `New` applies the given options from left to right on top of the
defaults, and a later option wins on every field it shares with an earlier
one: anywhere in a list of options, `ColumnWidth(w1)` followed by
`ColumnWidth(w2)` gives the same context as `ColumnWidth(w2)` alone, and so
for two `WhatColor`, two `ExpectedColor`, two `ActualColor` options, and for
any colour option followed by `NoColor`; an explicit option overrides the
corresponding default (a width below zero counts as zero). -/
theorem C23_later_option_wins (nc : Bool) (pre post : List option) :
    (New false []).cfg = newConfig ∧
    (∀ opts o, (New false (opts ++ [o])).cfg = o (New false opts).cfg) ∧
    (∀ w1 w2, New nc (pre ++ [ColumnWidth w1, ColumnWidth w2] ++ post) =
      New nc (pre ++ [ColumnWidth w2] ++ post)) ∧
    (∀ r1 g1 b1 r2 g2 b2, New nc (pre ++ [WhatColor r1 g1 b1, WhatColor r2 g2 b2] ++ post) =
      New nc (pre ++ [WhatColor r2 g2 b2] ++ post)) ∧
    (∀ r1 g1 b1 r2 g2 b2,
      New nc (pre ++ [ExpectedColor r1 g1 b1, ExpectedColor r2 g2 b2] ++ post) =
        New nc (pre ++ [ExpectedColor r2 g2 b2] ++ post)) ∧
    (∀ r1 g1 b1 r2 g2 b2, New nc (pre ++ [ActualColor r1 g1 b1, ActualColor r2 g2 b2] ++ post) =
      New nc (pre ++ [ActualColor r2 g2 b2] ++ post)) ∧
    (∀ r g b, New nc (pre ++ [WhatColor r g b, NoColor] ++ post) =
        New nc (pre ++ [NoColor] ++ post) ∧
      New nc (pre ++ [ExpectedColor r g b, NoColor] ++ post) =
        New nc (pre ++ [NoColor] ++ post) ∧
      New nc (pre ++ [ActualColor r g b, NoColor] ++ post) =
        New nc (pre ++ [NoColor] ++ post)) ∧
    (∀ w : Int, (New false [ColumnWidth w]).cfg.actualTextStyle.maxWidth = w.toNat ∧
      (New false [ColumnWidth w]).cfg.expectedTextStyle.maxWidth = w.toNat ∧
      (New false [ColumnWidth w]).cfg.actualColumnStyle.width = w.toNat ∧
      (New false [ColumnWidth w]).cfg.expectedColumnStyle.width = w.toNat) ∧
    (∀ r g b, (New false [WhatColor r g b]).cfg.whatTextStyle.foreground = some (rgb r g b)) ∧
    (∀ r g b,
      (New false [ExpectedColor r g b]).cfg.expectedTextStyle.foreground = some (rgb r g b) ∧
      (New false [ExpectedColor r g b]).cfg.expectedColumnStyle.foreground =
        some (rgb r g b)) ∧
    (∀ r g b, (New false [ActualColor r g b]).cfg.actualTextStyle.foreground = some (rgb r g b) ∧
      (New false [ActualColor r g b]).cfg.actualColumnStyle.foreground = some (rgb r g b)) := by
  refine ⟨rfl, ?_, ?_, ?_, ?_, ?_, ?_, ?_, ?_, ?_, ?_⟩
  · intro opts o
    simp [New, List.foldl_append]
  · intro w1 w2
    exact New_middle nc pre post _ _ (fun cfg => rfl)
  · intro r1 g1 b1 r2 g2 b2
    exact New_middle nc pre post _ _ (fun cfg => rfl)
  · intro r1 g1 b1 r2 g2 b2
    exact New_middle nc pre post _ _ (fun cfg => rfl)
  · intro r1 g1 b1 r2 g2 b2
    exact New_middle nc pre post _ _ (fun cfg => rfl)
  · intro r g b
    exact ⟨New_middle nc pre post _ _ (fun cfg => rfl),
      New_middle nc pre post _ _ (fun cfg => rfl), New_middle nc pre post _ _ (fun cfg => rfl)⟩
  · intro w
    exact ⟨rfl, rfl, rfl, rfl⟩
  · intro r g b
    rfl
  · intro r g b
    exact ⟨rfl, rfl⟩
  · intro r g b
    exact ⟨rfl, rfl⟩

/-- C24: when the flag `nocolor` is set, a context built by `New` has no
foreground colour on any of its five styles, whatever the list of options
(each option being any function on configurations, the colour options among
them). -/
theorem C24_nocolor_flag (opts : List option) :
    (New true opts).cfg.whatTextStyle.foreground = none ∧
    (New true opts).cfg.expectedTextStyle.foreground = none ∧
    (New true opts).cfg.actualTextStyle.foreground = none ∧
    (New true opts).cfg.expectedColumnStyle.foreground = none ∧
    (New true opts).cfg.actualColumnStyle.foreground = none ∧
    (∀ r g b, (New true (opts ++ [WhatColor r g b])).cfg.whatTextStyle.foreground = none) ∧
    (∀ r g b,
      (New true (opts ++ [ExpectedColor r g b])).cfg.expectedTextStyle.foreground = none ∧
      (New true (opts ++ [ExpectedColor r g b])).cfg.expectedColumnStyle.foreground = none) ∧
    (∀ r g b, (New true (opts ++ [ActualColor r g b])).cfg.actualTextStyle.foreground = none ∧
      (New true (opts ++ [ActualColor r g b])).cfg.actualColumnStyle.foreground = none) := by
  have h : ∀ os : List option, (New true os).cfg.whatTextStyle.foreground = none ∧
      (New true os).cfg.expectedTextStyle.foreground = none ∧
      (New true os).cfg.actualTextStyle.foreground = none ∧
      (New true os).cfg.expectedColumnStyle.foreground = none ∧
      (New true os).cfg.actualColumnStyle.foreground = none := by
    intro os
    simp [New, List.foldl_append, NoColor]
  refine ⟨(h opts).1, (h opts).2.1, (h opts).2.2.1, (h opts).2.2.2.1, (h opts).2.2.2.2, ?_, ?_, ?_⟩
  · intro r g b
    exact (h _).1
  · intro r g b
    exact ⟨(h _).2.1, (h _).2.2.2.1⟩
  · intro r g b
    exact ⟨(h _).2.2.1, (h _).2.2.2.2⟩

/-- C25: for every two well-formed values of one type whose kind is channel,
function or raw pointer, `Equal` reports no failure, whether or not the two
values are the same. -/
theorem C25_unsupported_kinds (env : Env) (a b : Value)
    (wa : a.wellTyped = true) (wb : b.wellTyped = true) (ht : a.goType = b.goType)
    (hk : a.goKind = .chan ∨ a.goKind = .func ∨ a.goKind = .rawPointer) :
    Bee.Equal env a b = [] := by
  have hsa := wellTyped_shape a wa
  have hs := shape_eq_of_type_eq a b wa wb ht
  unfold Value.goKind at hk
  unfold Bee.Equal
  rcases hk with hk | hk | hk
  all_goals
    rw [hk] at hsa
    cases a <;> simp [Value.shape, Kind.shape] at hsa
    cases b <;> simp [Value.shape] at hs
    rw [Bee.equals.eq_def]
    simp only [Value.goType] at ht
    simp [Value.IsValid, Value.goType, ht]

/-- Witness of C25: two channels of type `chan int` at different addresses. -/
theorem C25_witness :
    ((Value.chan (.chan tInt) 1).wellTyped = true ∧ (Value.chan (.chan tInt) 2).wellTyped = true ∧
      (Value.chan (.chan tInt) 1).goType = (Value.chan (.chan tInt) 2).goType ∧
      ((Value.chan (.chan tInt) 1).goKind = .chan ∨ (Value.chan (.chan tInt) 1).goKind = .func ∨
        (Value.chan (.chan tInt) 1).goKind = .rawPointer)) ∧
    Bee.Equal sampleEnv (.chan (.chan tInt) 1) (.chan (.chan tInt) 2) = [] :=
  ⟨by decide, C25_unsupported_kinds sampleEnv _ _ (by decide) (by decide) (by decide)
    (by decide)⟩

theorem wellTypedFields_getD (fs : Fields) (xs : List Value)
    (h : Value.wellTypedFields fs xs = true) (j : Nat) (hj : j < xs.length) :
    (xs.getD j .invalid).goType = fs.typeAt j ∧ (xs.getD j .invalid).wellTyped = true := by
  induction xs generalizing fs j with
  | nil => simp at hj
  | cons x rest ih =>
    cases fs with
    | nil => simp [Value.wellTypedFields] at h
    | cons n ft frest =>
      simp only [Value.wellTypedFields, Bool.and_eq_true, decide_eq_true_eq] at h
      cases j with
      | zero => exact ⟨h.1.1, h.1.2⟩
      | succ j =>
        have := ih frest h.2 j (by simpa using hj)
        simpa [Fields.typeAt] using this

theorem flatMap_range_head {α : Type} (n : Nat) (g : Nat → List α) (f : α) (rest : List α)
    (h : (List.range n).flatMap g = f :: rest) :
    ∃ i, i < n ∧ (∀ j, j < i → g j = []) ∧ ∃ tl, g i = f :: tl := by
  induction n generalizing rest with
  | zero => simp at h
  | succ n ih =>
    rw [List.range_succ, List.flatMap_append] at h
    cases hp : (List.range n).flatMap g with
    | nil =>
      rw [hp] at h
      simp only [List.flatMap_cons, List.flatMap_nil, List.append_nil, List.nil_append] at h
      refine ⟨n, by omega, ?_, rest, h⟩
      intro j hj
      rw [List.flatMap_eq_nil_iff] at hp
      exact hp j (List.mem_range.2 hj)
    | cons f1 rest1 =>
      rw [hp] at h
      simp only [List.cons_append, List.cons.injEq] at h
      obtain ⟨i, hi, h1, h2⟩ := ih rest1 (by rw [hp, h.1])
      exact ⟨i, by omega, h1, h2⟩

theorem first_told_apart (n : Nat) (xs ys : List Value) (path : Nat → String)
    (g : Nat → List Failure) (f : Failure) (rest : List Failure)
    (hg : ∀ j, j < n → g j =
      if Value.differs (xs.getD j .invalid) (ys.getD j .invalid) = true then
        [Bee.errorNotEquals (xs.getD j .invalid).leaf (ys.getD j .invalid).leaf (path j)]
      else [])
    (h : (List.range n).flatMap g = f :: rest) :
    ∃ i, i < n ∧ Value.differs (xs.getD i .invalid) (ys.getD i .invalid) = true ∧
      (∀ j, j < i → Value.differs (xs.getD j .invalid) (ys.getD j .invalid) = false) ∧
      f = Bee.errorNotEquals (xs.getD i .invalid).leaf (ys.getD i .invalid).leaf (path i) := by
  obtain ⟨i, hi, h1, tl, h2⟩ := flatMap_range_head n g f rest h
  have hd : Value.differs (xs.getD i .invalid) (ys.getD i .invalid) = true := by
    rw [hg i hi] at h2
    by_contra hne
    rw [if_neg hne] at h2
    cases h2
  refine ⟨i, hi, hd, ?_, ?_⟩
  · intro j hj
    have := h1 j hj
    rw [hg j (by omega)] at this
    by_contra hne
    rw [if_pos (by simpa using hne)] at this
    cases this
  · rw [hg i hi, if_pos hd] at h2
    simp only [List.cons.injEq] at h2
    exact h2.1.symm

theorem equalsIndex_compared (env : Env) (te : GoType) (xs ys : List Value) (expected : Value)
    (what : String) (hidx : ∀ j, expected.Index j = ys.getD j .invalid)
    (hxs : Value.wellTypedList te xs = true) (hys : Value.wellTypedList te ys = true)
    (hp : xs.all Value.isCompared = true) (hlen : xs.length = ys.length) :
    ∀ j, j < xs.length →
      Bee.equals env (xs.getD j .invalid) (expected.Index (0 + j))
          (what ++ "[" ++ toString (0 + j) ++ "]") =
        if Value.differs (xs.getD j .invalid) (ys.getD j .invalid) = true then
          [Bee.errorNotEquals (xs.getD j .invalid).leaf (ys.getD j .invalid).leaf
            (what ++ "[" ++ toString j ++ "]")]
        else [] := by
  intro j hj
  have h1 := wellTypedList_getD te xs hxs j hj
  have h2 := wellTypedList_getD te ys hys j (by omega)
  have h3 : (xs.getD j .invalid).isCompared = true := by
    rw [List.all_eq_true] at hp
    exact hp _ (getD_mem xs j hj)
  rw [Nat.zero_add, hidx]
  exact equals_compared env _ _ _ h3 h1.2 h2.2 (h1.1.trans h2.1.symm)

/-- Counterexample to C26: for `[]float64{1, 1}` against `[]float64{1+2^-40, 2}`
the elements differ at index 0 (by `2^-40`, less than `1e-9`) and the first
failure of `Equal`, its only one, is for index 1. -/
theorem C26_counterexample :
    Float64.eq (.fin false (2 ^ 52) (-52)) (.fin false (2 ^ 52 + 2 ^ 12) (-52)) = false ∧
    (Value.slice (.slice (.basic .float64)) false
      [.float (.basic .float64) (.fin false (2 ^ 52) (-52)),
        .float (.basic .float64) (.fin false (2 ^ 52) (-52))]).wellTyped = true ∧
    (Value.slice (.slice (.basic .float64)) false
      [.float (.basic .float64) (.fin false (2 ^ 52 + 2 ^ 12) (-52)),
        .float (.basic .float64) (.fin false (2 ^ 52) (-51))]).wellTyped = true ∧
    Bee.Equal sampleEnv
      (.slice (.slice (.basic .float64)) false
        [.float (.basic .float64) (.fin false (2 ^ 52) (-52)),
          .float (.basic .float64) (.fin false (2 ^ 52) (-52))])
      (.slice (.slice (.basic .float64)) false
        [.float (.basic .float64) (.fin false (2 ^ 52 + 2 ^ 12) (-52)),
          .float (.basic .float64) (.fin false (2 ^ 52) (-51))]) =
      [Bee.errorNotEquals (.float64 (.fin false (2 ^ 52) (-52)))
        (.float64 (.fin false (2 ^ 52) (-51))) "[1]"] := by
  refine ⟨by decide, by decide, by decide, rfl⟩

/-- C26 (amended): whenever `equals` reports a failure for two sequences of one
type and equal length whose elements are primitives that `equals` compares
(booleans, integers other than `uintptr`, floats, complex numbers, texts),
the first failure it submits is for the lowest index at which the comparison
of their kind tells the elements apart (different booleans, integers or
texts, floats more than `1e-9` apart, complex numbers with parts that are not
`==`), with the two elements as leaves and the path followed by `[i]`;
whenever it reports a failure for two records of one type whose fields are
such primitives, the first failure is for the earliest declared field whose
values the comparison tells apart, with the path followed by `.` and the
name of the field. -/
theorem C26_first_failure (env : Env) (what : String) (f : Failure) (rest : List Failure) :
    (∀ t n m xs ys, Value.wellTypedList t.elem xs = true → Value.wellTypedList t.elem ys = true →
      xs.all Value.isCompared = true → xs.length = ys.length →
      Bee.equals env (.slice t n xs) (.slice t m ys) what = f :: rest →
      ∃ i, i < xs.length ∧ Value.differs (xs.getD i .invalid) (ys.getD i .invalid) = true ∧
        (∀ j, j < i → Value.differs (xs.getD j .invalid) (ys.getD j .invalid) = false) ∧
        f = Bee.errorNotEquals (xs.getD i .invalid).leaf (ys.getD i .invalid).leaf
          (what ++ "[" ++ toString i ++ "]")) ∧
    (∀ t xs ys, Value.wellTypedList t.elem xs = true → Value.wellTypedList t.elem ys = true →
      xs.all Value.isCompared = true → xs.length = ys.length →
      Bee.equals env (.array t xs) (.array t ys) what = f :: rest →
      ∃ i, i < xs.length ∧ Value.differs (xs.getD i .invalid) (ys.getD i .invalid) = true ∧
        (∀ j, j < i → Value.differs (xs.getD j .invalid) (ys.getD j .invalid) = false) ∧
        f = Bee.errorNotEquals (xs.getD i .invalid).leaf (ys.getD i .invalid).leaf
          (what ++ "[" ++ toString i ++ "]")) ∧
    (∀ t xs ys, Value.wellTypedFields t.fields xs = true →
      Value.wellTypedFields t.fields ys = true → xs.all Value.isCompared = true →
      Bee.equals env (.struct t xs) (.struct t ys) what = f :: rest →
      ∃ i, i < xs.length ∧ Value.differs (xs.getD i .invalid) (ys.getD i .invalid) = true ∧
        (∀ j, j < i → Value.differs (xs.getD j .invalid) (ys.getD j .invalid) = false) ∧
        f = Bee.errorNotEquals (xs.getD i .invalid).leaf (ys.getD i .invalid).leaf
          (what ++ "." ++ t.FieldName i)) := by
  refine ⟨?_, ?_, ?_⟩
  · intro t n m xs ys hxs hys hp hlen h
    rw [Bee.equals.eq_def] at h
    simp only [Value.IsValid, Value.goType, Value.Len, hlen, Bool.not_true, Bool.or_self,
      Bool.false_eq_true, ↓reduceIte, ne_eq, not_true_eq_false] at h
    rw [equalsIndex_eq_flatMap] at h
    exact first_told_apart xs.length xs ys (fun j => what ++ "[" ++ toString j ++ "]") _ f rest
      (equalsIndex_compared env t.elem xs ys (.slice t m ys) what (fun j => rfl) hxs hys hp
        hlen) h
  · intro t xs ys hxs hys hp hlen h
    rw [Bee.equals.eq_def] at h
    simp only [Value.IsValid, Value.goType, Value.Len, hlen, Bool.not_true, Bool.or_self,
      Bool.false_eq_true, ↓reduceIte, ne_eq, not_true_eq_false] at h
    rw [equalsIndex_eq_flatMap] at h
    exact first_told_apart xs.length xs ys (fun j => what ++ "[" ++ toString j ++ "]") _ f rest
      (equalsIndex_compared env t.elem xs ys (.array t ys) what (fun j => rfl) hxs hys hp
        hlen) h
  · intro t xs ys hxs hys hp h
    rw [Bee.equals.eq_def] at h
    simp only [Value.IsValid, Value.goType, Bool.not_true, Bool.or_self,
      Bool.false_eq_true, ↓reduceIte, ne_eq, not_true_eq_false] at h
    rw [equalsFields_eq_flatMap] at h
    have hlen : xs.length = ys.length := by
      rw [wellTypedFields_length _ xs hxs, wellTypedFields_length _ ys hys]
    refine first_told_apart xs.length xs ys (fun j => what ++ "." ++ t.FieldName j) _ f rest
      ?_ h
    intro j hj
    have h1 := wellTypedFields_getD _ xs hxs j hj
    have h2 := wellTypedFields_getD _ ys hys j (by omega)
    have h3 : (xs.getD j .invalid).isCompared = true := by
      rw [List.all_eq_true] at hp
      exact hp _ (getD_mem xs j hj)
    simp only [Nat.zero_add, Value.Field]
    exact equals_compared env _ _ _ h3 h1.2 h2.2 (h1.1.trans h2.1.symm)

/-- Witness of C26 (amended): `[]int{1, 2, 3}` against `[]int{1, 5, 6}`, whose
two failures are for the indices 1 and 2. -/
theorem C26_witness :
    (Value.wellTypedList (GoType.slice tInt).elem [.int tInt 1, .int tInt 2, .int tInt 3] = true ∧
      Value.wellTypedList (GoType.slice tInt).elem [.int tInt 1, .int tInt 5, .int tInt 6] = true ∧
      [Value.int tInt 1, .int tInt 2, .int tInt 3].all Value.isCompared = true ∧
      [Value.int tInt 1, .int tInt 2, .int tInt 3].length =
        [Value.int tInt 1, .int tInt 5, .int tInt 6].length ∧
      Bee.Equal sampleEnv (.slice (.slice tInt) false [.int tInt 1, .int tInt 2, .int tInt 3])
          (.slice (.slice tInt) false [.int tInt 1, .int tInt 5, .int tInt 6]) =
        [Bee.errorNotEquals (.int64 2) (.int64 5) "[1]",
          Bee.errorNotEquals (.int64 3) (.int64 6) "[2]"]) ∧
    ∃ i, i < [Value.int tInt 1, .int tInt 2, .int tInt 3].length ∧
      Value.differs ([Value.int tInt 1, .int tInt 2, .int tInt 3].getD i .invalid)
        ([Value.int tInt 1, .int tInt 5, .int tInt 6].getD i .invalid) = true ∧
      (∀ j, j < i → Value.differs ([Value.int tInt 1, .int tInt 2, .int tInt 3].getD j .invalid)
        ([Value.int tInt 1, .int tInt 5, .int tInt 6].getD j .invalid) = false) ∧
      Bee.errorNotEquals (.int64 2) (.int64 5) "[1]" =
        Bee.errorNotEquals ([Value.int tInt 1, .int tInt 2, .int tInt 3].getD i .invalid).leaf
          ([Value.int tInt 1, .int tInt 5, .int tInt 6].getD i .invalid).leaf
          ("" ++ "[" ++ toString i ++ "]") :=
  ⟨⟨by decide, by decide, by decide, by decide, rfl⟩,
    (C26_first_failure sampleEnv "" (Bee.errorNotEquals (.int64 2) (.int64 5) "[1]")
      [Bee.errorNotEquals (.int64 3) (.int64 6) "[2]"]).1 (.slice tInt) false false
      [.int tInt 1, .int tInt 2, .int tInt 3] [.int tInt 1, .int tInt 5, .int tInt 6]
      (by decide) (by decide) (by decide) (by decide) rfl⟩

/-- C27 (code bug): the case of the unsigned integers in `equals` does not list
the kind `uintptr` and no other case does, so that two `uintptr` values of
one type are never compared: `Equal` reports no failure for them, also for
`uintptr(1)` and `uintptr(2)`, while it reports `1 != 2` for `uint(1)` and
`uint(2)`. -/
theorem C27_uintptr_not_compared (env : Env) (t : GoType) (x y : Nat) :
    Bee.Equal env (.uintptr t x) (.uintptr t y) = [] ∧
    ((Value.uintptr (.basic .uintptr) 1).wellTyped = true ∧
      (Value.uintptr (.basic .uintptr) 2).wellTyped = true ∧
      Bee.Equal env (.uintptr (.basic .uintptr) 1) (.uintptr (.basic .uintptr) 2) = []) ∧
    Bee.Equal env (.uint (.basic .uint) 1) (.uint (.basic .uint) 2) =
      [Bee.errorNotEquals (.uint64 1) (.uint64 2) ""] := by
  refine ⟨?_, ⟨by decide, by decide, rfl⟩, rfl⟩
  unfold Bee.Equal
  rw [Bee.equals.eq_def]
  simp [Value.IsValid, Value.goType]

/-- C30: for every nil pointer, nil slice or nil map `v`, `Nil(v)` reports no
failure while `Equal(v, nil)` reports exactly one failure, with the leaves
`v` and the absent value and the empty path; and for every value `u`,
`Equal(u, nil)` reports no failure only when `u` is the untyped nil, for
which `Nil` reports none either. -/
theorem C30_typed_nil (env : Env) (v : Value)
    (hk : v.goKind = .pointer ∨ v.goKind = .slice ∨ v.goKind = .map)
    (hn : v.IsNil = true) :
    Bee.Nil v = [] ∧
    Bee.Equal env v .invalid = [Bee.errorNotEquals (.value v) (.value .invalid) ""] ∧
    (∀ u : Value, Bee.Equal env u .invalid = [] ↔ u = .invalid) ∧
    Bee.Nil .invalid = [] := by
  have hvalid : v.IsValid = true := by
    cases v <;> simp [Value.IsValid, Value.goKind, Value.goType, GoType.kind] at hk ⊢
  refine ⟨?_, equals_invalid_right env v "" hvalid, ?_, rfl⟩
  · unfold Bee.Nil isNil
    rcases hk with hk | hk | hk <;> simp [hvalid, hk, hn]
  · intro u
    constructor
    · intro h
      cases hu : u.IsValid
      · cases u <;> simp [Value.IsValid] at hu
        rfl
      · unfold Bee.Equal at h
        rw [equals_invalid_right env u "" hu] at h
        cases h
    · intro h
      subst h
      rfl

/-- Witness of C30: the nil slice `[]int(nil)`. -/
theorem C30_witness :
    (((Value.slice (.slice tInt) true []).goKind = .pointer ∨
        (Value.slice (.slice tInt) true []).goKind = .slice ∨
        (Value.slice (.slice tInt) true []).goKind = .map) ∧
      (Value.slice (.slice tInt) true []).IsNil = true) ∧
    (Bee.Nil (.slice (.slice tInt) true []) = [] ∧
      Bee.Equal sampleEnv (.slice (.slice tInt) true []) .invalid =
        [Bee.errorNotEquals (.value (.slice (.slice tInt) true [])) (.value .invalid) ""]) :=
  ⟨by decide,
    (C30_typed_nil sampleEnv _ (by decide) (by decide)).1,
    (C30_typed_nil sampleEnv _ (by decide) (by decide)).2.1⟩

theorem equalsKeys_single_key (env : Env) (kt vt : GoType) (es fs : List (Value × Value))
    (expected : Value) (i : Nat) (k : Value) (what : String)
    (hexp : ∀ key, expected.MapIndex key = lookupKey key fs)
    (wes : Value.wellTypedEntries kt vt es = true)
    (wfs : Value.wellTypedEntries kt vt fs = true)
    (hk : es.all (fun e => Value.goEq e.1 e.1) = true)
    (hp : es.all (fun e => e.2.isCompared) = true)
    (hkeys : es.all (fun e => (lookupKey e.1 fs).IsValid) = true)
    (hi : i < es.length) (hki : (es.getD i (.invalid, .invalid)).1 = k)
    (hd : (es.getD i (.invalid, .invalid)).2.differs (lookupKey k fs) = true)
    (hs : ∀ j, j < es.length → j ≠ i →
      (es.getD j (.invalid, .invalid)).2.differs
        (lookupKey (es.getD j (.invalid, .invalid)).1 fs) = false) :
    Bee.equalsKeys env es expected what =
      [Bee.errorNotEquals (es.getD i (.invalid, .invalid)).2.leaf
        (lookupKey k fs).leaf (what ++ "[" ++ printValue env .s k 0 ++ "]")] := by
  have hcmp : ∀ j, j < es.length →
      (if Value.goEq (es.getD j (.invalid, .invalid)).1 (es.getD j (.invalid, .invalid)).1 then
        Bee.equals env (es.getD j (.invalid, .invalid)).2
          (expected.MapIndex (es.getD j (.invalid, .invalid)).1)
          (what ++ "[" ++ printValue env .s (es.getD j (.invalid, .invalid)).1 0 ++ "]")
      else if (expected.MapIndex (es.getD j (.invalid, .invalid)).1).IsValid then
        [Bee.errorNotEquals (.value .invalid)
          (.value (expected.MapIndex (es.getD j (.invalid, .invalid)).1))
          (what ++ "[" ++ printValue env .s (es.getD j (.invalid, .invalid)).1 0 ++ "]")]
      else []) =
        if (es.getD j (.invalid, .invalid)).2.differs
            (lookupKey (es.getD j (.invalid, .invalid)).1 fs) = true then
          [Bee.errorNotEquals (es.getD j (.invalid, .invalid)).2.leaf
            (lookupKey (es.getD j (.invalid, .invalid)).1 fs).leaf
            (what ++ "[" ++ printValue env .s (es.getD j (.invalid, .invalid)).1 0 ++ "]")]
        else [] := by
    intro j hj
    have hmem : es.getD j (.invalid, .invalid) ∈ es := by
      rw [List.getD_eq_getElem _ _ hj]
      exact List.getElem_mem hj
    generalize es.getD j (.invalid, .invalid) = e at hmem
    rw [List.all_eq_true] at hk hp hkeys
    have hself := hk e hmem
    have h2 := hp e hmem
    have h3 := hkeys e hmem
    have h4 := wellTypedEntries_mem kt vt es wes e hmem
    have h5 := wellTypedEntries_types kt vt es wes e hmem
    rw [hexp, hself]
    rcases lookupKey_cases e.1 fs with ⟨hl, _⟩ | ⟨f, hf, _, hl⟩
    · rw [hl] at h3
      simp [Value.IsValid] at h3
    · have h6 := wellTypedEntries_mem kt vt fs wfs f hf
      have h7 := wellTypedEntries_types kt vt fs wfs f hf
      rw [hl]
      simp only [↓reduceIte]
      exact equals_compared env e.2 f.2 _ h2 h4.2.2 h6.2.2 (h5.2.trans h7.2.symm)
  rw [equalsKeys_eq_flatMap, flatMap_eq_range es (.invalid, .invalid),
    flatMap_range_single es.length i _ hi, hcmp i hi, hki, hd]
  · rfl
  · intro j hj hne
    rw [hcmp j hj, hs j hj hne]
    rfl

/-- C28 (code bug): for two well-formed mappings of one type and equal size
whose keys are signed integers and whose values are primitives that `equals`
compares, every key of the actual mapping being a key of the expected one,
if the values under the key `k` are told apart and the values under no other
key are, `Equal` reports one failure whose path is not `[k]` with the decimal
numeral of `k`: the key is printed with the verb `%s`, and the path is
`[%!s(T=k)]` for the key type `T`, `[%!s(int=1)]` for the key 1 of a
`map[int]int`. An index of a sequence is printed with `%d`. -/
theorem C28_integer_key_path (env : Env) (t : GoType) (n m : Bool)
    (es fs : List (Value × Value)) (i : Nat) (kt : GoType) (k : Int)
    (wa : (Value.map t n es).wellTyped = true) (wb : (Value.map t m fs).wellTyped = true)
    (hk : es.all (fun e => e.1.shape == .int) = true)
    (hp : es.all (fun e => e.2.isCompared) = true)
    (hlen : es.length = fs.length)
    (hkeys : es.all (fun e => (lookupKey e.1 fs).IsValid) = true)
    (hi : i < es.length) (hki : (es.getD i (.invalid, .invalid)).1 = .int kt k)
    (hd : (es.getD i (.invalid, .invalid)).2.differs (lookupKey (.int kt k) fs) = true)
    (hs : ∀ j, j < es.length → j ≠ i →
      (es.getD j (.invalid, .invalid)).2.differs
        (lookupKey (es.getD j (.invalid, .invalid)).1 fs) = false) :
    Bee.Equal env (.map t n es) (.map t m fs) =
      [Bee.errorNotEquals (es.getD i (.invalid, .invalid)).2.leaf
        (lookupKey (.int kt k) fs).leaf
        ("[" ++ ("%!s(" ++ kt.typeString ++ "=" ++ toString k ++ ")") ++ "]")] := by
  simp only [Value.wellTyped, Bool.and_eq_true, beq_iff_eq] at wa wb
  have hself : es.all (fun e => Value.goEq e.1 e.1) = true := by
    rw [List.all_eq_true] at hk ⊢
    intro e he
    have h1 := hk e he
    obtain ⟨ek, ex⟩ := e
    cases ek <;> simp [Value.shape] at h1
    simp [Value.goEq]
  unfold Bee.Equal
  rw [Bee.equals.eq_def]
  simp only [Value.IsValid, Value.goType, Value.Len, hlen]
  simp only [Bool.not_true, Bool.or_self, Bool.false_eq_true, ↓reduceIte, ne_eq,
    not_true_eq_false]
  have := equalsKeys_single_key env t.key t.elem es fs (.map t m fs) i (.int kt k) ""
    (fun key => by simp [Value.MapIndex]) wa.1.2 wb.1.2 hself hp hkeys hi hki hd hs
  rw [this]
  simp [printValue, badVerb]

/-- Witness of C28: `map[int]int` with `1: 1` against `1: 2`: the path is
`[%!s(int=1)]`, not `[1]`, and the message `1 != 2 ([%!s(int=1)])`. -/
theorem C28_witness :
    ((Value.map (.map tInt tInt) false [(.int tInt 1, .int tInt 1)]).wellTyped = true ∧
      (Value.map (.map tInt tInt) false [(.int tInt 1, .int tInt 2)]).wellTyped = true ∧
      [(Value.int tInt 1, Value.int tInt 1)].all (fun e => e.1.shape == .int) = true ∧
      [(Value.int tInt 1, Value.int tInt 1)].all (fun e => e.2.isCompared) = true ∧
      [(Value.int tInt 1, Value.int tInt 1)].length =
        [(Value.int tInt 1, Value.int tInt 2)].length ∧
      [(Value.int tInt 1, Value.int tInt 1)].all
        (fun e => (lookupKey e.1 [(Value.int tInt 1, Value.int tInt 2)]).IsValid) = true) ∧
    Bee.Equal sampleEnv (.map (.map tInt tInt) false [(.int tInt 1, .int tInt 1)])
        (.map (.map tInt tInt) false [(.int tInt 1, .int tInt 2)]) =
      [Bee.errorNotEquals (.int64 1) (.int64 2) "[%!s(int=1)]"] ∧
    "[%!s(int=1)]" ≠ "[1]" ∧
    (New false [NoColor]).report sampleEnv sampleLipgloss
        [Bee.errorNotEquals (.int64 1) (.int64 2) "[%!s(int=1)]"] =
      some [Event.errorf "1 != 2 ([%!s(int=1)])"] :=
  ⟨by decide,
    C28_integer_key_path sampleEnv (.map tInt tInt) false false [(.int tInt 1, .int tInt 1)]
      [(.int tInt 1, .int tInt 2)] 0 tInt 1 (by decide) (by decide) (by decide) (by decide) rfl
      (by decide) (by decide) rfl (by decide) (fun j hj hne => by
        simp only [List.length_singleton] at hj
        omega),
    by decide, rfl⟩

theorem Float64.eq_right_self (x y : Float64) (h : x.eq y = true) : y.eq y = true := by
  cases y with
  | nan => cases x <;> simp [Float64.eq] at h
  | inf n => simp [Float64.eq]
  | fin n m e => simp [Float64.eq]

mutual
theorem goEq_right_self (a b : Value) (h : Value.goEq a b = true) : Value.goEq b b = true := by
  cases a with
  | invalid =>
    cases b <;> simp [Value.goEq, Value.IsValid] at h ⊢
  | bool t x => cases b <;> simp [Value.goEq] at h ⊢
  | int t x => cases b <;> simp [Value.goEq] at h ⊢
  | uint t x => cases b <;> simp [Value.goEq] at h ⊢
  | uintptr t x => cases b <;> simp [Value.goEq] at h ⊢
  | string t x => cases b <;> simp [Value.goEq] at h ⊢
  | chan t x => cases b <;> simp [Value.goEq] at h ⊢
  | ptr t x e0 => cases b <;> simp [Value.goEq] at h ⊢
  | rawPointer t x => cases b <;> simp [Value.goEq] at h ⊢
  | slice t n xs => simp [Value.goEq] at h
  | map t n es => simp [Value.goEq] at h
  | func t x => simp [Value.goEq] at h
  | float t x =>
    cases b with
    | float t2 y =>
      simp only [Value.goEq] at h ⊢
      exact Float64.eq_right_self x y h
    | _ => simp [Value.goEq] at h
  | complex t re im =>
    cases b with
    | complex t2 re2 im2 =>
      simp only [Value.goEq, Bool.and_eq_true] at h ⊢
      exact ⟨Float64.eq_right_self re re2 h.1, Float64.eq_right_self im im2 h.2⟩
    | _ => simp [Value.goEq] at h
  | iface t e =>
    cases b with
    | iface t2 e2 =>
      simp only [Value.goEq] at h ⊢
      cases he2 : e2.IsValid
      · simp
      · cases he : e.IsValid
        · simp [he, he2] at h
        · simp only [he, he2, Bool.not_true, Bool.or_self, Bool.false_eq_true, ↓reduceIte,
            Bool.and_eq_true, decide_eq_true_eq] at h
          have ih := goEq_right_self e e2 h.2
          simp [ih]
    | _ => simp [Value.goEq] at h
  | array t xs =>
    cases b with
    | array t2 ys =>
      simp only [Value.goEq] at h ⊢
      exact goEqList_right_self xs ys h
    | _ => simp [Value.goEq] at h
  | struct t xs =>
    cases b with
    | struct t2 ys =>
      simp only [Value.goEq] at h ⊢
      exact goEqList_right_self xs ys h
    | _ => simp [Value.goEq] at h
termination_by sizeOf a
theorem goEqList_right_self (xs ys : List Value) (h : Value.goEqList xs ys = true) :
    Value.goEqList ys ys = true := by
  cases xs with
  | nil => cases ys <;> simp [Value.goEqList] at h ⊢
  | cons x xs1 =>
    cases ys with
    | nil => simp [Value.goEqList] at h
    | cons y ys1 =>
      simp only [Value.goEqList, Bool.and_eq_true] at h ⊢
      exact ⟨goEq_right_self x y h.1, goEqList_right_self xs1 ys1 h.2⟩
termination_by sizeOf xs
end

theorem lookupKey_not_self (k : Value) (es : List (Value × Value))
    (h : Value.goEq k k = false) : lookupKey k es = .invalid := by
  rcases lookupKey_cases k es with ⟨hl, _⟩ | ⟨f, _, hg, _⟩
  · exact hl
  · rw [goEq_right_self f.1 k hg] at h
    cases h

theorem lookupKey_self (k x : Value) (es : List (Value × Value))
    (hd : distinctKeys (es.map Prod.fst) = true) (hmem : (k, x) ∈ es)
    (h : Value.goEq k k = true) : lookupKey k es = x := by
  induction es with
  | nil => simp at hmem
  | cons e rest ih =>
    obtain ⟨k1, v1⟩ := e
    simp only [List.map_cons, distinctKeys, Bool.and_eq_true, List.all_eq_true,
      Bool.not_eq_true'] at hd
    rcases List.mem_cons.1 hmem with heq | hin
    · simp only [Prod.mk.injEq] at heq
      rw [← heq.1, ← heq.2]
      simp [lookupKey, h]
    · have hne : Value.goEq k1 k = false :=
        hd.1 k (List.mem_map.2 ⟨(k, x), hin, rfl⟩)
      simp only [lookupKey, hne, Bool.false_eq_true, ↓reduceIte]
      exact ih hd.2 hin

theorem collect_singleton {α β : Type} (body : α → Except Fault (List β)) (x : α) :
    collect body [x] = body x := by
  rw [collect]
  cases body x with
  | error e => rfl
  | ok r => simp [collect]

theorem collect_append {α β : Type} (body : α → Except Fault (List β)) (xs ys : List α) :
    collect body (xs ++ ys) =
      match collect body xs with
      | .error e => .error e
      | .ok r =>
        match collect body ys with
        | .error e => .error e
        | .ok r2 => .ok (r ++ r2) := by
  induction xs with
  | nil =>
    simp only [List.nil_append, collect]
    cases collect body ys <;> simp
  | cons x rest ih =>
    rw [List.cons_append, collect, collect, ih]
    cases body x with
    | error e => rfl
    | ok r =>
      cases collect body rest with
      | error e => rfl
      | ok r1 =>
        cases collect body ys with
        | error e => rfl
        | ok r2 => simp

theorem collect_flatMap {α β γ : Type} (emit : β → Except Fault (List γ))
    (body : α → Except Fault (List γ)) (g : α → List β) (l : List α)
    (h : ∀ x ∈ l, body x = collect emit (g x)) :
    collect body l = collect emit (l.flatMap g) := by
  induction l with
  | nil => rfl
  | cons x rest ih =>
    rw [collect, List.flatMap_cons, collect_append, h x (by simp),
      ih (fun y hy => h y (by simp [hy]))]

theorem collect_map_flatMap {α α2 β γ : Type} (emit : β → Except Fault (List γ))
    (body : α2 → Except Fault (List γ)) (f : α → α2) (g : α → List β) (l : List α)
    (h : ∀ x ∈ l, body (f x) = collect emit (g x)) :
    collect body (l.map f) = collect emit (l.flatMap g) := by
  induction l with
  | nil => rfl
  | cons x rest ih =>
    rw [List.map_cons, collect, List.flatMap_cons, collect_append, h x (by simp),
      ih (fun y hy => h y (by simp [hy]))]

theorem collect_errorChecked (b : Bee) (env : Env) (lg : Lipgloss) (fs : List Failure) :
    (∀ evs, b.report env lg fs = some evs → collect (b.errorChecked env lg) fs = .ok evs) ∧
    (b.report env lg fs = none → collect (b.errorChecked env lg) fs = .error .sliceBounds) := by
  induction fs with
  | nil =>
    constructor
    · intro evs h
      simp only [Bee.report, Option.some.injEq] at h
      rw [← h]
      rfl
    · intro h
      simp [Bee.report] at h
  | cons f rest ih =>
    rw [collect, Bee.report, Bee.errorChecked]
    cases he : b.error env lg f with
    | none => simp
    | some es =>
      cases hr : b.report env lg rest with
      | none => simp [ih.2 hr]
      | some es1 => simp [ih.1 es1 hr]

theorem report_defined (b : Bee) (env : Env) (lg : Lipgloss) (fs : List Failure)
    (ha : 3 ≤ b.cfg.actualTextStyle.maxWidth) (he : 3 ≤ b.cfg.expectedTextStyle.maxWidth) :
    ∃ evs, b.report env lg fs = some evs := by
  induction fs with
  | nil => exact ⟨[], rfl⟩
  | cons f rest ih =>
    obtain ⟨es, h1⟩ := error_defined b env lg f ha he
    obtain ⟨es1, h2⟩ := ih
    exact ⟨es ++ es1, by simp [Bee.report, h1, h2]⟩

theorem depthList_mem (xs : List Value) : ∀ x ∈ xs, x.depth ≤ Value.depthList xs := by
  induction xs with
  | nil => simp
  | cons y rest ih =>
    intro x hx
    simp only [Value.depthList]
    rcases List.mem_cons.1 hx with rfl | hx
    · exact le_max_left _ _
    · exact le_trans (ih x hx) (le_max_right _ _)

theorem depthEntries_mem (es : List (Value × Value)) :
    ∀ e ∈ es, e.2.depth ≤ Value.depthEntries es := by
  induction es with
  | nil => simp
  | cons y rest ih =>
    obtain ⟨k1, v1⟩ := y
    intro e he
    simp only [Value.depthEntries]
    rcases List.mem_cons.1 he with rfl | he
    · exact le_max_left _ _
    · exact le_trans (ih e he) (le_max_right _ _)

theorem lookupKey_wellTyped (kt vt : GoType) (k : Value) (es : List (Value × Value))
    (wes : Value.wellTypedEntries kt vt es = true) :
    (lookupKey k es).depth ≤ Value.depthEntries es ∧
      ((lookupKey k es).IsValid = true → (lookupKey k es).wellTyped = true) := by
  rcases lookupKey_cases k es with ⟨hl, _⟩ | ⟨f, hf, _, hl⟩
  · rw [hl]
    exact ⟨Nat.zero_le _, fun h => by cases h⟩
  · rw [hl]
    exact ⟨depthEntries_mem es f hf, fun _ => (wellTypedEntries_mem kt vt es wes f hf).2.2⟩

theorem checkedMapIndex_ok (t : GoType) (nl : Bool) (es : List (Value × Value)) (k : Value)
    (hk : t.kind = .map) (hv : k.IsValid = true) (hkt : k.goType = t.key) :
    (Value.map t nl es).checkedMapIndex k = .ok (lookupKey k es) := by
  have h1 : (Value.map t nl es).goKind = .map := hk
  have h2 : k.IsValid = true ∧ k.goType = (Value.map t nl es).goType.key := ⟨hv, hkt⟩
  unfold Value.checkedMapIndex
  rw [if_pos h1, if_pos h2]
  rfl

theorem equalsChecked_run (bee : Bee) (env : Env) (lg : Lipgloss) (d : Nat) :
    ∀ (a b : Value) (w : String), a.depth < d →
      (a.IsValid = true → a.wellTyped = true) → (b.IsValid = true → b.wellTyped = true) →
      bee.equalsChecked env lg d a b w =
        collect (bee.errorChecked env lg) (Bee.equals env a b w) := by
  induction d with
  | zero =>
    intro a b w h
    omega
  | succ d ih =>
    intro a b w hd wa wb
    rw [Bee.equalsChecked]
    cases hva : a.IsValid
    · rw [Bee.equals.eq_def]
      cases hvb : b.IsValid <;> simp [hva, hvb, collect_singleton, collect]
    cases hvb : b.IsValid
    · rw [Bee.equals.eq_def]
      simp [hva, hvb, collect_singleton, collect]
    have wa1 := wa hva
    have wb1 := wb hvb
    by_cases ht : a.goType = b.goType
    swap
    · rw [equals_of_type_ne env a b w hva hvb ht]
      simp [Value.checkedType, hva, hvb, ht, collect_singleton]
    have hs := shape_eq_of_type_eq a b wa1 wb1 ht
    cases a with
    | invalid => simp [Value.IsValid] at hva
    | bool t x =>
      cases b with
      | bool t2 y =>
        simp only [Value.goType] at ht
        subst ht
        rw [Bee.equals.eq_def]
        simp only [Value.wellTyped, beq_iff_eq] at wa1
        simp [collect_singleton, collect, Value.IsValid, Value.goType, Value.goKind, Value.checkedType, Value.checkedBool,
          Value.asBool, wa1]
        split_ifs <;> first | rfl | exact (collect_singleton _ _).symm
      | _ => simp [Value.shape] at hs
    | int t x =>
      cases b with
      | int t2 y =>
        simp only [Value.goType] at ht
        subst ht
        rw [Bee.equals.eq_def]
        simp only [Value.wellTyped] at wa1
        cases hk : t.kind <;> simp [intFits, hk] at wa1 <;>
          simp [collect_singleton, collect, Value.IsValid, Value.goType, Value.goKind, Value.checkedType, Value.checkedInt,
            Value.asInt, hk] <;> split_ifs <;> first | rfl | exact (collect_singleton _ _).symm
      | _ => simp [Value.shape] at hs
    | uint t x =>
      cases b with
      | uint t2 y =>
        simp only [Value.goType] at ht
        subst ht
        rw [Bee.equals.eq_def]
        simp only [Value.wellTyped] at wa1
        cases hk : t.kind <;> simp [uintFits, hk] at wa1 <;>
          simp [collect_singleton, collect, Value.IsValid, Value.goType, Value.goKind, Value.checkedType, Value.checkedUint,
            Value.asUint, hk] <;> split_ifs <;> first | rfl | exact (collect_singleton _ _).symm
      | _ => simp [Value.shape] at hs
    | uintptr t x =>
      cases b with
      | uintptr t2 y =>
        simp only [Value.goType] at ht
        subst ht
        rw [Bee.equals.eq_def]
        simp only [Value.wellTyped, Bool.and_eq_true, beq_iff_eq] at wa1
        simp [collect_singleton, collect, Value.IsValid, Value.goType, Value.goKind, Value.checkedType, wa1.1]
      | _ => simp [Value.shape] at hs
    | float t x =>
      cases b with
      | float t2 y =>
        simp only [Value.goType] at ht
        subst ht
        rw [Bee.equals.eq_def]
        simp only [Value.wellTyped, Bool.and_eq_true, beq_iff_eq, Bool.or_eq_true] at wa1
        rcases wa1.1 with hk | hk <;>
          simp [collect_singleton, collect, Value.IsValid, Value.goType, Value.goKind, Value.checkedType,
            Value.checkedFloat, Value.asFloat, hk] <;> split_ifs <;> first | rfl | exact (collect_singleton _ _).symm
      | _ => simp [Value.shape] at hs
    | complex t re im =>
      cases b with
      | complex t2 re2 im2 =>
        simp only [Value.goType] at ht
        subst ht
        rw [Bee.equals.eq_def]
        simp only [Value.wellTyped, Bool.and_eq_true, beq_iff_eq, Bool.or_eq_true] at wa1
        rcases wa1.1.1 with hk | hk <;>
          simp [collect_singleton, collect, Value.IsValid, Value.goType, Value.goKind, Value.checkedType,
            Value.checkedComplex, Value.asComplex, hk] <;> split_ifs <;> first | rfl | exact (collect_singleton _ _).symm
      | _ => simp [Value.shape] at hs
    | string t x =>
      cases b with
      | string t2 y =>
        simp only [Value.goType] at ht
        subst ht
        rw [Bee.equals.eq_def]
        simp only [Value.wellTyped, beq_iff_eq] at wa1
        simp [collect_singleton, collect, Value.IsValid, Value.goType, Value.goKind, Value.checkedType,
          Value.asString, wa1]
        split_ifs <;> first | rfl | exact (collect_singleton _ _).symm
      | _ => simp [Value.shape] at hs
    | chan t x =>
      cases b with
      | chan t2 y =>
        simp only [Value.goType] at ht
        subst ht
        rw [Bee.equals.eq_def]
        simp only [Value.wellTyped, beq_iff_eq] at wa1
        simp [collect_singleton, collect, Value.IsValid, Value.goType, Value.goKind, Value.checkedType, wa1]
      | _ => simp [Value.shape] at hs
    | func t x =>
      cases b with
      | func t2 y =>
        simp only [Value.goType] at ht
        subst ht
        rw [Bee.equals.eq_def]
        simp only [Value.wellTyped, beq_iff_eq] at wa1
        simp [collect_singleton, collect, Value.IsValid, Value.goType, Value.goKind, Value.checkedType, wa1]
      | _ => simp [Value.shape] at hs
    | rawPointer t x =>
      cases b with
      | rawPointer t2 y =>
        simp only [Value.goType] at ht
        subst ht
        rw [Bee.equals.eq_def]
        simp only [Value.wellTyped, beq_iff_eq] at wa1
        simp [collect_singleton, collect, Value.IsValid, Value.goType, Value.goKind, Value.checkedType, wa1]
      | _ => simp [Value.shape] at hs
    | ptr t x e =>
      cases b with
      | ptr t2 y e2 =>
        simp only [Value.goType] at ht
        subst ht
        rw [Bee.equals.eq_def]
        simp only [Value.wellTyped, Bool.and_eq_true, beq_iff_eq] at wa1
        simp [collect_singleton, collect, Value.IsValid, Value.goType, Value.goKind, Value.checkedType, wa1.1]
      | _ => simp [Value.shape] at hs
    | iface t e =>
      cases b with
      | iface t2 e2 =>
        simp only [Value.goType] at ht
        subst ht
        rw [Bee.equals.eq_def]
        simp only [Value.wellTyped, Bool.and_eq_true, beq_iff_eq, Bool.or_eq_true,
          Bool.not_eq_true', bne_iff_ne] at wa1 wb1
        simp only [Value.depth] at hd
        simp only [Value.IsValid, Value.goType, Value.goKind, Value.checkedType,
          Value.checkedElem, Value.Elem, wa1.1, Bool.not_true, Bool.or_self,
          Bool.false_eq_true, ↓reduceIte, ne_eq, not_true_eq_false, true_or]
        refine ih e e2 w (by omega) (fun hv => ?_) (fun hv => ?_)
        · rcases wa1.2 with h1 | h1
          · rw [hv] at h1
            cases h1
          · exact h1.2
        · rcases wb1.2 with h1 | h1
          · rw [hv] at h1
            cases h1
          · exact h1.2
      | _ => simp [Value.shape] at hs
    | array t xs =>
      cases b with
      | array t2 ys =>
        simp only [Value.goType] at ht
        subst ht
        rw [Bee.equals.eq_def]
        simp only [Value.wellTyped, Bool.and_eq_true, beq_iff_eq] at wa1 wb1
        simp only [Value.depth] at hd
        have hlen : xs.length = ys.length := by rw [wa1.1.2, wb1.1.2]
        simp only [Value.IsValid, Value.goType, Value.goKind, Value.checkedType,
          Value.checkedLen, Value.Len, hlen, wa1.1.1, Bool.not_true, Bool.or_self,
          Bool.false_eq_true, ↓reduceIte, ne_eq, not_true_eq_false, true_or]
        rw [equalsIndex_eq_flatMap, hlen]
        refine collect_flatMap _ _ _ _ ?_
        intro i hi
        have hi1 : i < ys.length := List.mem_range.1 hi
        have hi2 : i < xs.length := by omega
        have hx := getD_mem xs i hi2
        have hy := getD_mem ys i hi1
        simp only [Value.checkedIndex, Value.goKind, Value.goType, Value.Len, Value.Index,
          wa1.1.1, hi1, hi2, true_or, ↓reduceIte, Nat.zero_add]
        exact ih _ _ _ (by have := depthList_mem xs _ hx; omega)
          (fun _ => (wellTypedList_mem _ xs wa1.2 _ hx).2)
          (fun _ => (wellTypedList_mem _ ys wb1.2 _ hy).2)
      | _ => simp [Value.shape] at hs
    | slice t nl xs =>
      cases b with
      | slice t2 nl2 ys =>
        simp only [Value.goType] at ht
        subst ht
        rw [Bee.equals.eq_def]
        simp only [Value.wellTyped, Bool.and_eq_true, beq_iff_eq] at wa1 wb1
        simp only [Value.depth] at hd
        by_cases hlen : xs.length = ys.length
        swap
        · simp [collect_singleton, collect, Value.IsValid, Value.goType, Value.goKind, Value.checkedType,
            Value.checkedLen, Value.Len, hlen, wa1.1.1]
        simp only [Value.IsValid, Value.goType, Value.goKind, Value.checkedType,
          Value.checkedLen, Value.Len, hlen, wa1.1.1, Bool.not_true, Bool.or_self,
          Bool.false_eq_true, ↓reduceIte, ne_eq, not_true_eq_false, true_or, or_true]
        rw [equalsIndex_eq_flatMap, hlen]
        refine collect_flatMap _ _ _ _ ?_
        intro i hi
        have hi1 : i < ys.length := List.mem_range.1 hi
        have hi2 : i < xs.length := by omega
        have hx := getD_mem xs i hi2
        have hy := getD_mem ys i hi1
        simp only [Value.checkedIndex, Value.goKind, Value.goType, Value.Len, Value.Index,
          wa1.1.1, hi1, hi2, true_or, or_true, ↓reduceIte, Nat.zero_add]
        exact ih _ _ _ (by have := depthList_mem xs _ hx; omega)
          (fun _ => (wellTypedList_mem _ xs wa1.2 _ hx).2)
          (fun _ => (wellTypedList_mem _ ys wb1.2 _ hy).2)
      | _ => simp [Value.shape] at hs
    | struct t xs =>
      cases b with
      | struct t2 ys =>
        simp only [Value.goType] at ht
        subst ht
        rw [Bee.equals.eq_def]
        simp only [Value.wellTyped, Bool.and_eq_true, beq_iff_eq] at wa1 wb1
        simp only [Value.depth] at hd
        have hlx := wellTypedFields_length _ xs wa1.2
        have hly := wellTypedFields_length _ ys wb1.2
        simp only [Value.IsValid, Value.goType, Value.goKind, Value.checkedType,
          Value.checkedNumField, wa1.1, Bool.not_true, Bool.or_self,
          Bool.false_eq_true, ↓reduceIte, ne_eq, not_true_eq_false]
        rw [equalsFields_eq_flatMap, hlx]
        refine collect_flatMap _ _ _ _ ?_
        intro i hi
        have hi0 : i < t.NumField := List.mem_range.1 hi
        have hi1 : i < ys.length := by rw [hly]; exact hi0
        have hi2 : i < xs.length := by rw [hlx]; exact hi0
        have hx := getD_mem xs i hi2
        have hy := getD_mem ys i hi1
        simp only [Value.checkedField, GoType.checkedFieldName, Value.goKind, Value.goType,
          Value.Field, wa1.1, hi0, ↓reduceIte, Nat.zero_add]
        exact ih _ _ _ (by have := depthList_mem xs _ hx; omega)
          (fun _ => wellTypedFields_mem _ xs wa1.2 _ hx)
          (fun _ => wellTypedFields_mem _ ys wb1.2 _ hy)
      | _ => simp [Value.shape] at hs
    | map t nl es =>
      cases b with
      | map t2 nl2 fs =>
        simp only [Value.goType] at ht
        subst ht
        rw [Bee.equals.eq_def]
        simp only [Value.wellTyped, Bool.and_eq_true, beq_iff_eq] at wa1 wb1
        simp only [Value.depth] at hd
        by_cases hlen : es.length = fs.length
        swap
        · simp [collect_singleton, collect, Value.IsValid, Value.goType, Value.goKind, Value.checkedType,
            Value.checkedLen, Value.Len, hlen, wa1.1.1.1]
        simp only [Value.IsValid, Value.goType, Value.goKind, Value.checkedType,
          Value.checkedLen, Value.checkedMapKeys, Value.MapKeys, Value.Len, hlen, wa1.1.1.1,
          Bool.not_true, Bool.or_self,
          Bool.false_eq_true, ↓reduceIte, ne_eq, not_true_eq_false, true_or, or_true]
        rw [equalsKeys_eq_flatMap]
        refine collect_map_flatMap _ _ _ _ _ ?_
        intro e he
        have hk1 := wellTypedEntries_mem _ _ es wa1.1.2 e he
        have hk2 := wellTypedEntries_types _ _ es wa1.1.2 e he
        have hl1 := lookupKey_wellTyped _ _ e.1 es wa1.1.2
        have hl2 := lookupKey_wellTyped _ _ e.1 fs wb1.1.2
        simp only [checkedMapIndex_ok t _ _ e.1 wa1.1.1.1 (wellTyped_valid _ hk1.1) hk2.1]
        rw [ih _ _ _ (by omega) hl1.2 hl2.2]
        have hmi : (Value.map t nl2 fs).MapIndex e.1 = lookupKey e.1 fs := rfl
        rw [hmi]
        cases hself : Value.goEq e.1 e.1
        · rw [lookupKey_not_self e.1 es hself, lookupKey_not_self e.1 fs hself,
            Bee.equals.eq_def]
          simp [Value.IsValid]
        · rw [lookupKey_self e.1 e.2 es wa1.2 he hself]
          simp
      | _ => simp [Value.shape] at hs


/-- Counterexample to C29: in a context built with `ColumnWidth(2)`, `equals` on
`[]int{1, 100}` and `[]int{2, 200}`, two well-formed values one level deep,
ends with a run-time error: the second failure has the text `100`, longer
than 2, for which the slice bound of `wrap` is below zero. -/
theorem C29_counterexample :
    (Value.slice (.slice tInt) false [.int tInt 1, .int tInt 100]).wellTyped = true ∧
    (Value.slice (.slice tInt) false [.int tInt 2, .int tInt 200]).wellTyped = true ∧
    (Value.slice (.slice tInt) false [.int tInt 1, .int tInt 100]).depth < 2 ∧
    wrap "100" 2 = none ∧
    (New false [ColumnWidth 2]).equalsChecked sampleEnv sampleLipgloss 2
        (.slice (.slice tInt) false [.int tInt 1, .int tInt 100])
        (.slice (.slice tInt) false [.int tInt 2, .int tInt 200]) "" =
      .error .sliceBounds := by
  refine ⟨by decide, by decide, by decide, by decide, rfl⟩

/-- C29 (amended): for every two values, each of them absent or well-formed (and
finite, as every value is), the method `equals` with the run-time checks of
`reflect` and of `wrap`, allowed one call and as many calls nested in it as
the actual value is deep, never calls a method of `reflect` on the zero Value
or on a value of a kind it does not accept and never gives the expected value
an index, a field number or a key out of range: its one possible run-time
error is the slice bound of `wrap`, when a failure cannot be rendered. In a
context whose two inline widths are at least 3, as the default 60 is, it ends
without a run-time error, and the calls of `tb.Errorf` and `tb.Logf` it has
made are those of reporting the failures of `equals`. -/
theorem C29_traversal_total (b : Bee) (env : Env) (lg : Lipgloss) (a e : Value) (what : String)
    (wa : a.IsValid = true → a.wellTyped = true) (we : e.IsValid = true → e.wellTyped = true)
    (d : Nat) (hd : a.depth < d) :
    (∀ evs, b.report env lg (Bee.equals env a e what) = some evs →
      b.equalsChecked env lg d a e what = .ok evs) ∧
    (b.report env lg (Bee.equals env a e what) = none →
      b.equalsChecked env lg d a e what = .error .sliceBounds) ∧
    (3 ≤ b.cfg.actualTextStyle.maxWidth → 3 ≤ b.cfg.expectedTextStyle.maxWidth →
      ∃ evs, b.report env lg (Bee.equals env a e what) = some evs ∧
        b.equalsChecked env lg d a e what = .ok evs) := by
  have hrun := equalsChecked_run b env lg d a e what hd wa we
  have hc := collect_errorChecked b env lg (Bee.equals env a e what)
  refine ⟨?_, ?_, ?_⟩
  · intro evs h
    rw [hrun]
    exact hc.1 evs h
  · intro h
    rw [hrun]
    exact hc.2 h
  · intro h1 h2
    obtain ⟨evs, h⟩ := report_defined b env lg (Bee.equals env a e what) h1 h2
    exact ⟨evs, h, by rw [hrun]; exact hc.1 evs h⟩

/-- Witness of C29 (amended): two values `testStruct`, two levels deep, that
differ in the field `a` and in the slice `b`, in a context without colour of
the default width 60: three nested calls are enough and two are not; an
index one past the end of a slice is a run-time error of the checked `Index`,
and `Bool` one on an integer. -/
theorem C29_witness :
    (((Value.struct tTestStruct (testFields 1 [1, 2])).IsValid = true →
        (Value.struct tTestStruct (testFields 1 [1, 2])).wellTyped = true) ∧
      ((Value.struct tTestStruct (testFields 2 [1, 3])).IsValid = true →
        (Value.struct tTestStruct (testFields 2 [1, 3])).wellTyped = true) ∧
      (Value.struct tTestStruct (testFields 1 [1, 2])).depth < 3 ∧
      3 ≤ (New false [NoColor]).cfg.actualTextStyle.maxWidth ∧
      3 ≤ (New false [NoColor]).cfg.expectedTextStyle.maxWidth) ∧
    (∃ evs, (New false [NoColor]).report sampleEnv sampleLipgloss
          (Bee.equals sampleEnv (.struct tTestStruct (testFields 1 [1, 2]))
            (.struct tTestStruct (testFields 2 [1, 3])) "") = some evs ∧
        (New false [NoColor]).equalsChecked sampleEnv sampleLipgloss 3
          (.struct tTestStruct (testFields 1 [1, 2]))
          (.struct tTestStruct (testFields 2 [1, 3])) "" = .ok evs) ∧
    (New false [NoColor]).equalsChecked sampleEnv sampleLipgloss 3
        (.struct tTestStruct (testFields 1 [1, 2]))
        (.struct tTestStruct (testFields 2 [1, 3])) "" =
      .ok [Event.errorf "1 != 2 (.a)", Event.errorf "2 != 3 (.b[1])"] ∧
    (New false [NoColor]).equalsChecked sampleEnv sampleLipgloss 2
        (.struct tTestStruct (testFields 1 [1, 2]))
        (.struct tTestStruct (testFields 2 [1, 3])) "" = .error .tooDeep ∧
    (Value.slice (.slice tInt) false [.int tInt 1]).checkedIndex 1 = .error .outOfRange ∧
    (Value.int tInt 1).checkedBool = .error .wrongKind :=
  ⟨⟨by decide, by decide, by decide, by decide, by decide⟩,
    (C29_traversal_total (New false [NoColor]) sampleEnv sampleLipgloss _ _ ""
      (by decide) (by decide) 3 (by decide)).2.2 (by decide) (by decide),
    rfl, rfl, rfl, rfl⟩

/-- C31: for every value whose kind is boolean, a signed or unsigned integer
kind (`uintptr` among them), a float or complex kind, text, record or array,
the zero value of the kind among them, `Nil` reports a failure, exactly one,
with actual leaf the value and expected leaf nil, and `NotNil` reports
none. -/
theorem C31_never_nil (v : Value) (hv : v.IsValid = true)
    (hk : v.goKind.shape = .bool ∨ v.goKind.shape = .int ∨ v.goKind.shape = .uint ∨
      v.goKind.shape = .uintptr ∨ v.goKind.shape = .float64 ∨ v.goKind.shape = .complex128 ∨
      v.goKind.shape = .string ∨ v.goKind.shape = .struct ∨ v.goKind.shape = .array) :
    Bee.Nil v = [Bee.errorNotEquals (.any v) (.any .invalid) ""] ∧ Bee.NotNil v = [] := by
  have h : isNil v = false := by
    unfold isNil
    simp only [hv, Bool.not_true, Bool.false_eq_true, ↓reduceIte]
    generalize v.goKind = k at hk
    cases k <;> simp [Kind.shape] at hk ⊢
  simp [Bee.Nil, Bee.NotNil, h]

/-- Witness of C31: the zero values `0`, `false`, the empty text, `[2]int` of
zeros and the record `testStruct` of zero values. -/
theorem C31_witness :
    ((Value.int tInt 0).IsValid = true ∧
      ((Value.int tInt 0).goKind.shape = .bool ∨ (Value.int tInt 0).goKind.shape = .int ∨
        (Value.int tInt 0).goKind.shape = .uint ∨ (Value.int tInt 0).goKind.shape = .uintptr ∨
        (Value.int tInt 0).goKind.shape = .float64 ∨
        (Value.int tInt 0).goKind.shape = .complex128 ∨
        (Value.int tInt 0).goKind.shape = .string ∨ (Value.int tInt 0).goKind.shape = .struct ∨
        (Value.int tInt 0).goKind.shape = .array)) ∧
    (Bee.Nil (.int tInt 0) = [Bee.errorNotEquals (.any (.int tInt 0)) (.any .invalid) ""] ∧
      Bee.NotNil (.int tInt 0) = []) ∧
    (Bee.Nil (.bool (.basic .bool) false) =
        [Bee.errorNotEquals (.any (.bool (.basic .bool) false)) (.any .invalid) ""] ∧
      Bee.NotNil (.bool (.basic .bool) false) = []) ∧
    (Bee.Nil (.string tString "") =
        [Bee.errorNotEquals (.any (.string tString "")) (.any .invalid) ""] ∧
      Bee.NotNil (.string tString "") = []) ∧
    (Bee.Nil (.array (.array 2 tInt) [.int tInt 0, .int tInt 0]) =
        [Bee.errorNotEquals (.any (.array (.array 2 tInt) [.int tInt 0, .int tInt 0]))
          (.any .invalid) ""] ∧
      Bee.NotNil (.array (.array 2 tInt) [.int tInt 0, .int tInt 0]) = []) ∧
    (New false [NoColor]).report sampleEnv sampleLipgloss (Bee.Nil (.int tInt 0)) =
      some [Event.errorf "0 != <nil>"] :=
  ⟨⟨by decide, by decide⟩, C31_never_nil (.int tInt 0) (by decide) (by decide),
    C31_never_nil (.bool (.basic .bool) false) (by decide) (by decide),
    C31_never_nil (.string tString "") (by decide) (by decide),
    C31_never_nil (.array (.array 2 tInt) [.int tInt 0, .int tInt 0]) (by decide) (by decide),
    rfl⟩

theorem equals_iface (env : Env) (t : GoType) (e e2 : Value) (what : String) :
    Bee.equals env (.iface t e) (.iface t e2) what = Bee.equals env e e2 what := by
  rw [Bee.equals.eq_def]
  simp [Value.IsValid, Value.goType, Value.Elem]

theorem equals_invalid_left (env : Env) (b : Value) (what : String) (hb : b.IsValid = true) :
    Bee.equals env .invalid b what =
      [Bee.errorNotEquals (.value .invalid) (.value b) what] := by
  rw [Bee.equals.eq_def]
  simp [hb, show Value.IsValid .invalid = false from rfl]

/-- C32: for two values of one interface type, as the elements of a sequence,
the values of a mapping and the fields of a record of that type are,
`equals` compares the dynamic values held by the two interfaces, at the same
path; two nil interfaces give no failure, a nil against a non-nil interface
gives exactly one failure at that path, and two dynamic values of different
types exactly one failure at that path whose leaves are the two types. So it
is for the one element of a slice (path `[0]`), the value under the one text
key `k` of a mapping (path `[k]`) and the one field of a record. -/
theorem C32_interface_transparent (env : Env) (t : GoType) (e e2 : Value) (what : String) :
    Bee.equals env (.iface t e) (.iface t e2) what = Bee.equals env e e2 what ∧
    Bee.equals env (.iface t .invalid) (.iface t .invalid) what = [] ∧
    (e.IsValid = true →
      Bee.equals env (.iface t .invalid) (.iface t e) what =
        [Bee.errorNotEquals (.value .invalid) (.value e) what] ∧
      Bee.equals env (.iface t e) (.iface t .invalid) what =
        [Bee.errorNotEquals (.value e) (.value .invalid) what]) ∧
    (e.IsValid = true → e2.IsValid = true → e.goType ≠ e2.goType →
      Bee.equals env (.iface t e) (.iface t e2) what =
        [Bee.errorNotEquals (.type e.goType) (.type e2.goType) what]) ∧
    (∀ ts n m, Bee.equals env (.slice ts n [.iface t e]) (.slice ts m [.iface t e2]) what =
      Bee.equals env e e2 (what ++ "[" ++ "0" ++ "]")) ∧
    (∀ tm n m kt k,
      Bee.equals env (.map tm n [(.string kt k, .iface t e)])
          (.map tm m [(.string kt k, .iface t e2)]) what =
        Bee.equals env e e2 (what ++ "[" ++ k ++ "]")) ∧
    (∀ ts, Bee.equals env (.struct ts [.iface t e]) (.struct ts [.iface t e2]) what =
      Bee.equals env e e2 (what ++ "." ++ ts.FieldName 0)) := by
  refine ⟨equals_iface env t e e2 what, ?_, ?_, ?_, ?_, ?_, ?_⟩
  · rw [equals_iface, Bee.equals.eq_def]
    simp [Value.IsValid]
  · intro he
    rw [equals_iface, equals_iface]
    exact ⟨equals_invalid_left env e what he, equals_invalid_right env e what he⟩
  · intro he he2 hne
    rw [equals_iface]
    exact equals_of_type_ne env e e2 what he he2 hne
  · intro ts n m
    rw [Bee.equals.eq_def]
    simp only [Value.IsValid, Value.goType, Value.Len, List.length_singleton, Bool.not_true,
      Bool.or_self, Bool.false_eq_true, ↓reduceIte, ne_eq, not_true_eq_false]
    simp only [Bee.equalsIndex, Value.Index, List.getD_cons_zero, List.append_nil]
    exact equals_iface env t e e2 _
  · intro tm n m kt k
    rw [Bee.equals.eq_def]
    simp only [Value.IsValid, Value.goType, Value.Len, List.length_singleton, Bool.not_true,
      Bool.or_self, Bool.false_eq_true, ↓reduceIte, ne_eq, not_true_eq_false]
    simp only [Bee.equalsKeys, Value.MapIndex, lookupKey, Value.goEq, beq_self_eq_true,
      ↓reduceIte, List.append_nil, printValue]
    exact equals_iface env t e e2 _
  · intro ts
    rw [Bee.equals.eq_def]
    simp only [Value.IsValid, Value.goType, Bool.not_true,
      Bool.or_self, Bool.false_eq_true, ↓reduceIte, ne_eq, not_true_eq_false]
    simp only [Bee.equalsFields, Value.Field, List.getD_cons_zero, List.append_nil]
    exact equals_iface env t e e2 _

/-- Witness of C32: `[]any{1}` against `[]any{"a"}`, with the message
`int != string ([0])`, and `[]any{nil}` against `[]any{nil}`. -/
theorem C32_witness :
    ((Value.int tInt 1).IsValid = true ∧ (Value.string tString "a").IsValid = true ∧
      (Value.int tInt 1).goType ≠ (Value.string tString "a").goType) ∧
    Bee.equals sampleEnv (.iface (.iface "") (.int tInt 1)) (.iface (.iface "") (.string tString "a"))
        "[0]" =
      [Bee.errorNotEquals (.type (Value.int tInt 1).goType)
        (.type (Value.string tString "a").goType) "[0]"] ∧
    Bee.Equal sampleEnv (.slice (.slice (.iface "")) false [.iface (.iface "") (.int tInt 1)])
        (.slice (.slice (.iface "")) false [.iface (.iface "") (.string tString "a")]) =
      [Bee.errorNotEquals (.type tInt) (.type tString) "[0]"] ∧
    (New false [NoColor]).report sampleEnv sampleLipgloss
        [Bee.errorNotEquals (.type tInt) (.type tString) "[0]"] =
      some [Event.errorf "int != string ([0])"] ∧
    Bee.Equal sampleEnv (.slice (.slice (.iface "")) false [.iface (.iface "") .invalid])
        (.slice (.slice (.iface "")) false [.iface (.iface "") .invalid]) = [] :=
  ⟨⟨by decide, by decide, by decide⟩,
    (C32_interface_transparent sampleEnv (.iface "") (.int tInt 1) (.string tString "a")
      "[0]").2.2.2.1 (by decide) (by decide) (by decide),
    rfl, rfl, rfl⟩

/-- C33: the failures that `equals` submits for a mapping as the actual value,
against a mapping or any other value that is not absent, do not depend on
the order in which the keys of the actual mapping are visited but for their
own order: visiting the entries in another order gives the same failures
(leaves, paths and relation) the same number of times, and a failure is
reported for one order if and only if one is reported for the other. -/
theorem C33_order_independent (env : Env) (t : GoType) (n : Bool)
    (es es2 : List (Value × Value)) (b : Value) (what : String) (h : List.Perm es es2)
    (hb : b.IsValid = true) :
    List.Perm (Bee.equals env (.map t n es) b what) (Bee.equals env (.map t n es2) b what) ∧
    List.Perm (Bee.Equal env (.map t n es) b) (Bee.Equal env (.map t n es2) b) ∧
    (Bee.Equal env (.map t n es) b = [] ↔ Bee.Equal env (.map t n es2) b = []) := by
  have hp : ∀ w, List.Perm (Bee.equals env (.map t n es) b w)
      (Bee.equals env (.map t n es2) b w) := by
    intro w
    have ha : ∀ l, (Value.map t n l).IsValid = true := fun _ => rfl
    rw [Bee.equals.eq_def, Bee.equals.eq_def]
    simp only [ha, hb, Value.goType, h.length_eq, equalsKeys_eq_flatMap,
      Bool.not_true, Bool.or_self, Bool.false_eq_true, ↓reduceIte]
    split_ifs
    all_goals first
      | exact List.Perm.refl _
      | exact List.Perm.flatMap_right _ h
  refine ⟨hp what, hp "", ?_⟩
  unfold Bee.Equal
  exact ⟨fun h1 => List.Perm.eq_nil ((hp "").symm.trans (h1 ▸ List.Perm.refl _)),
    fun h1 => List.Perm.eq_nil ((hp "").trans (h1 ▸ List.Perm.refl _))⟩

/-- Witness of C33: `map[string]int` with `a: 1, b: 2`, visited in the two
orders, against `a: 3, b: 4`. -/
theorem C33_witness :
    (List.Perm [(Value.string tString "a", Value.int tInt 1), (.string tString "b", .int tInt 2)]
        [(Value.string tString "b", Value.int tInt 2), (.string tString "a", .int tInt 1)] ∧
      (Value.map (.map tString tInt) false
        [(.string tString "a", .int tInt 3), (.string tString "b", .int tInt 4)]).IsValid = true) ∧
    Bee.Equal sampleEnv
        (.map (.map tString tInt) false
          [(.string tString "a", .int tInt 1), (.string tString "b", .int tInt 2)])
        (.map (.map tString tInt) false
          [(.string tString "a", .int tInt 3), (.string tString "b", .int tInt 4)]) =
      [Bee.errorNotEquals (.int64 1) (.int64 3) "[a]",
        Bee.errorNotEquals (.int64 2) (.int64 4) "[b]"] ∧
    Bee.Equal sampleEnv
        (.map (.map tString tInt) false
          [(.string tString "b", .int tInt 2), (.string tString "a", .int tInt 1)])
        (.map (.map tString tInt) false
          [(.string tString "a", .int tInt 3), (.string tString "b", .int tInt 4)]) =
      [Bee.errorNotEquals (.int64 2) (.int64 4) "[b]",
        Bee.errorNotEquals (.int64 1) (.int64 3) "[a]"] ∧
    List.Perm
      (Bee.Equal sampleEnv
        (.map (.map tString tInt) false
          [(.string tString "a", .int tInt 1), (.string tString "b", .int tInt 2)])
        (.map (.map tString tInt) false
          [(.string tString "a", .int tInt 3), (.string tString "b", .int tInt 4)]))
      (Bee.Equal sampleEnv
        (.map (.map tString tInt) false
          [(.string tString "b", .int tInt 2), (.string tString "a", .int tInt 1)])
        (.map (.map tString tInt) false
          [(.string tString "a", .int tInt 3), (.string tString "b", .int tInt 4)])) :=
  ⟨⟨List.Perm.swap _ _ _, rfl⟩, rfl, rfl,
    (C33_order_independent sampleEnv (.map tString tInt) false _ _
      (.map (.map tString tInt) false
        [(.string tString "a", .int tInt 3), (.string tString "b", .int tInt 4)]) ""
      (List.Perm.swap _ _ _) rfl).2.1⟩

theorem filter_no_newline (s : String) :
    (String.mk (s.data.filter (fun c => c.toNat != 10))).data.all (fun c => c.toNat != 10) =
      true := by
  rw [List.all_eq_true]
  intro c hc
  exact (List.mem_filter.1 hc).2

theorem take_dots_length (t : String) (n : Nat) (h : n ≤ t.length) :
    (t.take n ++ "...").length = n + 3 := by
  rw [String.length_append]
  have h1 : (t.take n).length = n := by
    simp only [String.length, String.data_take, List.length_take]
    simp only [String.length] at h
    omega
  rw [h1]
  rfl

/-- C34: for every text `s` and every width `w` of at least 3, `wrap(s, w)` has
a result, which holds no newline and is not longer than `w`; when the text
without its newlines is longer than `w`, so that it is cut, the result has
the length `w` exactly, and otherwise it is that text. For a width below 3
and a text that is longer without its newlines, the slice bound `w - 3` is
below zero and `wrap` has no result. -/
theorem C34_wrap_safe (s : String) (w : Int) (hw : 3 ≤ w) :
    (∃ r, wrap s w = some r ∧ r.data.all (fun c => c.toNat != 10) = true ∧
      (r.length : Int) ≤ w ∧
      (w < ((String.mk (s.data.filter (fun c => c.toNat != 10))).length : Int) →
        (r.length : Int) = w) ∧
      (((String.mk (s.data.filter (fun c => c.toNat != 10))).length : Int) ≤ w →
        r = String.mk (s.data.filter (fun c => c.toNat != 10)))) ∧
    (∀ (s2 : String) (w2 : Int), w2 < 3 →
      w2 < ((String.mk (s2.data.filter (fun c => c.toNat != 10))).length : Int) →
      wrap s2 w2 = none) := by
  constructor
  · by_cases h : w < ((String.mk (s.data.filter (fun c => c.toNat != 10))).length : Int)
    · refine ⟨_, wrap_cut s w h hw, ?_, ?_, ?_, ?_⟩
      · rw [List.all_eq_true]
        intro c hc
        simp only [String.data_append, String.data_take, List.mem_append] at hc
        rcases hc with hc | hc
        · exact (List.mem_filter.1 (List.mem_of_mem_take hc)).2
        · simp only [List.mem_cons, List.mem_singleton, List.not_mem_nil, or_false,
            or_self] at hc
          rw [hc]
          decide
      · have hl := take_dots_length (String.mk (s.data.filter (fun c => c.toNat != 10)))
          (w - 3).toNat (by omega)
        rw [hl]
        omega
      · intro _
        have hl := take_dots_length (String.mk (s.data.filter (fun c => c.toNat != 10)))
          (w - 3).toNat (by omega)
        rw [hl]
        omega
      · intro h2
        omega
    · have h1 : ((String.mk (s.data.filter (fun c => c.toNat != 10))).length : Int) ≤ w := by
        omega
      refine ⟨_, wrap_fits s w h1, filter_no_newline s, h1, ?_, fun _ => rfl⟩
      intro h2
      omega
  · intro s2 w2 hw2 hlen
    unfold wrap
    have h3 : w2 - 3 < 0 := by omega
    simp only [hlen, ↓reduceIte, h3]

/-- Witness of C34: the width 5 on the text `ab`, a newline, `cdefgh`, which is
cut to `ab...`. -/
theorem C34_witness :
    (3 : Int) ≤ 5 ∧ wrap "ab\ncdefgh" 5 = some "ab..." ∧
    ∃ r, wrap "ab\ncdefgh" 5 = some r ∧ r.data.all (fun c => c.toNat != 10) = true ∧
      (r.length : Int) ≤ 5 ∧
      ((5 : Int) < ((String.mk ("ab\ncdefgh".data.filter (fun c => c.toNat != 10))).length : Int) →
        (r.length : Int) = 5) ∧
      (((String.mk ("ab\ncdefgh".data.filter (fun c => c.toNat != 10))).length : Int) ≤ 5 →
        r = String.mk ("ab\ncdefgh".data.filter (fun c => c.toNat != 10))) :=
  ⟨by decide, by decide, (C34_wrap_safe "ab\ncdefgh" 5 (by decide)).1⟩

/-- C35: each option changes only its own fields: `WhatColor` only the colour of
the what label; `ExpectedColor` only the colour of the expected text and the
expected column; `ActualColor` only the colour of the actual text and the
actual column; `ColumnWidth` no colour (and nothing of the what label);
`NoColor` no width and no padding. `ColumnWidth` commutes with every colour
option, `NoColor` among them, and `WhatColor`, `ExpectedColor` and
`ActualColor` commute with one another. -/
theorem C35_option_frames (cfg : config) (w : Int) (r g b r2 g2 b2 : Nat) :
    (WhatColor r g b cfg =
      { cfg with whatTextStyle := { cfg.whatTextStyle with foreground := some (rgb r g b) } }) ∧
    ((WhatColor r g b cfg).expectedTextStyle = cfg.expectedTextStyle ∧
      (WhatColor r g b cfg).actualTextStyle = cfg.actualTextStyle ∧
      (WhatColor r g b cfg).expectedColumnStyle = cfg.expectedColumnStyle ∧
      (WhatColor r g b cfg).actualColumnStyle = cfg.actualColumnStyle ∧
      (WhatColor r g b cfg).whatTextStyle.maxWidth = cfg.whatTextStyle.maxWidth ∧
      (WhatColor r g b cfg).whatTextStyle.width = cfg.whatTextStyle.width ∧
      (WhatColor r g b cfg).whatTextStyle.paddingLeft = cfg.whatTextStyle.paddingLeft ∧
      (WhatColor r g b cfg).whatTextStyle.paddingRight = cfg.whatTextStyle.paddingRight) ∧
    ((ExpectedColor r g b cfg).whatTextStyle = cfg.whatTextStyle ∧
      (ExpectedColor r g b cfg).actualTextStyle = cfg.actualTextStyle ∧
      (ExpectedColor r g b cfg).actualColumnStyle = cfg.actualColumnStyle ∧
      (ExpectedColor r g b cfg).expectedTextStyle =
        { cfg.expectedTextStyle with foreground := some (rgb r g b) } ∧
      (ExpectedColor r g b cfg).expectedColumnStyle =
        { cfg.expectedColumnStyle with foreground := some (rgb r g b) }) ∧
    ((ActualColor r g b cfg).whatTextStyle = cfg.whatTextStyle ∧
      (ActualColor r g b cfg).expectedTextStyle = cfg.expectedTextStyle ∧
      (ActualColor r g b cfg).expectedColumnStyle = cfg.expectedColumnStyle ∧
      (ActualColor r g b cfg).actualTextStyle =
        { cfg.actualTextStyle with foreground := some (rgb r g b) } ∧
      (ActualColor r g b cfg).actualColumnStyle =
        { cfg.actualColumnStyle with foreground := some (rgb r g b) }) ∧
    ((ColumnWidth w cfg).whatTextStyle = cfg.whatTextStyle ∧
      (ColumnWidth w cfg).expectedTextStyle.foreground = cfg.expectedTextStyle.foreground ∧
      (ColumnWidth w cfg).actualTextStyle.foreground = cfg.actualTextStyle.foreground ∧
      (ColumnWidth w cfg).expectedColumnStyle.foreground = cfg.expectedColumnStyle.foreground ∧
      (ColumnWidth w cfg).actualColumnStyle.foreground = cfg.actualColumnStyle.foreground) ∧
    ((NoColor cfg).whatTextStyle = { cfg.whatTextStyle with foreground := none } ∧
      (NoColor cfg).expectedTextStyle = { cfg.expectedTextStyle with foreground := none } ∧
      (NoColor cfg).actualTextStyle = { cfg.actualTextStyle with foreground := none } ∧
      (NoColor cfg).expectedColumnStyle = { cfg.expectedColumnStyle with foreground := none } ∧
      (NoColor cfg).actualColumnStyle = { cfg.actualColumnStyle with foreground := none }) ∧
    (ColumnWidth w (WhatColor r g b cfg) = WhatColor r g b (ColumnWidth w cfg) ∧
      ColumnWidth w (ExpectedColor r g b cfg) = ExpectedColor r g b (ColumnWidth w cfg) ∧
      ColumnWidth w (ActualColor r g b cfg) = ActualColor r g b (ColumnWidth w cfg) ∧
      ColumnWidth w (NoColor cfg) = NoColor (ColumnWidth w cfg)) ∧
    (WhatColor r g b (ExpectedColor r2 g2 b2 cfg) = ExpectedColor r2 g2 b2 (WhatColor r g b cfg) ∧
      WhatColor r g b (ActualColor r2 g2 b2 cfg) = ActualColor r2 g2 b2 (WhatColor r g b cfg) ∧
      ExpectedColor r g b (ActualColor r2 g2 b2 cfg) =
        ActualColor r2 g2 b2 (ExpectedColor r g b cfg)) ∧
    (∀ (nc : Bool) (pre post : List option),
      New nc (pre ++ [ColumnWidth w, WhatColor r g b] ++ post) =
        New nc (pre ++ [WhatColor r g b, ColumnWidth w] ++ post) ∧
      New nc (pre ++ [ExpectedColor r g b, ActualColor r2 g2 b2] ++ post) =
        New nc (pre ++ [ActualColor r2 g2 b2, ExpectedColor r g b] ++ post)) := by
  refine ⟨rfl, ⟨rfl, rfl, rfl, rfl, rfl, rfl, rfl, rfl⟩, ⟨rfl, rfl, rfl, rfl, rfl⟩,
    ⟨rfl, rfl, rfl, rfl, rfl⟩, ⟨rfl, rfl, rfl, rfl, rfl⟩, ⟨rfl, rfl, rfl, rfl, rfl⟩,
    ⟨rfl, rfl, rfl, rfl⟩, ⟨rfl, rfl, rfl⟩, ?_⟩
  intro nc pre post
  have h1 : ∀ c, WhatColor r g b (ColumnWidth w c) = ColumnWidth w (WhatColor r g b c) :=
    fun _ => rfl
  have h2 : ∀ c, ActualColor r2 g2 b2 (ExpectedColor r g b c) =
      ExpectedColor r g b (ActualColor r2 g2 b2 c) := fun _ => rfl
  constructor <;> cases nc <;> simp [New, List.foldl_append, h1, h2]

end bee
